import Mathlib

/-!
# SpaceInvaders — a shallow embedding of `src/Main.cpp`

The game is one `main` function: a block of initialisation followed by a
`while` loop whose body is one frame (render, simulate, poll events).  The
embedding below turns every variable that lives across loop iterations into a
field of `State`, and every block of the loop body into a function on `State`.

Conventions.

* `size_t` is a 64-bit unsigned integer: a `Nat` below `2^64`, with every
  addition and subtraction reduced modulo `2^64` (`addU`, `subU`).
* `int` values (`dir`, `alienMoveDir`, `moveDir`) are `Int`; a conversion
  `int → size_t` is `ofInt`, the cast `(int)x` is `toInt32`.
* C arrays are lists of their declared size.  An access outside the array is
  undefined behaviour in C++: the embedding stops there and returns a `Fault`
  naming the index, so every function that touches an array returns
  `Except Fault _`.
* A loop `for (i = 0; i < n; i++)` with a `break` is a recursive function on a
  fuel argument with the loop index carried along.
-/

namespace SpaceInvaders

/-! ## Machine arithmetic -/

/-- Number of values of a `size_t` (64 bits). -/
def U64 : Nat := 18446744073709551616

/-- `a + b` on `size_t`. -/
def addU (a b : Nat) : Nat := (a + b) % U64

/-- `a - b` on `size_t`: the difference modulo `2^64`, wrapping below zero. -/
def subU (a b : Nat) : Nat :=
  if b % U64 ≤ a % U64 then a % U64 - b % U64 else U64 - (b % U64 - a % U64)

/-- Conversion `int → size_t` (value modulo `2^64`). -/
def ofInt (i : Int) : Nat := (i % (U64 : Int)).toNat

/-- The cast `(int)x` of a `size_t`: the low 32 bits read as two's complement. -/
def toInt32 (n : Nat) : Int :=
  if n % 4294967296 < 2147483648 then ((n % 4294967296 : Nat) : Int)
  else ((n % 4294967296 : Nat) : Int) - 4294967296

attribute [irreducible] U64 addU subU ofInt toInt32

/-! ## Data model (lines 85–143) -/

/-- `struct Sprite`: `data` is the row-major opacity mask. -/
structure Sprite where
  width : Nat
  height : Nat
  data : List Nat
deriving DecidableEq, Repr

/-- `struct Alien`; `type` is the `uint8_t` of `enum AlienType` (0 = dead). -/
structure Alien where
  x : Nat
  y : Nat
  type : Nat
deriving DecidableEq, Repr

/-- `struct Player`. -/
structure Player where
  x : Nat
  y : Nat
  life : Nat
deriving DecidableEq, Repr

/-- `struct Projectile`. -/
structure Projectile where
  x : Nat
  y : Nat
  dir : Int
deriving DecidableEq, Repr

/-- `GAME_MAX_PROJECTILES`. -/
def GAME_MAX_PROJECTILES : Nat := 128

/-- `struct Game`; `aliens` has `numAliens` entries, `projectiles` has
`GAME_MAX_PROJECTILES`, of which the first `numProjectiles` are in flight. -/
structure Game where
  width : Nat
  height : Nat
  numAliens : Nat
  numProjectiles : Nat
  aliens : List Alien
  player : Player
  projectiles : List Projectile
deriving DecidableEq, Repr

/-- `struct SpriteAnimation`. -/
structure SpriteAnimation where
  loop : Bool
  numFrames : Nat
  frameDuration : Nat
  time : Nat
  frames : List Sprite
deriving DecidableEq, Repr

/-- `ALIEN_DEAD`. -/
def ALIEN_DEAD : Nat := 0

/-- What stops the embedding: an access outside an array, a division by
zero, or a loop that did not finish within its fuel. -/
inductive Fault where
  | projectileIndex (i : Nat)
  | alienIndex (i : Nat)
  | animationIndex (i : Nat)
  | frameIndex (i : Nat)
  | spriteIndex (i : Nat)
  | bufferIndex (i : Nat)
  | digitIndex (i : Nat)
  | divByZero
  | diverges
deriving DecidableEq, Repr

deriving instance DecidableEq for Except

/-! ## Sprite catalogue (lines 413–642) -/

def alienSprite0 : Sprite := ⟨8, 8,
  [0,0,0,1,1,0,0,0, 0,0,1,1,1,1,0,0, 0,1,1,1,1,1,1,0, 1,1,0,1,1,0,1,1,
   1,1,1,1,1,1,1,1, 0,1,0,1,1,0,1,0, 1,0,0,0,0,0,0,1, 0,1,0,0,0,0,1,0]⟩

def alienSprite1 : Sprite := ⟨8, 8,
  [0,0,0,1,1,0,0,0, 0,0,1,1,1,1,0,0, 0,1,1,1,1,1,1,0, 1,1,0,1,1,0,1,1,
   1,1,1,1,1,1,1,1, 0,0,1,0,0,1,0,0, 0,1,0,1,1,0,1,0, 1,0,1,0,0,1,0,1]⟩

def alienSprite2 : Sprite := ⟨11, 8,
  [0,0,1,0,0,0,0,0,1,0,0, 0,0,0,1,0,0,0,1,0,0,0, 0,0,1,1,1,1,1,1,1,0,0,
   0,1,1,0,1,1,1,0,1,1,0, 1,1,1,1,1,1,1,1,1,1,1, 1,0,1,1,1,1,1,1,1,0,1,
   1,0,1,0,0,0,0,0,1,0,1, 0,0,0,1,1,0,1,1,0,0,0]⟩

def alienSprite3 : Sprite := ⟨11, 8,
  [0,0,1,0,0,0,0,0,1,0,0, 1,0,0,1,0,0,0,1,0,0,1, 1,0,1,1,1,1,1,1,1,0,1,
   1,1,1,0,1,1,1,0,1,1,1, 1,1,1,1,1,1,1,1,1,1,1, 0,1,1,1,1,1,1,1,1,1,0,
   0,0,1,0,0,0,0,0,1,0,0, 0,1,0,0,0,0,0,0,0,1,0]⟩

def alienSprite4 : Sprite := ⟨12, 8,
  [0,0,0,0,1,1,1,1,0,0,0,0, 0,1,1,1,1,1,1,1,1,1,1,0, 1,1,1,1,1,1,1,1,1,1,1,1,
   1,1,1,0,0,1,1,0,0,1,1,1, 1,1,1,1,1,1,1,1,1,1,1,1, 0,0,0,1,1,0,0,1,1,0,0,0,
   0,0,1,1,0,1,1,0,1,1,0,0, 1,1,0,0,0,0,0,0,0,0,1,1]⟩

def alienSprite5 : Sprite := ⟨12, 8,
  [0,0,0,0,1,1,1,1,0,0,0,0, 0,1,1,1,1,1,1,1,1,1,1,0, 1,1,1,1,1,1,1,1,1,1,1,1,
   1,1,1,0,0,1,1,0,0,1,1,1, 1,1,1,1,1,1,1,1,1,1,1,1, 0,0,1,1,1,0,0,1,1,1,0,0,
   0,1,1,0,0,1,1,0,0,1,1,0, 0,0,1,1,0,0,0,0,1,1,0,0]⟩

/-- `alienSprites[6]`. -/
def alienSprites : List Sprite :=
  [alienSprite0, alienSprite1, alienSprite2, alienSprite3, alienSprite4, alienSprite5]

def alienDeathSprite : Sprite := ⟨13, 7,
  [0,1,0,0,1,0,0,0,1,0,0,1,0, 0,0,1,0,0,1,0,1,0,0,1,0,0, 0,0,0,1,0,0,0,0,0,1,0,0,0,
   1,1,0,0,0,0,0,0,0,0,0,1,1, 0,0,0,1,0,0,0,0,0,1,0,0,0, 0,0,1,0,0,1,0,1,0,0,1,0,0,
   0,1,0,0,1,0,0,0,1,0,0,1,0]⟩

def playerSprite : Sprite := ⟨11, 7,
  [0,0,0,0,0,1,0,0,0,0,0, 0,0,0,0,1,1,1,0,0,0,0, 0,0,0,0,1,1,1,0,0,0,0,
   0,1,1,1,1,1,1,1,1,1,0, 1,1,1,1,1,1,1,1,1,1,1, 1,1,1,1,1,1,1,1,1,1,1,
   1,1,1,1,1,1,1,1,1,1,1]⟩

def playerProjectileSprite : Sprite := ⟨1, 3, [1, 1, 1]⟩

def alienProjectileSprite0 : Sprite := ⟨3, 7,
  [0,1,0, 1,0,0, 0,1,0, 0,0,1, 0,1,0, 1,0,0, 0,1,0]⟩

def alienProjectileSprite1 : Sprite := ⟨3, 7,
  [0,1,0, 0,0,1, 0,1,0, 1,0,0, 0,1,0, 0,0,1, 0,1,0]⟩

/-! ## Pseudo-random source (lines 70–83) -/

/-- `xorshift32`: the new generator state, which is also the value returned.
Each shift-and-xor acts on a `uint32_t`, so left shifts drop the high bits. -/
def xorshift32 (rng : Nat) : Nat :=
  let x := rng
  let x := Nat.xor x ((x <<< 13) % 4294967296)
  let x := Nat.xor x (x >>> 17)
  let x := Nat.xor x ((x <<< 5) % 4294967296)
  x

/-- Search for the exponent `k ≥ k0` with `2^52 ≤ ⌊n·2^k / d⌋`. -/
def normShift (n d : Nat) : Nat → Nat → Nat
  | 0, k => k
  | fuel + 1, k => if 4503599627370496 ≤ n * 2 ^ k / d then k else normShift n d fuel (k + 1)

/-- IEEE-754 binary64 quotient `n / d` (round to nearest, ties to even) of two
integers `0 < n ≤ d < 2^32`, returned as `(m, k)` meaning `m / 2^k`. -/
def divDouble (n d : Nat) : Nat × Nat :=
  if n = 0 then (0, 0) else
  let k := normShift n d 40 52
  let m := n * 2 ^ k / d
  let r := n * 2 ^ k % d
  let up := decide (d < 2 * r) || (decide (2 * r = d) && decide (m % 2 = 1))
  (if up then m + 1 else m, k)

/-- Number of bits of `p` beyond 53: the least `t ≥ t0` with `p < 2^(53+t)`. -/
def excessBits (p : Nat) : Nat → Nat → Nat
  | 0, t => t
  | fuel + 1, t => if p < 2 ^ (53 + t) then t else excessBits p fuel (t + 1)

/-- IEEE-754 binary64 product of the integer `c < 2^11` with the double
`m / 2^k` (`m ≤ 2^53`), returned as a pair `(p, k)` meaning `p / 2^k`. -/
def mulDouble (c : Nat) (mk : Nat × Nat) : Nat × Nat :=
  let p := c * mk.1
  let t := excessBits p 12 0
  let lo := p % 2 ^ t
  let hi := p / 2 ^ t
  let up := decide (2 ^ t < 2 * lo) || (decide (2 * lo = 2 ^ t) && decide (hi % 2 = 1))
  ((if up then hi + 1 else hi) * 2 ^ t, mk.2)

/-- The expression `game.numAliens * random(&rng)` converted to `size_t`, as a
function of the value `x` that `xorshift32` returned: the double quotient
`x / 4294967295`, the double product with `numAliens`, truncated. -/
def randomIndex (numAliens x : Nat) : Nat :=
  let pk := mulDouble numAliens (divDouble x 4294967295)
  pk.1 / 2 ^ pk.2

/-! ## Collision test (lines 158–170) -/

/-- `spriteOverlapCheck`. -/
def spriteOverlapCheck (sp_a : Sprite) (x_a y_a : Nat) (sp_b : Sprite) (x_b y_b : Nat) : Bool :=
  decide (x_a < addU x_b sp_b.width) && decide (x_b < addU x_a sp_a.width) &&
  decide (y_a < addU y_b sp_b.height) && decide (y_b < addU y_a sp_a.height)

/-! ## Program state

Every variable of `main` that is read in a later loop iteration, plus the two
globals written by the key callback. -/

/-- The variables of `main` that survive a frame (lines 645–718) and the
input globals `moveDir`, `firePressed` (lines 10–11). -/
structure State where
  game : Game
  alienAnimation : List SpriteAnimation
  alienProjectileAnimation : SpriteAnimation
  alienUpdateFrequency : Nat
  alienSwarmPosition : Nat
  alienSwarmMaxPosition : Nat
  aliensKilled : Nat
  alienUpdateTimer : Nat
  shouldChangeSpeed : Bool
  deathCounters : List Nat
  rng : Nat
  alienMoveDir : Int
  score : Nat
  credits : Nat
  moveDir : Int
  firePressed : Bool
deriving DecidableEq, Repr

/-- The alien created by the initial grid loop for row `yidx`, column `xidx`
(lines 693–699). -/
def initialAlien (yidx xidx : Nat) : Alien :=
  let type := ((5 - yidx) / 2 + 1) % 256
  let sprite := alienSprites.getD (2 * (type - 1)) alienSprite0
  { type := type
    x := 16 * xidx + 20 + subU alienDeathSprite.width sprite.width / 2
    y := 17 * yidx + 128 }

/-- The state on entry to the `while` loop (lines 645–718).  The grid loop
fills `aliens[yidx * 11 + xidx]` row by row; `Game game{}` zeroes the
projectile array. -/
def initialState : State :=
  { game :=
      { width := 224
        height := 256
        numAliens := 55
        numProjectiles := 0
        aliens := (List.range 5).flatMap fun yidx => (List.range 11).map fun xidx => initialAlien yidx xidx
        player := { x := 112 - 5, y := 32, life := 3 }
        projectiles := List.replicate GAME_MAX_PROJECTILES ⟨0, 0, 0⟩ }
    alienAnimation :=
      [ ⟨true, 2, 120, 0, [alienSprite0, alienSprite1]⟩,
        ⟨true, 2, 120, 0, [alienSprite2, alienSprite3]⟩,
        ⟨true, 2, 120, 0, [alienSprite4, alienSprite5]⟩ ]
    alienProjectileAnimation := ⟨true, 2, 5, 0, [alienProjectileSprite0, alienProjectileSprite1]⟩
    alienUpdateFrequency := 120
    alienSwarmPosition := 24
    alienSwarmMaxPosition := 224 - 16 * 11 - 3
    aliensKilled := 0
    alienUpdateTimer := 0
    shouldChangeSpeed := false
    deathCounters := List.replicate 55 10
    rng := 13
    alienMoveDir := 4
    score := 0
    credits := 0
    moveDir := 0
    firePressed := false }

/-! ## Array accesses -/

/-- Read `game.projectiles[i]`. -/
def getProj (s : State) (i : Nat) : Except Fault Projectile :=
  match s.game.projectiles[i]? with
  | some p => .ok p
  | none => .error (.projectileIndex i)

/-- Write `game.projectiles[i] = p`. -/
def setProj (s : State) (i : Nat) (p : Projectile) : Except Fault State :=
  if i < s.game.projectiles.length then
    .ok { s with game := { s.game with projectiles := s.game.projectiles.set i p } }
  else .error (.projectileIndex i)

/-- Read `game.aliens[i]`. -/
def getAlien (s : State) (i : Nat) : Except Fault Alien :=
  match s.game.aliens[i]? with
  | some a => .ok a
  | none => .error (.alienIndex i)

/-- The frame `*animation.frames[animation.time / animation.frameDuration]` of
`alienAnimation[type - 1]`, for an alien that is not dead (lines 866–868,
899–901, 774–776). -/
def currentAlienSprite (s : State) (type : Nat) : Except Fault Sprite :=
  match s.alienAnimation[type - 1]? with
  | none => .error (.animationIndex (type - 1))
  | some animation =>
    if animation.frameDuration = 0 then .error .divByZero
    else
      match animation.frames[animation.time / animation.frameDuration]? with
      | some sprite => .ok sprite
      | none => .error (.frameIndex (animation.time / animation.frameDuration))

/-! ## Projectile simulation (lines 806–890) -/

/-- The two statements `game.projectiles[pidx] = game.projectiles[game.numProjectiles - 1];
game.numProjectiles--;` (lines 811–812, 823–824, 877–878). -/
def removeProjectile (s : State) (pidx : Nat) : Except Fault State := do
  let last ← getProj s (subU s.game.numProjectiles 1)
  let s ← setProj s pidx last
  pure { s with game := { s.game with numProjectiles := subU s.game.numProjectiles 1 } }

/-- The three-way overwrite of lines 841–853 for the overlapping pair `pidx`,
`pjidx`: the slots that stay in the pool receive the last two projectiles. -/
def overwritePair (s : State) (pidx pjidx : Nat) : Except Fault State :=
  if pjidx = subU s.game.numProjectiles 1 then
    getProj s (subU s.game.numProjectiles 2) >>= fun p => setProj s pidx p
  else if pidx = subU s.game.numProjectiles 1 then
    getProj s (subU s.game.numProjectiles 2) >>= fun p => setProj s pjidx p
  else
    getProj s (subU s.game.numProjectiles 1) >>= fun p1 =>
    setProj s (if pidx < pjidx then pidx else pjidx) p1 >>= fun s1 =>
    getProj s1 (subU s.game.numProjectiles 2) >>= fun p2 =>
    setProj s1 (if pidx < pjidx then pjidx else pidx) p2

/-- The removal block run when projectiles `pidx` and `pjidx` overlap
(lines 841–854). -/
def annihilate (s : State) (pidx pjidx : Nat) : Except Fault State :=
  overwritePair s pidx pjidx >>= fun s1 =>
  pure { s1 with game := { s1.game with numProjectiles := subU s.game.numProjectiles 2 } }

/-- The loop `for (pjidx = ...; pjidx < game.numProjectiles; pjidx++)` of lines
832–857: the first `pjidx ≠ pidx` whose rectangle overlaps projectile `pidx`
is removed together with it, and the loop ends. -/
def projectileScan (pidx : Nat) : Nat → State → Nat → Except Fault State
  | 0, s, pjidx => if pjidx < s.game.numProjectiles then .error .diverges else .ok s
  | fuel + 1, s, pjidx =>
    if pjidx < s.game.numProjectiles then
      if pidx = pjidx then projectileScan pidx fuel s (pjidx + 1)
      else do
        let p ← getProj s pidx
        let pj ← getProj s pjidx
        if spriteOverlapCheck playerProjectileSprite p.x p.y alienProjectileSprite0 pj.x pj.y then
          annihilate s pidx pjidx
        else projectileScan pidx fuel s (pjidx + 1)
    else .ok s

/-- The body of `if (projectileOverlap)` for alien `aidx` hit by projectile
`pidx` while showing `alienSprite` (lines 873–882). -/
def killByProjectile (s : State) (pidx aidx : Nat) (alien : Alien) (alienSprite : Sprite) :
    Except Fault State := do
  let s := { s with score := addU s.score (ofInt (10 * (4 - (alien.type : Int)))) }
  let dead : Alien :=
    { alien with type := ALIEN_DEAD
                 x := subU alien.x (subU alienDeathSprite.width alienSprite.width / 2) }
  let s := { s with game := { s.game with aliens := s.game.aliens.set aidx dead } }
  let s ← removeProjectile s pidx
  let s := { s with aliensKilled := addU s.aliensKilled 1 }
  pure (if s.aliensKilled % 15 = 0 then { s with shouldChangeSpeed := true } else s)

/-- The loop `for (aidx = ...; aidx < game.numAliens; aidx++)` of lines 860–886:
the first alien that is not dead and whose current frame overlaps projectile
`pidx` is killed, and the loop ends. -/
def alienScan (pidx : Nat) : Nat → State → Nat → Except Fault State
  | 0, s, aidx => if aidx < s.game.numAliens then .error .diverges else .ok s
  | fuel + 1, s, aidx =>
    if aidx < s.game.numAliens then do
      let alien ← getAlien s aidx
      if alien.type = ALIEN_DEAD then alienScan pidx fuel s (aidx + 1)
      else do
        let alienSprite ← currentAlienSprite s alien.type
        let p ← getProj s pidx
        if spriteOverlapCheck playerProjectileSprite p.x p.y alienSprite alien.x alien.y then
          killByProjectile s pidx aidx alien alienSprite
        else alienScan pidx fuel s (aidx + 1)
    else .ok s

/-- How one iteration of the projectile loop ends: `continue` without
advancing `pidx` (line 813), `break` (line 825), or `pidx++` (line 889). -/
inductive Ctl where
  | again
  | stop
  | next
deriving DecidableEq, Repr

/-- Line 808: `game.projectiles[pidx].y += game.projectiles[pidx].dir;`. -/
def advanceProjectile (s : State) (pidx : Nat) : Except Fault State := do
  let p ← getProj s pidx
  setProj s pidx { p with y := addU p.y (ofInt p.dir) }

/-- The `else` branch of lines 829–887 (player bullet): the scan of the other
projectiles followed by the scan of the aliens, both for index `pidx`. -/
def resolvePlayerBullet (s : State) (pidx : Nat) : Except Fault State := do
  let s ← projectileScan pidx s.game.numProjectiles s 0
  alienScan pidx s.game.numAliens s 0

/-- One iteration of the loop of lines 806–890, for `pidx < numProjectiles`. -/
def projectileStep (s : State) (pidx : Nat) : Except Fault (State × Ctl) := do
  let s ← advanceProjectile s pidx
  let p ← getProj s pidx
  if s.game.height ≤ p.y ∨ p.y < playerProjectileSprite.height then do
    let s ← removeProjectile s pidx
    pure (s, .again)
  else if p.dir < 0 then
    if spriteOverlapCheck alienProjectileSprite0 p.x p.y playerSprite s.game.player.x s.game.player.y then do
      let s := { s with game := { s.game with player := { s.game.player with life := subU s.game.player.life 1 } } }
      let s ← removeProjectile s pidx
      pure (s, .stop)
    else pure (s, .next)
  else do
    let s ← resolvePlayerBullet s pidx
    pure (s, .next)

/-- The loop `for (pidx = 0; pidx < game.numProjectiles;)` of lines 806–890.
Every iteration either removes a projectile or advances `pidx`, so
`numProjectiles` iterations of fuel are enough. -/
def projectileLoop : Nat → State → Nat → Except Fault State
  | 0, s, pidx => if pidx < s.game.numProjectiles then .error .diverges else .ok s
  | fuel + 1, s, pidx =>
    if pidx < s.game.numProjectiles then do
      let r ← projectileStep s pidx
      match r.2 with
      | .again => projectileLoop fuel r.1 pidx
      | .stop => pure r.1
      | .next => projectileLoop fuel r.1 (pidx + 1)
    else .ok s

/-- Lines 806–890. -/
def simulateProjectiles (s : State) : Except Fault State :=
  projectileLoop s.game.numProjectiles s 0

/-! ## Alien–player collision (lines 893–916) -/

/-- The body of `if (collisionOverlap)` (lines 905–912): one life less, the
award added to the score, the alien dead and recentred, the kill counter up by
one, and the speed flag raised when the counter is a multiple of 15. -/
def killByCollision (s : State) (aidx : Nat) (alien : Alien) (alienSprite : Sprite) : State :=
  let dead : Alien :=
    { alien with type := ALIEN_DEAD
                 x := subU alien.x (subU alienDeathSprite.width alienSprite.width / 2) }
  let killed := addU s.aliensKilled 1
  { s with
    game := { s.game with
      player := { s.game.player with life := subU s.game.player.life 1 }
      aliens := s.game.aliens.set aidx dead }
    score := addU s.score (ofInt (10 * (4 - (alien.type : Int))))
    aliensKilled := killed
    shouldChangeSpeed := if killed % 15 = 0 then true else s.shouldChangeSpeed }

/-- The loop of lines 893–916: the first alien that is not dead and whose
current frame overlaps the player sprite is killed, and the loop ends. -/
def collisionScan : Nat → State → Nat → Except Fault State
  | 0, s, aidx => if aidx < s.game.numAliens then .error .diverges else .ok s
  | fuel + 1, s, aidx =>
    if aidx < s.game.numAliens then do
      let alien ← getAlien s aidx
      if alien.type = ALIEN_DEAD then collisionScan fuel s (aidx + 1)
      else do
        let alienSprite ← currentAlienSprite s alien.type
        if spriteOverlapCheck playerSprite s.game.player.x s.game.player.y alienSprite alien.x alien.y then
          pure (killByCollision s aidx alien alienSprite)
        else collisionScan fuel s (aidx + 1)
    else .ok s

/-- Lines 893–916. -/
def playerAlienCollision (s : State) : Except Fault State :=
  collisionScan s.game.numAliens s 0

/-! ## Alien simulation (lines 918–980) -/

/-- Lines 919–927: apply a pending speed change. -/
def applySpeedChange (s : State) : State :=
  if s.shouldChangeSpeed then
    let f := s.alienUpdateFrequency / 2
    { s with shouldChangeSpeed := false
             alienUpdateFrequency := f
             alienAnimation := s.alienAnimation.map (fun a => { a with frameDuration := f }) }
  else s

/-- Lines 930–937: a dead alien with a nonzero death counter counts down. -/
def updateDeathCounters (s : State) : State :=
  let counters := List.zipWith (fun (alien : Alien) (c : Nat) =>
    if alien.type = ALIEN_DEAD ∧ c ≠ 0 then c - 1 else c) s.game.aliens s.deathCounters
  { s with deathCounters := counters }

/-- Lines 946–953: the row descent applied to one alien. -/
def descend (playerY : Nat) (alien : Alien) : Alien :=
  if alien.y < subU playerY 8 then { alien with y := 188 }
  else { alien with y := subU alien.y 8 }

/-- Lines 943–965: direction flip, row descent, and the horizontal step of the
offset and of every alien.  The `if` / `else if` of lines 943–958 yields the
new direction and the aliens after a possible descent. -/
def moveSwarm (s : State) : State :=
  let flipped : Int × List Alien :=
    if toInt32 s.alienSwarmPosition + s.alienMoveDir < 0 then
      (s.alienMoveDir * -1, s.game.aliens.map (descend s.game.player.y))
    else if subU s.alienSwarmMaxPosition (ofInt s.alienMoveDir) < s.alienSwarmPosition then
      (s.alienMoveDir * -1, s.game.aliens)
    else (s.alienMoveDir, s.game.aliens)
  let aliens := flipped.2.map (fun alien => { alien with x := addU alien.x (ofInt flipped.1) })
  { s with
    alienMoveDir := flipped.1
    alienSwarmPosition := addU s.alienSwarmPosition (ofInt flipped.1)
    game := { s.game with aliens := aliens } }

/-- The rejection loop of lines 969–973: draw indices until the alien drawn is
not dead.  Returns the generator state and the index.  The generator has
period `2^32 - 1`, so `2^32` draws of fuel visit every value it can produce. -/
def pickAlien : Nat → State → Nat → Except Fault (Nat × Nat)
  | 0, _, _ => .error .diverges
  | fuel + 1, s, rng =>
    let x := xorshift32 rng
    let rai := randomIndex s.game.numAliens x
    match s.game.aliens[rai]? with
    | none => .error (.alienIndex rai)
    | some alien => if alien.type = ALIEN_DEAD then pickAlien fuel s x else .ok (x, rai)

/-- The sprite `*alienAnimation[type - 1].frames[0]` (line 974). -/
def firstAlienSprite (s : State) (type : Nat) : Except Fault Sprite :=
  match s.alienAnimation[type - 1]? with
  | none => .error (.animationIndex (type - 1))
  | some animation =>
    match animation.frames[0]? with
    | none => .error (.frameIndex 0)
    | some sprite => .ok sprite

/-- The projectile an alien fires (lines 975–977). -/
def alienShot (alien : Alien) (alienSprite : Sprite) : Projectile :=
  { x := addU alien.x (alienSprite.width / 2)
    y := subU alien.y alienProjectileSprite0.height
    dir := -2 }

/-- Lines 967–979: a random living alien fires. -/
def alienFire (s : State) : Except Fault State :=
  if s.aliensKilled < s.game.numAliens then
    pickAlien 4294967296 s s.rng >>= fun drawn =>
    getAlien s drawn.2 >>= fun alien =>
    firstAlienSprite s alien.type >>= fun alienSprite =>
    setProj { s with rng := drawn.1 } s.game.numProjectiles (alienShot alien alienSprite) >>= fun s1 =>
    pure { s1 with game := { s1.game with numProjectiles := addU s.game.numProjectiles 1 } }
  else .ok s

/-- Lines 939–980. -/
def updateAliens (s : State) : Except Fault State :=
  if s.alienUpdateFrequency ≤ s.alienUpdateTimer then
    alienFire (moveSwarm { s with alienUpdateTimer := 0 })
  else .ok s

/-! ## Animations, timer, player (lines 982–1012) -/

/-- Lines 985–989 and 991–995 for one animation. -/
def tickAnimation (a : SpriteAnimation) : SpriteAnimation :=
  let t := addU a.time 1
  if a.numFrames * a.frameDuration % U64 ≤ t then { a with time := 0 } else { a with time := t }

/-- Lines 982–997. -/
def updateAnimations (s : State) : State :=
  { s with alienAnimation := s.alienAnimation.map tickAnimation
           alienProjectileAnimation := tickAnimation s.alienProjectileAnimation
           alienUpdateTimer := addU s.alienUpdateTimer 1 }

/-- The new `player.x` of lines 1003–1011 for a nonzero `playerMoveDir`. -/
def stepPlayerX (width x : Nat) (playerMoveDir : Int) : Nat :=
  if width ≤ addU (addU x playerSprite.width) (ofInt playerMoveDir) then
    subU width playerSprite.width
  else if toInt32 x + playerMoveDir ≤ 0 then 0
  else addU x (ofInt playerMoveDir)

/-- Lines 1000–1012, with `playerMoveDir = 2 * moveDir`. -/
def movePlayer (s : State) : State :=
  if 2 * s.moveDir ≠ 0 then
    { s with game := { s.game with player := { s.game.player with
        x := stepPlayerX s.game.width s.game.player.x (2 * s.moveDir) } } }
  else s

/-! ## Swarm bounds and round reset (lines 1014–1056) -/

/-- The loop `while (game.aliens[ai].type == ALIEN_DEAD) ai++;` (line 1017). -/
def firstAlive : Nat → State → Nat → Except Fault Nat
  | 0, _, _ => .error .diverges
  | fuel + 1, s, ai => do
    let alien ← getAlien s ai
    if alien.type = ALIEN_DEAD then firstAlive fuel s (addU ai 1) else pure ai

/-- The loop `while (game.aliens[ai].type == ALIEN_DEAD) ai--;` (line 1024). -/
def lastAlive : Nat → State → Nat → Except Fault Nat
  | 0, _, _ => .error .diverges
  | fuel + 1, s, ai => do
    let alien ← getAlien s ai
    if alien.type = ALIEN_DEAD then lastAlive fuel s (subU ai 1) else pure ai

/-- The sprite `alienSprites[2 * (type - 1)]` (lines 1018, 696, 1050). -/
def liveSprite (type : Nat) : Except Fault Sprite :=
  match alienSprites[2 * (type - 1)]? with
  | some sp => .ok sp
  | none => .error (.spriteIndex (2 * (type - 1)))

/-- Lines 1016–1027: `alien` is the first alien that is not dead, `alien2` the
last one; each bound is replaced when the position computed from them is
larger. -/
def updateSwarmBounds (s : State) : Except Fault State :=
  firstAlive (s.game.aliens.length + 1) s 0 >>= fun ai =>
  getAlien s ai >>= fun alien =>
  liveSprite alien.type >>= fun sprite =>
  lastAlive (s.game.aliens.length + 1) s (subU s.game.numAliens 1) >>= fun aj =>
  getAlien s aj >>= fun alien2 =>
  pure
    { s with
      alienSwarmPosition :=
        if s.alienSwarmPosition < subU alien.x (subU alienDeathSprite.width sprite.width / 2) then
          subU alien.x (subU alienDeathSprite.width sprite.width / 2)
        else s.alienSwarmPosition
      alienSwarmMaxPosition :=
        if s.alienSwarmMaxPosition <
            addU (subU (subU s.game.width alien2.x) 13)
              (subU alien.x (subU alienDeathSprite.width sprite.width / 2)) then
          addU (subU (subU s.game.width alien2.x) 13)
            (subU alien.x (subU alienDeathSprite.width sprite.width / 2))
        else s.alienSwarmMaxPosition }

/-- The alien written by the reset loop for column `xidx`, row `yidx`
(lines 1047–1053), with `alienSwarmPosition` already reset. -/
def resetAlien (alienSwarmPosition xidx yidx : Nat) : Alien :=
  let type := ((5 - yidx) / 2 + 1) % 256
  let sprite := alienSprites.getD (2 * (type - 1)) alienSprite0
  { type := type
    x := addU (addU (16 * xidx) alienSwarmPosition) (subU alienDeathSprite.width sprite.width / 2)
    y := 17 * yidx + 128 }

/-- The body of the inner reset loop (lines 1043–1053) for one `(xidx, yidx)`. -/
def resetSlot (xidx : Nat) (s : State) (yidx : Nat) : State :=
  let aidx := xidx * 5 + yidx
  let aliens := s.game.aliens.set aidx (resetAlien s.alienSwarmPosition xidx yidx)
  { s with deathCounters := s.deathCounters.set aidx 10
           game := { s.game with aliens := aliens } }

/-- Lines 1031–1055: the round reset. -/
def resetRound (s : State) : State :=
  let s := { s with alienUpdateFrequency := 120
                    alienSwarmPosition := 24
                    aliensKilled := 0
                    alienUpdateTimer := 0
                    alienMoveDir := 4 }
  (List.range 11).foldl (fun s xidx => (List.range 5).foldl (resetSlot xidx) s) s

/-- Lines 1014–1056. -/
def roundCheck (s : State) : Except Fault State :=
  if s.aliensKilled < s.game.numAliens then updateSwarmBounds s
  else .ok (resetRound s)

/-! ## Player fire (lines 1058–1065) -/

/-- The projectile the player fires (lines 1060–1062). -/
def playerShot (player : Player) : Projectile :=
  { x := addU player.x (playerSprite.width / 2)
    y := addU player.y playerSprite.height
    dir := 2 }

/-- Lines 1058–1065. -/
def playerFire (s : State) : Except Fault State :=
  if s.firePressed = true ∧ s.game.numProjectiles < GAME_MAX_PROJECTILES then
    setProj s s.game.numProjectiles (playerShot s.game.player) >>= fun s1 =>
    pure { s1 with
      game := { s1.game with numProjectiles := addU s.game.numProjectiles 1 }
      firePressed := false }
  else .ok { s with firePressed := false }

/-! ## One frame -/

/-- The array reads of the alien drawing loop (lines 762–779): an alien that
is drawn alive reads its current animation frame. -/
def renderAlienCheck (s : State) : List (Alien × Nat) → Except Fault Unit
  | [] => .ok ()
  | (alien, c) :: rest =>
    if c = 0 ∨ alien.type = ALIEN_DEAD then renderAlienCheck s rest
    else do
      let _ ← currentAlienSprite s alien.type
      renderAlienCheck s rest

/-- The array read of the projectile drawing loop (lines 782–797): a
projectile with `dir ≤ 0` reads `alienProjectileSprite[time / frameDuration]`. -/
def renderProjectileCheck (s : State) : Nat → Nat → Except Fault Unit
  | 0, _ => .ok ()
  | fuel + 1, pidx =>
    if pidx < s.game.numProjectiles then do
      let p ← getProj s pidx
      if 0 < p.dir then renderProjectileCheck s fuel (pidx + 1)
      else if s.alienProjectileAnimation.frameDuration = 0 then .error .divByZero
      else if 2 ≤ s.alienProjectileAnimation.time / s.alienProjectileAnimation.frameDuration then
        .error (.frameIndex (s.alienProjectileAnimation.time / s.alienProjectileAnimation.frameDuration))
      else renderProjectileCheck s fuel (pidx + 1)
    else .ok ()

/-- Lines 805–1012: the simulation part of a frame, up to the round check. -/
def simulateToRoundCheck (s : State) : Except Fault State := do
  let s ← simulateProjectiles s
  let s ← playerAlienCollision s
  let s := updateDeathCounters (applySpeedChange s)
  let s ← updateAliens s
  pure (movePlayer (updateAnimations s))

/-- One iteration of the `while` loop of `main` without the event poll
(lines 720–1065), as far as the variables of `State` are concerned.  With
`player.life = 0` only the game-over screen is drawn (lines 724–737). -/
def tick (s : State) : Except Fault State :=
  if s.game.player.life = 0 then .ok s
  else do
    renderAlienCheck s (s.game.aliens.zip s.deathCounters)
    renderProjectileCheck s s.game.numProjectiles 0
    let s ← simulateToRoundCheck s
    let s ← roundCheck s
    playerFire s

/-- What `glfwPollEvents` may deliver between two frames: the net move delta
after the key events, and whether the fire key was released. -/
structure Input where
  moveDir : Int
  fire : Bool
deriving DecidableEq, Repr

/-- `glfwPollEvents()` (lines 735, 1067) through `keyCallback` (lines 235–260). -/
def pollEvents (s : State) (e : Input) : State :=
  { s with moveDir := e.moveDir
           firePressed := s.firePressed || e.fire }

/-- One full iteration of the `while` loop. -/
def frame (s : State) (e : Input) : Except Fault State := do
  let s ← tick s
  pure (pollEvents s e)

/-- Consecutive frames. -/
def run (s : State) : List Input → Except Fault State
  | [] => .ok s
  | e :: es => do
    let s ← frame s e
    run s es

/-- States the program can be in at the top of the `while` loop: the initial
state, and what a frame makes of such a state when the events polled leave a
move delta of -1, 0 or 1. -/
inductive Reachable : State → Prop where
  | init : Reachable initialState
  | step {s s1 : State} (e : Input) :
      Reachable s → (e.moveDir = -1 ∨ e.moveDir = 0 ∨ e.moveDir = 1) →
      frame s e = .ok s1 → Reachable s1

/-- The player-fire step run `k` times with the fire key released before each
one and nothing else happening in between. -/
def fireRepeatedly : Nat → State → Except Fault State
  | 0, s => .ok s
  | k + 1, s => do
    let s ← playerFire { s with firePressed := true }
    fireRepeatedly k s

/-- Number of aliens that are not dead. -/
def aliveCount (s : State) : Nat :=
  s.game.aliens.countP fun a => decide (a.type ≠ ALIEN_DEAD)

/-- The state in the middle of the reset loops, after the first `m` slots
`0 .. m-1` of `aliens` and `deathCounters` have been rewritten. -/
def resetProgress (s : State) (m : Nat) : State :=
  { s with
    deathCounters := List.replicate m 10 ++ s.deathCounters.drop m
    game := { s.game with
      aliens := (List.range m).map (fun i => resetAlien s.alienSwarmPosition (i / 5) (i % 5)) ++
        s.game.aliens.drop m } }

/-- The alien scan of lines 860–886 passes over alien `a` for a projectile at
`p`: the alien is dead, or its current frame does not overlap the projectile. -/
def scanSkips (s : State) (p : Projectile) (a : Alien) : Prop :=
  a.type = ALIEN_DEAD ∨
    ∃ sp, currentAlienSprite s a.type = .ok sp ∧
      spriteOverlapCheck playerProjectileSprite p.x p.y sp a.x a.y = false

/-- The initial state with one player shot stored, just under alien 0. -/
def hitState : State :=
  { initialState with
    game := { initialState.game with
      numProjectiles := 1
      projectiles := initialState.game.projectiles.set 0 ⟨25, 127, 2⟩ } }

/-- The events polled at the end of frame `t` of the run that ends in a
removal from an empty pool: the left key is held during the first 40 frames
and the fire key is released once, during frame 76. -/
def underflowInput (t : Nat) : Input :=
  { moveDir := if t < 40 then -1 else 0
    fire := decide (t = 76) }

/-- The state at the top of the loop after `t ≤ 121` frames of that run: the
player has walked from `x = 107` to `x = 27`, its shot left in frame 77 from
`(32, 39)` and climbs 2 per frame, and in frame 120 the swarm takes its first
step and alien 0 fires from `(30, 121)`. -/
def underflowState (t : Nat) : State :=
  { initialState with
    game := { initialState.game with
      numProjectiles := if t ≤ 77 then 0 else if t ≤ 120 then 1 else 2
      aliens :=
        if t ≤ 120 then initialState.game.aliens
        else initialState.game.aliens.map fun a => { a with x := a.x + 4 }
      player := { x := 107 - 2 * min (t - 1) 40, y := 32, life := 3 }
      projectiles :=
        if t ≤ 77 then initialState.game.projectiles
        else if t ≤ 120 then initialState.game.projectiles.set 0 ⟨32, 39 + 2 * (t - 78), 2⟩
        else (initialState.game.projectiles.set 0 ⟨32, 125, 2⟩).set 1 ⟨30, 121, -2⟩ }
    alienAnimation := initialState.alienAnimation.map fun a => { a with time := t }
    alienProjectileAnimation := { initialState.alienProjectileAnimation with time := t % 10 }
    alienSwarmPosition := if t ≤ 120 then 24 else 28
    alienSwarmMaxPosition := if t = 0 then 45 else 49
    alienUpdateTimer := if t ≤ 120 then t else 1
    rng := if t ≤ 120 then 13 else 3514797
    moveDir := if 1 ≤ t ∧ t ≤ 40 then -1 else 0
    firePressed := decide (t = 77) }

/-- A pool of three: an early player shot far up the screen, the player shot
`p` just under alien 0, and the alien shot `q` that overlaps `p`; the swarm
has taken its first step.  (In play: the state of `underflowState 121` with one
more shot fired in frame 24, after the first two advances of frame 121.) -/
def annihilationState : State :=
  { underflowState 121 with
    game := { (underflowState 121).game with
      numProjectiles := 3
      projectiles :=
        ((initialState.game.projectiles.set 0 ⟨64, 233, 2⟩).set 1 ⟨32, 127, 2⟩).set 2
          ⟨30, 121, -2⟩ } }

/-- What a stretch of simulation without a round reset does to the aliens and
the score, from `s` to `s1`: the arrays keep their sizes, an alien that is
dead stays dead, the number of aliens alive does not grow, and (with three
animations and a score far enough from `2^64`) the score does not decrease
while `score + 30 * (aliens alive)` does not grow. -/
def Progress (s s1 : State) : Prop :=
  s1.alienAnimation.length = s.alienAnimation.length ∧
  s1.game.aliens.length = s.game.aliens.length ∧
  (∀ (i : Nat) (a : Alien), s.game.aliens[i]? = some a → a.type = ALIEN_DEAD →
    ∃ a1, s1.game.aliens[i]? = some a1 ∧ a1.type = ALIEN_DEAD) ∧
  aliveCount s1 ≤ aliveCount s ∧
  (s.alienAnimation.length = 3 → s.score + 30 * aliveCount s < U64 →
    s.score ≤ s1.score ∧ s1.score + 30 * aliveCount s1 ≤ s.score + 30 * aliveCount s)

/-- The state `s` with its projectile array and count replaced. -/
def setPool (s : State) (l : List Projectile) (n : Nat) : State :=
  { s with game := { s.game with projectiles := l, numProjectiles := n } }

/-- The state `s` with one life taken from the player (lines 822, 905). -/
def loseLife (s : State) : State :=
  { s with game := { s.game with player := { s.game.player with life := subU s.game.player.life 1 } } }

/-- The part of a kill that both kill sites share (lines 871–874 and 879–882,
906–912): the award is added to the score, alien `aidx` becomes dead and is
recentred, the kill counter goes up by one and the speed flag is raised when
the counter is a multiple of 15. -/
def killAlien (s : State) (aidx : Nat) (alien : Alien) (alienSprite : Sprite) : State :=
  { s with
    game := { s.game with
      aliens := s.game.aliens.set aidx
        { alien with type := ALIEN_DEAD
                     x := subU alien.x (subU alienDeathSprite.width alienSprite.width / 2) } }
    score := addU s.score (ofInt (10 * (4 - (alien.type : Int))))
    aliensKilled := addU s.aliensKilled 1
    shouldChangeSpeed := if addU s.aliensKilled 1 % 15 = 0 then true else s.shouldChangeSpeed }

/-- A relation between the state before and after a stretch of the frame that
holds across each elementary change made by the projectile loop and the
collision scan: a rewrite of the pool, the loss of a life, and the kill of an
alien that is alive and reads its current frame. -/
structure StepRel (R : State → State → Prop) : Prop where
  refl : ∀ s, R s s
  trans : ∀ {s s1 s2 : State}, R s s1 → R s1 s2 → R s s2
  pool : ∀ (s : State) (l : List Projectile) (n : Nat), R s (setPool s l n)
  life : ∀ s, R s (loseLife s)
  kill : ∀ (s : State) (aidx : Nat) (alien : Alien) (sp : Sprite),
    s.game.aliens[aidx]? = some alien → alien.type ≠ ALIEN_DEAD →
    currentAlienSprite s alien.type = .ok sp → R s (killAlien s aidx alien sp)

/-- How the move interval stands to the kill counter of the round: it is
`120 / 2^h` after `h ≤ 3` halvings, each of which took 15 kills, one more
being due while the speed flag is raised. -/
def speedOk (freq killed : Nat) (flag : Bool) : Prop :=
  (freq = 120 ∧ 15 * (if flag then 1 else 0) ≤ killed) ∨
  (freq = 60 ∧ 15 * (if flag then 2 else 1) ≤ killed) ∨
  (freq = 30 ∧ 15 * (if flag then 3 else 2) ≤ killed) ∨
  (freq = 15 ∧ 15 * (if flag then 4 else 3) ≤ killed)

/-- What holds of the swarm bookkeeping at every point of a frame: the arrays
have their declared sizes, the kill counter counts the dead aliens, and the
move interval and the frame durations are those of `speedOk`. -/
structure InvSpeed (s : State) : Prop where
  aliens : s.game.aliens.length = 55
  counters : s.deathCounters.length = 55
  killed : s.aliensKilled + aliveCount s = 55
  speed : speedOk s.alienUpdateFrequency s.aliensKilled s.shouldChangeSpeed
  frames : s.alienAnimation.map (fun a => a.frameDuration) = [120, 120, 120] ∨
    s.alienAnimation.map (fun a => a.frameDuration) = [60, 60, 60] ∨
    s.alienAnimation.map (fun a => a.frameDuration) = [30, 30, 30] ∨
    s.alienAnimation.map (fun a => a.frameDuration) = [15, 15, 15]

/-- The bookkeeping invariant at a point of the frame where no speed change is
pending: at the top of the loop, and from the speed-change step on. -/
def Settled (s : State) : Prop := InvSpeed s ∧ s.shouldChangeSpeed = false

/-- A projectile inside the rows where the advance step keeps it, moving two
pixels per tick. -/
def inFlight (p : Projectile) : Prop := 3 ≤ p.y ∧ p.y < 256 ∧ (p.dir = 2 ∨ p.dir = -2)

/-- Every one of the first `n` projectiles of `l` is in flight. -/
def poolOk (l : List Projectile) (n : Nat) : Prop :=
  ∀ (i : Nat) (p : Projectile), i < n → l[i]? = some p → inFlight p

/-- What holds of the pool between the steps of a frame: the game is 256 rows
high with the player on row 32, the pool has its 128 slots of which at most 128
are in use, every alien is between rows 16 and 196, and every projectile stored
is in flight. -/
structure InvPool (s : State) : Prop where
  height : s.game.height = 256
  playerY : s.game.player.y = 32
  capacity : s.game.projectiles.length = 128
  count : s.game.numProjectiles ≤ 128
  alienY : ∀ a ∈ s.game.aliens, 16 ≤ a.y ∧ a.y ≤ 196
  pool : poolOk s.game.projectiles s.game.numProjectiles

/-- A state on the verge of a row descent: the swarm offset is 0 with the swarm
moving left, and every alien stands 96 rows (twelve descents) below its row of
the initial grid, so that row 0 is on the player's row, `y = 32`. -/
def descentState : State :=
  { initialState with
    alienSwarmPosition := 0
    alienMoveDir := -4
    game := { initialState.game with
      aliens := initialState.game.aliens.map fun a => { a with y := a.y - 96 } } }

/-- The initial grid after the alien of row 0, column 0 (index 0) was killed. -/
def cornerDeadState : State :=
  killAlien initialState 0 ⟨20, 128, 3⟩ alienSprite4

/-! ## Drawing (lines 150–211) -/

/-- `struct Buffer`: `data` holds `width * height` pixels, row by row. -/
structure Buffer where
  width : Nat
  height : Nat
  data : List Nat
deriving DecidableEq, Repr

/-- Read `sprite.data[i]`. -/
def getMask (sprite : Sprite) (i : Nat) : Except Fault Nat :=
  match sprite.data[i]? with
  | some m => .ok m
  | none => .error (.spriteIndex i)

/-- Write `buffer->data[i] = color`. -/
def setPixel (buffer : Buffer) (i color : Nat) : Except Fault Buffer :=
  if i < buffer.data.length then .ok { buffer with data := buffer.data.set i color }
  else .error (.bufferIndex i)

/-- The body of the inner loop of `drawSprite` (lines 178–184) for the mask
cell `(xidx, yidx)`: `sy = sprite.height - 1 + y - yidx`, `sx = x + xidx`, and
the pixel is written when the mask cell is not zero and `(sx, sy)` is inside
the buffer. -/
def drawCell (sprite : Sprite) (x y color xidx : Nat) (buffer : Buffer) (yidx : Nat) :
    Except Fault Buffer :=
  getMask sprite ((yidx * sprite.width + xidx) % U64) >>= fun m =>
  if m ≠ 0 ∧ subU (addU (subU sprite.height 1) y) yidx < buffer.height ∧
      addU x xidx < buffer.width then
    setPixel buffer
      ((subU (addU (subU sprite.height 1) y) yidx * buffer.width + addU x xidx) % U64) color
  else .ok buffer

/-- `drawSprite` (lines 172–187): the loop over `xidx` around the loop over
`yidx`. -/
def drawSprite (buffer : Buffer) (sprite : Sprite) (x y color : Nat) : Except Fault Buffer :=
  (List.range sprite.width).foldlM
    (fun b xidx => (List.range sprite.height).foldlM (drawCell sprite x y color xidx) b) buffer

/-- The `do … while (current_number > 0)` loop of `drawNumber` (lines 195–199):
the digits of `current_number`, least significant first, appended to the 64
bytes of `digits`. -/
def digitsLoop : Nat → Nat → List Nat → Except Fault (List Nat)
  | 0, _, _ => .error .diverges
  | fuel + 1, current, digits =>
    if digits.length < 64 then
      if 0 < current / 10 then digitsLoop fuel (current / 10) (digits ++ [current % 10])
      else .ok (digits ++ [current % 10])
    else .error (.digitIndex digits.length)

/-- The sprite of glyph `digit`: the sheet with
`data = numberSpritesheet.data + digit * stride` (lines 202–207). -/
def glyph (sheet : Sprite) (digit : Nat) : Sprite :=
  { sheet with data := sheet.data.drop (digit * (sheet.width * sheet.height) % U64) }

/-- The loop `for (i = 0; i < num_digits; i++)` of `drawNumber` (lines 204–210),
with `k` iterations left: glyph `digits[num_digits - i - 1]` is drawn at `xp`
and `xp` moves on by `sprite.width + 1`. -/
def blitDigits (sheet : Sprite) (digits : List Nat) (y color : Nat) :
    Nat → Nat → Nat → Buffer → Except Fault Buffer
  | 0, _, _, buffer => .ok buffer
  | k + 1, i, xp, buffer =>
    match digits[digits.length - i - 1]? with
    | none => .error (.digitIndex (digits.length - i - 1))
    | some digit =>
      drawSprite buffer (glyph sheet digit) xp y color >>= fun b =>
      blitDigits sheet digits y color k (i + 1) (addU xp (addU sheet.width 1)) b

/-- `drawNumber` (lines 189–211). -/
def drawNumber (buffer : Buffer) (numberSpritesheet : Sprite) (number x y color : Nat) :
    Except Fault Buffer :=
  digitsLoop 64 number [] >>= fun digits =>
  blitDigits numberSpritesheet digits y color digits.length 0 x buffer

/-- The decimal digits of `n`, most significant first; the single digit 0 for
`n = 0`.  (What the spec calls the base-10 digit decomposition.) -/
def decimalDigits (n : Nat) : List Nat :=
  if n = 0 then [0] else (Nat.digits 10 n).reverse

/-- The buffer has the pixels of its dimensions. -/
def Buffer.wellFormed (b : Buffer) : Prop := b.data.length = b.width * b.height

/-- The mask cell `(xidx, yidx)` of a sprite drawn at `(x, y)` is not zero and
lands on the pixel with index `k` of a buffer `width` by `height`, with the
arithmetic of `drawCell`. -/
def paints (sprite : Sprite) (x y width height xidx yidx k : Nat) : Prop :=
  (∃ m, sprite.data[(yidx * sprite.width + xidx) % U64]? = some m ∧ m ≠ 0) ∧
    subU (addU (subU sprite.height 1) y) yidx < height ∧ addU x xidx < width ∧
    k = (subU (addU (subU sprite.height 1) y) yidx * width + addU x xidx) % U64

/-- The state three frames into a run in which the fire key is released during
each of the first two frames and nothing else happens: two player shots are
stored, the first at `y = 41`, the second, just fired, at `y = 39`. -/
def doubleShotState : State :=
  { initialState with
    game := { initialState.game with
      numProjectiles := 2
      projectiles :=
        (initialState.game.projectiles.set 0 ⟨112, 41, 2⟩).set 1 ⟨112, 39, 2⟩ }
    alienAnimation := initialState.alienAnimation.map fun a => { a with time := 3 }
    alienProjectileAnimation := { initialState.alienProjectileAnimation with time := 3 }
    alienSwarmMaxPosition := 49
    alienUpdateTimer := 3 }

/-- A state with the swarm at the left end of its sweep: no alien was killed,
the swarm has taken 6 steps to the right and 11 to the left, so the grid
created at `x = 16 c + 20 + δ` stands at `x = 16 c + δ` while the tracked offset,
created as 24, is 4, with the swarm moving left. -/
def leftEdgeState : State :=
  { initialState with
    alienSwarmPosition := 4
    alienSwarmMaxPosition := 49
    alienMoveDir := -4
    game := { initialState.game with
      aliens := initialState.game.aliens.map fun a => { a with x := a.x - 20 } } }

/-- A state with one life left in which the aliens have come down to the
player's row (as in `descentState`) and an alien shot stands just above the
player: the shot's next advance hits the player, and the alien of row 0,
column 5 overlaps the player. -/
def lastLifeState : State :=
  { descentState with
    game := { descentState.game with
      player := { x := 107, y := 32, life := 1 }
      numProjectiles := 1
      projectiles := initialState.game.projectiles.set 0 ⟨110, 39, -2⟩ } }

/-- The events polled at the end of frame `t` of the run that ends with a
projectile that is not advanced: the right key is held during the first two
frames, and the fire key is released during frames 2 and 6. -/
def skipInput (t : Nat) : Input :=
  { moveDir := if t < 2 then 1 else 0
    fire := decide (t = 2 ∨ t = 6) }

/-- The state at the top of the loop after `t ≤ 47` frames of that run: the
player has walked from `x = 107` to `x = 111`; its first shot left in frame 3
from `(116, 39)`, its second in frame 7, and both climb 2 per frame. -/
def skipState (t : Nat) : State :=
  { initialState with
    game := { initialState.game with
      numProjectiles := if t ≤ 3 then 0 else if t ≤ 7 then 1 else 2
      player := { x := 107 + 2 * min (t - 1) 2, y := 32, life := 3 }
      projectiles :=
        if t ≤ 3 then initialState.game.projectiles
        else if t ≤ 7 then initialState.game.projectiles.set 0 ⟨116, 39 + 2 * (t - 4), 2⟩
        else (initialState.game.projectiles.set 0 ⟨116, 39 + 2 * (t - 4), 2⟩).set 1
          ⟨116, 39 + 2 * (t - 8), 2⟩ }
    alienAnimation := initialState.alienAnimation.map fun a => { a with time := t }
    alienProjectileAnimation := { initialState.alienProjectileAnimation with time := t % 10 }
    alienSwarmMaxPosition := if t = 0 then 45 else 49
    alienUpdateTimer := t
    moveDir := if 1 ≤ t ∧ t ≤ 2 then 1 else 0
    firePressed := decide (t = 3 ∨ t = 7) }

/-- The parts of the state that are set up before the loop and that no frame
changes: the number of aliens, the width of the game, the frame count and the
frames of every alien animation, and the alien-projectile animation apart from
its time. -/
def shapeOf (s : State) : Nat × Nat × List (Nat × List Sprite) × Nat × Nat × List Sprite :=
  (s.game.numAliens, s.game.width,
    s.alienAnimation.map (fun a => (a.numFrames, a.frames)),
    s.alienProjectileAnimation.numFrames, s.alienProjectileAnimation.frameDuration,
    s.alienProjectileAnimation.frames)

/-- Every animation is inside its cycle: `time < numFrames * frameDuration`. -/
def animOk (s : State) : Prop :=
  (∀ a ∈ s.alienAnimation, a.time < a.numFrames * a.frameDuration) ∧
    s.alienProjectileAnimation.time <
      s.alienProjectileAnimation.numFrames * s.alienProjectileAnimation.frameDuration

/-- The value of type `char` of the `int` `i`, with `char` a signed byte (as
for the compilers this program is built with; for the codes 0..127 of ASCII,
the digits among them, a `char` without sign gives the same). -/
def toChar (i : Int) : Int := (i + 128) % 256 - 128

/-- One iteration of the loop of `drawText` (lines 218–226), for the character
`c`, on the cursor `xp` and the buffer: a character outside the 65 glyphs is
passed over, any other has its glyph drawn and moves the cursor on by
`sprite.width + 1`. -/
def drawChar (textSpritesheet : Sprite) (y color : Nat) (st : Nat × Buffer) (c : Int) :
    Except Fault (Nat × Buffer) :=
  if toChar (c - 32) < 0 ∨ 65 ≤ toChar (c - 32) then .ok st
  else
    drawSprite st.2 (glyph textSpritesheet (ofInt (toChar (c - 32)))) st.1 y color >>= fun b =>
    pure (addU st.1 (addU textSpritesheet.width 1), b)

/-- `drawText` (lines 213–227); `text` holds the characters before the
terminating `\0`. -/
def drawText (buffer : Buffer) (textSpritesheet : Sprite) (text : List Int)
    (x y color : Nat) : Except Fault Buffer :=
  text.foldlM (drawChar textSpritesheet y color) (x, buffer) >>= fun st => pure st.2

/-- `numberSpritesheet` (lines 604–605): the text sheet with `data` moved on by
`16 * 35`, sixteen glyphs of 5 × 7. -/
def numberSheet (textSpritesheet : Sprite) : Sprite :=
  { textSpritesheet with data := textSpritesheet.data.drop (16 * 35) }

/-- The decimal string of `n`: the characters `'0'` (48) to `'9'` (57) of its
digits, most significant first. -/
def decimalString (n : Nat) : List Int :=
  (decimalDigits n).map fun (d : Nat) => (48 : Int) + (d : Int)

/-! # Theorems -/

/-! ## Machine arithmetic -/

theorem addU_eq {a b : Nat} (h : a + b < U64) : addU a b = a + b := by
  unfold addU; exact Nat.mod_eq_of_lt h

theorem subU_eq {a b : Nat} (hb : b ≤ a) (ha : a < U64) : subU a b = a - b := by
  unfold subU U64 at *
  split <;> omega

/-- The one-expression form of `subU`. -/
theorem subU_eq_mod (a b : Nat) : subU a b = (a + (U64 - b % U64)) % U64 := by
  unfold subU U64
  split <;> omega

/-! ## C10 -/

/-- C10: for sprites of width and height at least 1 whose right and top edges
do not overflow, `spriteOverlapCheck` is true exactly when some pixel
coordinate lies in both rectangles, and its result does not depend on the
masks. -/
theorem spriteOverlapCheck_iff_rectangles_meet (A B : Sprite) (xA yA xB yB : Nat)
    (hwA : 1 ≤ A.width) (hhA : 1 ≤ A.height) (hwB : 1 ≤ B.width) (hhB : 1 ≤ B.height)
    (hxA : xA + A.width < U64) (hyA : yA + A.height < U64)
    (hxB : xB + B.width < U64) (hyB : yB + B.height < U64) :
    (spriteOverlapCheck A xA yA B xB yB = true ↔
      ∃ px py : Nat, (xA ≤ px ∧ px < xA + A.width) ∧ (yA ≤ py ∧ py < yA + A.height) ∧
        (xB ≤ px ∧ px < xB + B.width) ∧ (yB ≤ py ∧ py < yB + B.height)) ∧
    (∀ dA dB : List Nat,
      spriteOverlapCheck { A with data := dA } xA yA { B with data := dB } xB yB =
        spriteOverlapCheck A xA yA B xB yB) := by
  refine ⟨?_, fun _ _ => rfl⟩
  simp only [spriteOverlapCheck, addU_eq hxA, addU_eq hyA, addU_eq hxB, addU_eq hyB,
    Bool.and_eq_true, decide_eq_true_eq]
  constructor
  · rintro ⟨⟨⟨h1, h2⟩, h3⟩, h4⟩
    exact ⟨max xA xB, max yA yB, by omega⟩
  · rintro ⟨px, py, h⟩
    omega

theorem spriteOverlapCheck_iff_rectangles_meet_witness :
    (spriteOverlapCheck playerProjectileSprite 32 127 alienProjectileSprite0 30 121 = true ↔
      ∃ px py : Nat, (32 ≤ px ∧ px < 32 + playerProjectileSprite.width) ∧
        (127 ≤ py ∧ py < 127 + playerProjectileSprite.height) ∧
        (30 ≤ px ∧ px < 30 + alienProjectileSprite0.width) ∧
        (121 ≤ py ∧ py < 121 + alienProjectileSprite0.height)) ∧
    (∀ dA dB : List Nat,
      spriteOverlapCheck { playerProjectileSprite with data := dA } 32 127
          { alienProjectileSprite0 with data := dB } 30 121 =
        spriteOverlapCheck playerProjectileSprite 32 127 alienProjectileSprite0 30 121) :=
  spriteOverlapCheck_iff_rectangles_meet playerProjectileSprite alienProjectileSprite0 32 127 30 121
    (by decide!) (by decide!) (by decide!) (by decide!) (by decide!) (by decide!) (by decide!) (by decide!)

/-! ## C2 -/

/-- What `playerFire` returns when the latch is set and the pool has room. -/
theorem playerFire_room (s : State) (hlen : s.game.projectiles.length = GAME_MAX_PROJECTILES)
    (hf : s.firePressed = true) (hn : s.game.numProjectiles < GAME_MAX_PROJECTILES) :
    playerFire s = .ok
      { s with
        game := { s.game with
          projectiles := s.game.projectiles.set s.game.numProjectiles
            ⟨addU s.game.player.x 5, addU s.game.player.y 7, 2⟩
          numProjectiles := addU s.game.numProjectiles 1 }
        firePressed := false } := by
  have h5 : playerSprite.width / 2 = 5 := by decide!
  have h7 : playerSprite.height = 7 := by decide!
  simp [playerFire, playerShot, setProj, hf, hn, hlen, h5, h7, bind, Except.bind, pure,
    Except.pure]

/-- What `playerFire` returns when the latch is clear or the pool is full. -/
theorem playerFire_drop (s : State)
    (h : s.firePressed = false ∨ GAME_MAX_PROJECTILES ≤ s.game.numProjectiles) :
    playerFire s = .ok { s with firePressed := false } := by
  rcases h with h | h
  · simp [playerFire, h]
  · have : ¬ s.game.numProjectiles < GAME_MAX_PROJECTILES := by omega
    simp [playerFire, this]

/-- Repeated fire requests fill the pool up to its capacity and no further. -/
theorem fireRepeatedly_count (k : Nat) : ∀ s : State,
    s.game.projectiles.length = GAME_MAX_PROJECTILES →
    s.game.numProjectiles ≤ GAME_MAX_PROJECTILES →
    ∃ s1, fireRepeatedly k s = .ok s1 ∧
      s1.game.numProjectiles = min (s.game.numProjectiles + k) GAME_MAX_PROJECTILES := by
  induction k with
  | zero => intro s _ hn; exact ⟨s, rfl, by simp [hn]⟩
  | succ k ih =>
    intro s hlen hn
    by_cases hfull : s.game.numProjectiles < GAME_MAX_PROJECTILES
    · have hstep := playerFire_room { s with firePressed := true } hlen rfl hfull
      have hadd : addU s.game.numProjectiles 1 = s.game.numProjectiles + 1 :=
        addU_eq (by unfold GAME_MAX_PROJECTILES at hfull; unfold U64; omega)
      obtain ⟨s1, h1, h2⟩ := ih
        { s with
          game := { s.game with
            projectiles := s.game.projectiles.set s.game.numProjectiles
              ⟨addU s.game.player.x 5, addU s.game.player.y 7, 2⟩
            numProjectiles := addU s.game.numProjectiles 1 }
          firePressed := false }
        (by simpa using hlen)
        (show addU s.game.numProjectiles 1 ≤ GAME_MAX_PROJECTILES by rw [hadd]; omega)
      refine ⟨s1, ?_, ?_⟩
      · simp only [fireRepeatedly, hstep, bind, Except.bind]
        exact h1
      · rw [h2]
        show min (addU s.game.numProjectiles 1 + k) _ = _
        rw [hadd]; congr 1; omega
    · have hstep := playerFire_drop { s with firePressed := true } (Or.inr (by simpa using hfull))
      obtain ⟨s1, h1, h2⟩ := ih { s with firePressed := false } hlen hn
      refine ⟨s1, ?_, ?_⟩
      · simp only [fireRepeatedly, hstep, bind, Except.bind]
        exact h1
      · rw [h2]
        show min (s.game.numProjectiles + k) _ = _
        unfold GAME_MAX_PROJECTILES at *
        omega

/-- C2: the player-fire step.  With the latch set and fewer than 128
projectiles stored, one projectile `(player.x + 5, player.y + 7, +2)` (in
`size_t` arithmetic) is written at index `numProjectiles`, every other slot
keeps its content and the count grows by one; with 128 stored the pool and its
count are left as they are; the latch is clear afterwards in both cases; and
129 fire requests on an empty pool store exactly 128 projectiles. -/
theorem playerFire_appends_or_drops (s : State)
    (hlen : s.game.projectiles.length = GAME_MAX_PROJECTILES) :
    (s.firePressed = true → s.game.numProjectiles < GAME_MAX_PROJECTILES →
      ∃ s1, playerFire s = .ok s1 ∧
        s1.game.numProjectiles = s.game.numProjectiles + 1 ∧
        s1.game.projectiles[s.game.numProjectiles]? =
          some ⟨(s.game.player.x + 5) % U64, (s.game.player.y + 7) % U64, 2⟩ ∧
        (∀ i, i ≠ s.game.numProjectiles → s1.game.projectiles[i]? = s.game.projectiles[i]?) ∧
        s1.firePressed = false) ∧
    (s.game.numProjectiles = GAME_MAX_PROJECTILES →
      ∃ s1, playerFire s = .ok s1 ∧ s1.game = s.game ∧ s1.firePressed = false) ∧
    (s.game.numProjectiles = 0 →
      ∃ s1, fireRepeatedly 129 s = .ok s1 ∧ s1.game.numProjectiles = 128) := by
  refine ⟨fun hf hn => ?_, fun hn => ?_, fun hn => ?_⟩
  · refine ⟨_, playerFire_room s hlen hf hn, ?_, ?_, ?_, rfl⟩
    · exact addU_eq (by unfold GAME_MAX_PROJECTILES at hn; unfold U64; omega)
    · simp [addU, hlen, hn]
    · intro i hi
      simp [List.getElem?_set, Ne.symm hi]
  · exact ⟨_, playerFire_drop s (Or.inr (by omega)), rfl, rfl⟩
  · obtain ⟨s1, h1, h2⟩ := fireRepeatedly_count 129 s hlen (by omega)
    exact ⟨s1, h1, by rw [h2, hn]; decide⟩

theorem playerFire_appends_or_drops_witness :
    (initialState.firePressed = true →
      initialState.game.numProjectiles < GAME_MAX_PROJECTILES →
      ∃ s1, playerFire initialState = .ok s1 ∧
        s1.game.numProjectiles = initialState.game.numProjectiles + 1 ∧
        s1.game.projectiles[initialState.game.numProjectiles]? =
          some ⟨(initialState.game.player.x + 5) % U64, (initialState.game.player.y + 7) % U64, 2⟩ ∧
        (∀ i, i ≠ initialState.game.numProjectiles →
          s1.game.projectiles[i]? = initialState.game.projectiles[i]?) ∧
        s1.firePressed = false) ∧
    (initialState.game.numProjectiles = GAME_MAX_PROJECTILES →
      ∃ s1, playerFire initialState = .ok s1 ∧ s1.game = initialState.game ∧
        s1.firePressed = false) ∧
    (initialState.game.numProjectiles = 0 →
      ∃ s1, fireRepeatedly 129 initialState = .ok s1 ∧ s1.game.numProjectiles = 128) :=
  playerFire_appends_or_drops initialState (List.length_replicate _ _)

/-! ## C6 -/

/-- C6: with `player.life = 0` a tick returns the state it was given, so the
player, the aliens, the death counters, the projectile pool and its count, the
score, the kill counter, the swarm variables, the animation clocks and the
generator state are all unchanged. -/
theorem tick_game_over_freezes (s : State) (h : s.game.player.life = 0) :
    tick s = .ok s := by
  simp [tick, h]

theorem tick_game_over_freezes_witness :
    tick { initialState with game := { initialState.game with player := ⟨107, 32, 0⟩ } } =
      .ok { initialState with game := { initialState.game with player := ⟨107, 32, 0⟩ } } :=
  tick_game_over_freezes _ rfl

/-! ## C7 -/

theorem set_past_front {α : Type} (pre l : List α) (v : α) (k : Nat)
    (hk : pre.length = k) (hl : k < l.length) :
    (pre ++ l.drop k).set k v = (pre ++ [v]) ++ l.drop (k + 1) := by
  subst hk
  rw [List.set_append_right _ _ (le_refl _)]
  simp only [Nat.sub_self, List.append_assoc, List.singleton_append]
  congr 1
  rw [List.drop_eq_getElem_cons hl]
  rfl

theorem resetSlot_progress (s : State) (xidx yidx : Nat) (hy : yidx < 5)
    (hd : xidx * 5 + yidx < s.deathCounters.length)
    (ha : xidx * 5 + yidx < s.game.aliens.length) :
    resetSlot xidx (resetProgress s (xidx * 5 + yidx)) yidx =
      resetProgress s (xidx * 5 + yidx + 1) := by
  have h1 : (xidx * 5 + yidx) / 5 = xidx := by omega
  have h2 : (xidx * 5 + yidx) % 5 = yidx := by omega
  simp only [resetSlot, resetProgress]
  rw [set_past_front _ _ _ _ (by simp) hd, set_past_front _ _ _ _ (by simp) ha]
  simp only [List.range_succ, List.map_append, List.map_cons, List.map_nil, h1, h2,
    List.replicate_succ']

theorem resetColumn_progress (s : State) (xidx : Nat)
    (hd : xidx * 5 + 5 ≤ s.deathCounters.length) (ha : xidx * 5 + 5 ≤ s.game.aliens.length) :
    ∀ k, k ≤ 5 →
      (List.range k).foldl (resetSlot xidx) (resetProgress s (xidx * 5)) =
        resetProgress s (xidx * 5 + k) := by
  intro k
  induction k with
  | zero => intro _; rfl
  | succ k ih =>
    intro hk
    rw [List.range_succ, List.foldl_append, ih (by omega)]
    simp only [List.foldl_cons, List.foldl_nil]
    exact resetSlot_progress s xidx k (by omega) (by omega) (by omega)

theorem resetGrid_progress (s : State)
    (hd : 55 ≤ s.deathCounters.length) (ha : 55 ≤ s.game.aliens.length) :
    ∀ k, k ≤ 11 →
      (List.range k).foldl (fun s xidx => (List.range 5).foldl (resetSlot xidx) s)
          (resetProgress s 0) =
        resetProgress s (k * 5) := by
  intro k
  induction k with
  | zero => intro _; rfl
  | succ k ih =>
    intro hk
    have hr : List.range (k + 1) = List.range k ++ [k] := List.range_succ k
    rw [hr, List.foldl_append, ih (by omega)]
    simp only [List.foldl_cons, List.foldl_nil]
    rw [resetColumn_progress s k (by omega) (by omega) 5 (le_refl _)]
    congr 1
    omega

theorem resetProgress_zero (s : State) : resetProgress s 0 = s := by
  simp [resetProgress]

/-- The state the round reset produces, for arrays of 55 entries. -/
theorem resetRound_eq (s : State)
    (hd : s.deathCounters.length = 55) (ha : s.game.aliens.length = 55) :
    resetRound s =
      { s with
        alienUpdateFrequency := 120
        alienSwarmPosition := 24
        aliensKilled := 0
        alienUpdateTimer := 0
        alienMoveDir := 4
        deathCounters := List.replicate 55 10
        game := { s.game with
          aliens := (List.range 55).map (fun i => resetAlien 24 (i / 5) (i % 5)) } } := by
  unfold resetRound
  simp only []
  have h := resetGrid_progress
    { s with alienUpdateFrequency := 120, alienSwarmPosition := 24, aliensKilled := 0,
             alienUpdateTimer := 0, alienMoveDir := 4 }
    (by simp [hd]) (by simp [ha]) 11 (le_refl _)
  rw [resetProgress_zero] at h
  rw [h]
  simp [resetProgress, hd, ha, List.drop_of_length_le]

/-- C7: when the round-completion check is reached with the kill counter not
below `numAliens` (all 55 aliens dead), it returns a state with move interval
120, swarm offset 24, kill counter 0, move direction +4, all 55 death counters
10, and 55 aliens: the alien of column `c` (0..10) and row `r` (0..4) sits at
index `5 c + r`, is alive with type `(5 - r) / 2 + 1` in {1, 2, 3}, has
`y = 17 r + 128` and `x` between `16 c + 24` and `16 c + 26`. -/
theorem roundCheck_resets_swarm (s : State)
    (hk : s.game.numAliens ≤ s.aliensKilled)
    (hd : s.deathCounters.length = 55) (ha : s.game.aliens.length = 55) :
    ∃ s1, roundCheck s = .ok s1 ∧
      s1.alienUpdateFrequency = 120 ∧ s1.alienSwarmPosition = 24 ∧ s1.aliensKilled = 0 ∧
      s1.alienMoveDir = 4 ∧ s1.deathCounters = List.replicate 55 10 ∧
      s1.game.aliens.length = 55 ∧ aliveCount s1 = 55 ∧
      ∀ c r, c < 11 → r < 5 →
        ∃ a, s1.game.aliens[5 * c + r]? = some a ∧
          a.type = (5 - r) / 2 + 1 ∧ (a.type = 1 ∨ a.type = 2 ∨ a.type = 3) ∧
          a.y = 17 * r + 128 ∧ 16 * c + 24 ≤ a.x ∧ a.x ≤ 16 * c + 26 := by
  have hnk : ¬ s.aliensKilled < s.game.numAliens := by omega
  refine ⟨_, by simp only [roundCheck, hnk, if_false]; rw [resetRound_eq s hd ha],
    rfl, rfl, rfl, rfl, rfl, by simp, ?_, ?_⟩
  · simp only [aliveCount]
    decide
  · intro c r hc hr
    refine ⟨resetAlien 24 c r, ?_, ?_⟩
    · have h1 : (5 * c + r) / 5 = c := by omega
      have h2 : (5 * c + r) % 5 = r := by omega
      have h3 : 5 * c + r < 55 := by omega
      simp [List.getElem?_map, List.getElem?_range h3, h1, h2]
    · interval_cases r <;> interval_cases c <;> decide!

theorem roundCheck_resets_swarm_witness :
    ∃ s1, roundCheck { initialState with aliensKilled := 55 } = .ok s1 ∧
      s1.alienUpdateFrequency = 120 ∧ s1.alienSwarmPosition = 24 ∧ s1.aliensKilled = 0 ∧
      s1.alienMoveDir = 4 ∧ s1.deathCounters = List.replicate 55 10 ∧
      s1.game.aliens.length = 55 ∧ aliveCount s1 = 55 ∧
      ∀ c r, c < 11 → r < 5 →
        ∃ a, s1.game.aliens[5 * c + r]? = some a ∧
          a.type = (5 - r) / 2 + 1 ∧ (a.type = 1 ∨ a.type = 2 ∨ a.type = 3) ∧
          a.y = 17 * r + 128 ∧ 16 * c + 24 ≤ a.x ∧ a.x ≤ 16 * c + 26 :=
  roundCheck_resets_swarm { initialState with aliensKilled := 55 } (by decide!)
    (List.length_replicate _ _) (by decide!)

/-! ## Reading results of `Except` computations -/

theorem bind_eq_ok {α β : Type} {x : Except Fault α} {f : α → Except Fault β} {b : β} :
    (x >>= f) = .ok b ↔ ∃ a, x = .ok a ∧ f a = .ok b := by
  cases x with
  | error e => simp [bind, Except.bind]
  | ok a => simp [bind, Except.bind]

theorem pure_eq_ok {α : Type} {a b : α} : (pure a : Except Fault α) = .ok b ↔ a = b := by
  simp [pure, Except.pure]

theorem getProj_eq_ok {s : State} {i : Nat} {p : Projectile} :
    getProj s i = .ok p ↔ s.game.projectiles[i]? = some p := by
  unfold getProj
  cases h : s.game.projectiles[i]? <;> simp

theorem getAlien_eq_ok {s : State} {i : Nat} {a : Alien} :
    getAlien s i = .ok a ↔ s.game.aliens[i]? = some a := by
  unfold getAlien
  cases h : s.game.aliens[i]? <;> simp

theorem setProj_eq_ok {s s1 : State} {i : Nat} {p : Projectile} :
    setProj s i p = .ok s1 ↔
      i < s.game.projectiles.length ∧
        s1 = { s with game := { s.game with projectiles := s.game.projectiles.set i p } } := by
  unfold setProj
  by_cases h : i < s.game.projectiles.length
  · simp [h, eq_comm]
  · simp [h]

theorem removeProjectile_eq_ok {s s1 : State} {pidx : Nat} :
    removeProjectile s pidx = .ok s1 ↔
      ∃ last, s.game.projectiles[subU s.game.numProjectiles 1]? = some last ∧
        pidx < s.game.projectiles.length ∧
        s1 = { s with game := { s.game with
                projectiles := s.game.projectiles.set pidx last
                numProjectiles := subU s.game.numProjectiles 1 } } := by
  unfold removeProjectile
  simp only [bind_eq_ok, getProj_eq_ok, setProj_eq_ok, pure_eq_ok]
  constructor
  · rintro ⟨last, hl, s2, ⟨hlt, rfl⟩, rfl⟩
    exact ⟨last, hl, hlt, rfl⟩
  · rintro ⟨last, hl, hlt, rfl⟩
    exact ⟨last, hl, _, ⟨hlt, rfl⟩, rfl⟩

/-- The type of an alien that reads an animation frame is 1, 2 or 3 when
there are three animations. -/
theorem currentAlienSprite_type {s : State} {type : Nat} {sp : Sprite}
    (h3 : s.alienAnimation.length = 3) (ht : type ≠ 0)
    (h : currentAlienSprite s type = .ok sp) : type = 1 ∨ type = 2 ∨ type = 3 := by
  unfold currentAlienSprite at h
  cases ha : s.alienAnimation[type - 1]? with
  | none => simp [ha] at h
  | some a =>
    have := (List.getElem?_eq_some_iff.1 ha).1
    omega

/-- The score award `10 * (4 - type)` as a `size_t`, for a living type. -/
theorem award_eq {type : Nat} (h : type = 1 ∨ type = 2 ∨ type = 3) :
    ofInt (10 * (4 - (type : Int))) = 10 * (4 - type) := by
  rcases h with h | h | h <;> subst h <;> decide!
/-! ## C5 -/

theorem killByProjectile_eq_ok {s s1 : State} {pidx aidx : Nat} {alien : Alien} {sp : Sprite} :
    killByProjectile s pidx aidx alien sp = .ok s1 ↔
      ∃ last, s.game.projectiles[subU s.game.numProjectiles 1]? = some last ∧
        pidx < s.game.projectiles.length ∧
        s1 = { s with
          score := addU s.score (ofInt (10 * (4 - (alien.type : Int))))
          game := { s.game with
            aliens := s.game.aliens.set aidx
              { alien with type := ALIEN_DEAD
                           x := subU alien.x (subU alienDeathSprite.width sp.width / 2) }
            projectiles := s.game.projectiles.set pidx last
            numProjectiles := subU s.game.numProjectiles 1 }
          aliensKilled := addU s.aliensKilled 1
          shouldChangeSpeed := s.shouldChangeSpeed || decide (addU s.aliensKilled 1 % 15 = 0) } := by
  unfold killByProjectile
  simp only [bind_eq_ok, removeProjectile_eq_ok, pure_eq_ok]
  constructor
  · rintro ⟨s2, ⟨last, hl, hlt, rfl⟩, rfl⟩
    refine ⟨last, hl, hlt, ?_⟩
    by_cases h15 : addU s.aliensKilled 1 % 15 = 0 <;> simp [h15]
  · rintro ⟨last, hl, hlt, rfl⟩
    refine ⟨_, ⟨last, hl, hlt, rfl⟩, ?_⟩
    by_cases h15 : addU s.aliensKilled 1 % 15 = 0 <;> simp [h15]

theorem alienScan_skip (s : State) (pidx : Nat) (p : Projectile)
    (hp : s.game.projectiles[pidx]? = some p) (m : Nat) (hm : m ≤ s.game.numAliens) :
    ∀ d k fuel, k + d = m → d ≤ fuel →
      (∀ j, k ≤ j → j < m → ∃ a, s.game.aliens[j]? = some a ∧ scanSkips s p a) →
      alienScan pidx fuel s k = alienScan pidx (fuel - d) s m := by
  intro d
  induction d with
  | zero => intro k fuel hk _ _; simp at hk; subst hk; rfl
  | succ d ih =>
    intro k fuel hk hf hskip
    obtain ⟨fuel, rfl⟩ : ∃ f, fuel = f + 1 := ⟨fuel - 1, by omega⟩
    obtain ⟨a, ha, hsk⟩ := hskip k (le_refl _) (by omega)
    have hlt : k < s.game.numAliens := by omega
    have hrest := ih (k + 1) fuel (by omega) (by omega)
      (fun j hj hjm => hskip j (by omega) hjm)
    have hf2 : fuel + 1 - (d + 1) = fuel - d := by omega
    rw [hf2, ← hrest]
    rw [alienScan]
    simp only [hlt, if_true, getAlien_eq_ok.2 ha, bind, Except.bind]
    rcases hsk with hdead | ⟨sp, hsp, hno⟩
    · simp [hdead]
    · by_cases hdead : a.type = ALIEN_DEAD
      · simp [hdead]
      · simp [hdead, hsp, getProj_eq_ok.2 hp, hno]
/-- C5: the alien scan for the projectile `p` stored at `pidx`.  If `alien`, at
index `aidx`, is not dead, its current frame overlaps `p`, and every alien
before it is passed over, the scan returns a state in which the score has
grown by exactly `10 * (4 - type)` with `type` in {1, 2, 3}, the kill counter
by exactly 1, alien `aidx` is dead and every other alien is unchanged.  If
every alien is passed over (in particular every alien that overlaps `p` is
dead), the scan returns the state unchanged. -/
theorem alienScan_kills_first_live_overlap (s : State) (pidx : Nat) (p : Projectile)
    (hlen : s.game.aliens.length = s.game.numAliens)
    (h3 : s.alienAnimation.length = 3)
    (hp : s.game.projectiles[pidx]? = some p)
    (hn0 : 0 < s.game.numProjectiles)
    (hn : s.game.numProjectiles ≤ s.game.projectiles.length)
    (hcap : s.game.projectiles.length = GAME_MAX_PROJECTILES)
    (hscore : s.score + 30 < U64) (hkill : s.aliensKilled + 1 < U64) :
    (∀ (aidx : Nat) (alien : Alien) (sprite : Sprite),
      s.game.aliens[aidx]? = some alien → alien.type ≠ ALIEN_DEAD →
      currentAlienSprite s alien.type = .ok sprite →
      spriteOverlapCheck playerProjectileSprite p.x p.y sprite alien.x alien.y = true →
      (∀ (j : Nat) (a : Alien), j < aidx → s.game.aliens[j]? = some a → scanSkips s p a) →
      ∃ s1, alienScan pidx s.game.numAliens s 0 = .ok s1 ∧
        (alien.type = 1 ∨ alien.type = 2 ∨ alien.type = 3) ∧
        s1.score = s.score + 10 * (4 - alien.type) ∧
        s1.aliensKilled = s.aliensKilled + 1 ∧
        (∃ a1 : Alien, s1.game.aliens[aidx]? = some a1 ∧ a1.type = ALIEN_DEAD) ∧
        (∀ j : Nat, j ≠ aidx → s1.game.aliens[j]? = s.game.aliens[j]?)) ∧
    ((∀ (j : Nat) (a : Alien), s.game.aliens[j]? = some a → scanSkips s p a) →
      alienScan pidx s.game.numAliens s 0 = .ok s) := by
  constructor
  · intro aidx alien sprite ha halive hsp hov hfirst
    have haidx : aidx < s.game.numAliens := by
      rw [← hlen]; exact (List.getElem?_eq_some_iff.1 ha).1
    have hT := currentAlienSprite_type h3 halive hsp
    have hskip := alienScan_skip s pidx p hp aidx (le_of_lt haidx) aidx 0 s.game.numAliens
      (by omega) (le_of_lt haidx)
      (fun j _ hj => by
        have hjl : j < s.game.aliens.length := by omega
        exact ⟨s.game.aliens[j], List.getElem?_eq_getElem hjl,
          hfirst j _ hj (List.getElem?_eq_getElem hjl)⟩)
    obtain ⟨fuel, hfuel⟩ : ∃ f, s.game.numAliens - aidx = f + 1 :=
      ⟨s.game.numAliens - aidx - 1, by omega⟩
    have hlast : subU s.game.numProjectiles 1 < s.game.projectiles.length := by
      rw [subU_eq hn0 (by unfold GAME_MAX_PROJECTILES at hcap; unfold U64; omega)]
      omega
    have hpidx : pidx < s.game.projectiles.length := (List.getElem?_eq_some_iff.1 hp).1
    have hk := (@killByProjectile_eq_ok s _ pidx aidx alien sprite).2
      ⟨_, List.getElem?_eq_getElem hlast, hpidx, rfl⟩
    have hrun : alienScan pidx s.game.numAliens s 0 =
        killByProjectile s pidx aidx alien sprite := by
      rw [hskip, hfuel, alienScan]
      simp only [haidx, if_true, getAlien_eq_ok.2 ha, bind, Except.bind, halive, if_false, hsp,
        getProj_eq_ok.2 hp, hov]
    refine ⟨_, hrun.trans hk, hT, ?_, ?_, ?_, ?_⟩
    · show addU s.score (ofInt (10 * (4 - (alien.type : Int)))) = _
      rw [award_eq hT]
      exact addU_eq (by rcases hT with h | h | h <;> rw [h] <;> omega)
    · exact addU_eq hkill
    · have hal : aidx < s.game.aliens.length := by omega
      exact ⟨{ alien with type := ALIEN_DEAD
                          x := subU alien.x (subU alienDeathSprite.width sprite.width / 2) },
        by simp [List.getElem?_set, hal], rfl⟩
    · intro j hj
      simp [List.getElem?_set, Ne.symm hj]
  · intro hall
    have hskip := alienScan_skip s pidx p hp s.game.numAliens (le_refl _) s.game.numAliens 0
      s.game.numAliens (by omega) (le_refl _)
      (fun j _ hj => by
        have hjl : j < s.game.aliens.length := by omega
        exact ⟨s.game.aliens[j], List.getElem?_eq_getElem hjl,
          hall j _ (List.getElem?_eq_getElem hjl)⟩)
    rw [hskip, Nat.sub_self]
    simp [alienScan]
theorem alienScan_kills_first_live_overlap_witness :
    ∃ s1, alienScan 0 hitState.game.numAliens hitState 0 = .ok s1 ∧
      s1.score = hitState.score + 10 * (4 - 3) ∧
      s1.aliensKilled = hitState.aliensKilled + 1 := by
  obtain ⟨s1, h1, _, h2, h3, _⟩ :=
    (alienScan_kills_first_live_overlap hitState 0 ⟨25, 127, 2⟩ (by decide!) (by decide!)
      (by decide!) (by decide!) (by decide!) (by decide!) (by decide!) (by decide!)).1
      0 ⟨20, 128, 3⟩ alienSprite4 (by decide!) (by decide!) (by decide!) (by decide!)
      (fun j a hj _ => absurd hj (Nat.not_lt_zero j))
  exact ⟨s1, h1, h2, h3⟩

/-! ## C1 -/

set_option maxRecDepth 1000000 in
theorem underflow_frames_0 : ∀ t < 11,
    frame (underflowState (0 + t)) (underflowInput (0 + t)) =
      .ok (underflowState (0 + t + 1)) := by
  decide!

set_option maxRecDepth 1000000 in
theorem underflow_frames_1 : ∀ t < 11,
    frame (underflowState (11 + t)) (underflowInput (11 + t)) =
      .ok (underflowState (11 + t + 1)) := by
  decide!

set_option maxRecDepth 1000000 in
theorem underflow_frames_2 : ∀ t < 11,
    frame (underflowState (22 + t)) (underflowInput (22 + t)) =
      .ok (underflowState (22 + t + 1)) := by
  decide!

set_option maxRecDepth 1000000 in
theorem underflow_frames_3 : ∀ t < 11,
    frame (underflowState (33 + t)) (underflowInput (33 + t)) =
      .ok (underflowState (33 + t + 1)) := by
  decide!

set_option maxRecDepth 1000000 in
theorem underflow_frames_4 : ∀ t < 11,
    frame (underflowState (44 + t)) (underflowInput (44 + t)) =
      .ok (underflowState (44 + t + 1)) := by
  decide!

set_option maxRecDepth 1000000 in
theorem underflow_frames_5 : ∀ t < 11,
    frame (underflowState (55 + t)) (underflowInput (55 + t)) =
      .ok (underflowState (55 + t + 1)) := by
  decide!

set_option maxRecDepth 1000000 in
theorem underflow_frames_6 : ∀ t < 11,
    frame (underflowState (66 + t)) (underflowInput (66 + t)) =
      .ok (underflowState (66 + t + 1)) := by
  decide!

set_option maxRecDepth 1000000 in
theorem underflow_frames_7 : ∀ t < 11,
    frame (underflowState (77 + t)) (underflowInput (77 + t)) =
      .ok (underflowState (77 + t + 1)) := by
  decide!

set_option maxRecDepth 1000000 in
theorem underflow_frames_8 : ∀ t < 11,
    frame (underflowState (88 + t)) (underflowInput (88 + t)) =
      .ok (underflowState (88 + t + 1)) := by
  decide!

set_option maxRecDepth 1000000 in
theorem underflow_frames_9 : ∀ t < 11,
    frame (underflowState (99 + t)) (underflowInput (99 + t)) =
      .ok (underflowState (99 + t + 1)) := by
  decide!

set_option maxRecDepth 1000000 in
theorem underflow_frames_10 : ∀ t < 11,
    frame (underflowState (110 + t)) (underflowInput (110 + t)) =
      .ok (underflowState (110 + t + 1)) := by
  decide!

/-- Every frame of the run does what `underflowState` says. -/
theorem underflow_frame (t : Nat) (ht : t < 121) :
    frame (underflowState t) (underflowInput t) = .ok (underflowState (t + 1)) := by
  have key : ∀ a r, r < 11 → a + r = t →
      frame (underflowState (a + r)) (underflowInput (a + r)) = .ok (underflowState (a + r + 1)) →
      frame (underflowState t) (underflowInput t) = .ok (underflowState (t + 1)) := by
    intro a r _ h hf
    rw [h] at hf
    exact hf
  have hq : t / 11 < 11 := by omega
  have hr : t % 11 < 11 := Nat.mod_lt _ (by decide!)
  have ht2 : 11 * (t / 11) + t % 11 = t := Nat.div_add_mod t 11
  generalize t / 11 = q at hq ht2
  interval_cases q
  · exact key 0 (t % 11) hr ht2 (underflow_frames_0 (t % 11) hr)
  · exact key 11 (t % 11) hr ht2 (underflow_frames_1 (t % 11) hr)
  · exact key 22 (t % 11) hr ht2 (underflow_frames_2 (t % 11) hr)
  · exact key 33 (t % 11) hr ht2 (underflow_frames_3 (t % 11) hr)
  · exact key 44 (t % 11) hr ht2 (underflow_frames_4 (t % 11) hr)
  · exact key 55 (t % 11) hr ht2 (underflow_frames_5 (t % 11) hr)
  · exact key 66 (t % 11) hr ht2 (underflow_frames_6 (t % 11) hr)
  · exact key 77 (t % 11) hr ht2 (underflow_frames_7 (t % 11) hr)
  · exact key 88 (t % 11) hr ht2 (underflow_frames_8 (t % 11) hr)
  · exact key 99 (t % 11) hr ht2 (underflow_frames_9 (t % 11) hr)
  · exact key 110 (t % 11) hr ht2 (underflow_frames_10 (t % 11) hr)

theorem underflowState_zero : underflowState 0 = initialState := by
  decide!

/-- Every state of the run is reachable. -/
theorem underflow_reachable (t : Nat) (ht : t ≤ 121) : Reachable (underflowState t) := by
  induction t with
  | zero => rw [underflowState_zero]; exact Reachable.init
  | succ t ih =>
    refine Reachable.step (underflowInput t) (ih (by omega)) ?_ (underflow_frame t (by omega))
    unfold underflowInput
    by_cases h : t < 40 <;> simp [h]

set_option maxRecDepth 1000000 in
/-- The last tick of the run, evaluated. -/
theorem underflow_last_tick :
    (underflowState 121).game.numProjectiles = 2 ∧
    (advanceProjectile (underflowState 121) 0 >>= fun s =>
        projectileScan 0 s.game.numProjectiles s 0).map (fun s => s.game.numProjectiles) =
      .ok 0 ∧
    tick (underflowState 121) = .error (.projectileIndex 18446744073709551615) := by
  decide!

/-- C1 (defect in the code): claimed is that the projectile count stays within
0..128 in every reachable state and that no removal takes it outside.  The
state `underflowState 121` is reachable (121 frames: walk left, fire once, wait
for the first alien shot) and holds two projectiles, the player's shot and the
shot alien 0 has just fired.  In the next tick the player's shot advances and
the two annihilate: the count goes from 2 to 0 (line 854).  The alien scan that
follows in the same iteration still reads slot 0, finds alien 0 and runs the
removal of lines 877–878 with `numProjectiles = 0`: it reads
`game.projectiles[0 - 1]`, index `2^64 - 1`, where the embedding stops; the
decrement after it would leave the count at `2^64 - 1`. -/
theorem tick_removes_from_empty_pool :
    Reachable (underflowState 121) ∧
    (underflowState 121).game.numProjectiles = 2 ∧
    (advanceProjectile (underflowState 121) 0 >>= fun s =>
        projectileScan 0 s.game.numProjectiles s 0).map (fun s => s.game.numProjectiles) =
      .ok 0 ∧
    tick (underflowState 121) = .error (.projectileIndex 18446744073709551615) :=
  ⟨underflow_reachable 121 (le_refl _), underflow_last_tick⟩

/-! ## C4 -/

set_option maxRecDepth 1000000 in
/-- C4 (defect in the code): claimed is that the resolution step of an upward
projectile that overlaps a downward one removes exactly those two.  In
`annihilationState` the pool is `[(64, 233, +2), p = (32, 127, +2),
q = (30, 121, -2)]` and `p` overlaps `q`.  The resolution step for index 1
removes `p` and `q` (count 3 → 1, shown by the projectile scan alone); the
alien scan that follows in the same step still reads slot 1, finds alien 0 and
removes one more projectile: the count ends at 0, the score at 10, and the
shot at `(64, 233)`, which overlapped nothing, is no longer in the pool. -/
theorem resolvePlayerBullet_removes_third :
    spriteOverlapCheck playerProjectileSprite 32 127 alienProjectileSprite0 30 121 = true ∧
    (projectileScan 1 3 annihilationState 0).map (fun s => s.game.numProjectiles) = .ok 1 ∧
    (resolvePlayerBullet annihilationState 1).map
        (fun s => (s.game.numProjectiles, s.score, s.aliensKilled)) = .ok (0, 10, 1) := by
  decide!

/-! ## Aliens and score along a tick -/

theorem Progress.refl (s : State) : Progress s s :=
  ⟨rfl, rfl, fun _ a h hd => ⟨a, h, hd⟩, le_refl _, fun _ _ => ⟨le_refl _, le_refl _⟩⟩

theorem Progress.trans {s s1 s2 : State} (h1 : Progress s s1) (h2 : Progress s1 s2) :
    Progress s s2 := by
  obtain ⟨a1, b1, c1, m1, d1⟩ := h1
  obtain ⟨a2, b2, c2, m2, d2⟩ := h2
  refine ⟨a2.trans a1, b2.trans b1, ?_, le_trans m2 m1, ?_⟩
  · intro i a h hd
    obtain ⟨x, hx, hxd⟩ := c1 i a h hd
    exact c2 i x hx hxd
  · intro h3 hlt
    obtain ⟨e1, f1⟩ := d1 h3 hlt
    obtain ⟨e2, f2⟩ := d2 (a1.trans h3) (by omega)
    exact ⟨by omega, by omega⟩

theorem advanceProjectile_eq_ok {s s1 : State} {pidx : Nat} :
    advanceProjectile s pidx = .ok s1 ↔
      ∃ p, s.game.projectiles[pidx]? = some p ∧
        s1 = setPool s (s.game.projectiles.set pidx { p with y := addU p.y (ofInt p.dir) })
          s.game.numProjectiles := by
  unfold advanceProjectile
  simp only [bind_eq_ok, getProj_eq_ok, setProj_eq_ok]
  constructor
  · rintro ⟨p, hp, _, rfl⟩
    exact ⟨p, hp, rfl⟩
  · rintro ⟨p, hp, rfl⟩
    exact ⟨p, hp, (List.getElem?_eq_some_iff.1 hp).1, rfl⟩

theorem removeProjectile_ok {s s1 : State} {pidx : Nat} (h : removeProjectile s pidx = .ok s1) :
    ∃ last, s.game.projectiles[subU s.game.numProjectiles 1]? = some last ∧
      pidx < s.game.projectiles.length ∧
      s1 = setPool s (s.game.projectiles.set pidx last) (subU s.game.numProjectiles 1) :=
  removeProjectile_eq_ok.1 h

/-- The removal of two projectiles only rewrites the pool; the slots it
fills (below the new count) receive projectiles that were in the pool. -/
theorem annihilate_ok {s s1 : State} {pidx pjidx : Nat}
    (hn : s.game.numProjectiles ≤ s.game.projectiles.length)
    (hcap : s.game.projectiles.length = GAME_MAX_PROJECTILES)
    (h : annihilate s pidx pjidx = .ok s1) :
    2 ≤ s.game.numProjectiles ∧
    ∃ l, s1 = setPool s l (s.game.numProjectiles - 2) ∧
      l.length = s.game.projectiles.length ∧
      ∀ i, i < s.game.numProjectiles - 2 →
        ∃ j, j < s.game.numProjectiles ∧ l[i]? = s.game.projectiles[j]? := by
  have hU : GAME_MAX_PROJECTILES < U64 := by decide!
  unfold annihilate at h
  simp only [bind_eq_ok, pure_eq_ok] at h
  obtain ⟨s2, hs2, rfl⟩ := h
  have h2 : 2 ≤ s.game.numProjectiles := by
    by_contra hlt
    have hbig : s.game.projectiles.length ≤ subU s.game.numProjectiles 2 := by
      unfold subU; unfold U64 GAME_MAX_PROJECTILES at *; split <;> omega
    have hnone : ∀ (s3 : State) (p : Projectile),
        s3.game.projectiles.length = s.game.projectiles.length →
        ¬ s3.game.projectiles[subU s.game.numProjectiles 2]? = some p := by
      intro s3 p hl
      rw [List.getElem?_eq_none (hl ▸ hbig)]
      simp
    unfold overwritePair at hs2
    by_cases c1 : pjidx = subU s.game.numProjectiles 1
    · simp only [c1, if_true, bind_eq_ok, getProj_eq_ok] at hs2
      obtain ⟨p, hp, _⟩ := hs2
      exact hnone s p rfl hp
    · by_cases c2 : pidx = subU s.game.numProjectiles 1
      · simp only [c1, c2, if_true, if_false, bind_eq_ok, getProj_eq_ok] at hs2
        obtain ⟨p, hp, _⟩ := hs2
        exact hnone s p rfl hp
      · simp only [c1, c2, if_false, bind_eq_ok, getProj_eq_ok, setProj_eq_ok] at hs2
        obtain ⟨p1, _, s3, ⟨_, rfl⟩, p2, hp2, _⟩ := hs2
        exact hnone _ p2 (by simp) hp2
  have e1 : subU s.game.numProjectiles 1 = s.game.numProjectiles - 1 :=
    subU_eq (by omega) (by unfold GAME_MAX_PROJECTILES at *; unfold U64; omega)
  have e2 : subU s.game.numProjectiles 2 = s.game.numProjectiles - 2 :=
    subU_eq h2 (by unfold GAME_MAX_PROJECTILES at *; unfold U64; omega)
  refine ⟨h2, ?_⟩
  unfold overwritePair at hs2
  simp only [e1, e2] at hs2 ⊢
  by_cases c1 : pjidx = s.game.numProjectiles - 1
  · simp only [c1, if_true, bind_eq_ok, getProj_eq_ok, setProj_eq_ok] at hs2
    obtain ⟨p, hp, hlt, rfl⟩ := hs2
    refine ⟨_, rfl, by simp, ?_⟩
    intro i hi
    by_cases hip : pidx = i
    · subst hip
      exact ⟨s.game.numProjectiles - 2, by omega, by simp [List.getElem?_set, hlt, hp]⟩
    · exact ⟨i, by omega, by simp [List.getElem?_set, hip]⟩
  · by_cases c2 : pidx = s.game.numProjectiles - 1
    · simp only [c1, c2, if_true, if_false, bind_eq_ok, getProj_eq_ok, setProj_eq_ok] at hs2
      obtain ⟨p, hp, hlt, rfl⟩ := hs2
      refine ⟨_, rfl, by simp, ?_⟩
      intro i hi
      by_cases hip : pjidx = i
      · subst hip
        exact ⟨s.game.numProjectiles - 2, by omega, by simp [List.getElem?_set, hlt, hp]⟩
      · exact ⟨i, by omega, by simp [List.getElem?_set, hip]⟩
    · simp only [c1, c2, if_false, bind_eq_ok, getProj_eq_ok, setProj_eq_ok] at hs2
      obtain ⟨p1, hp1, s3, ⟨hlt1, rfl⟩, p2, hp2, hlt2, rfl⟩ := hs2
      simp only [List.length_set] at hlt2
      simp only [List.getElem?_set] at hp2
      refine ⟨_, rfl, by simp, ?_⟩
      intro i hi
      simp only [setPool, List.getElem?_set, List.length_set]
      by_cases hhi : (if pidx < pjidx then pjidx else pidx) = i
      · rw [if_pos hhi, if_pos hlt2]
        by_cases hlo : (if pidx < pjidx then pidx else pjidx) = s.game.numProjectiles - 2
        · rw [if_pos hlo, if_pos hlt1] at hp2
          exact ⟨s.game.numProjectiles - 1, by omega, by rw [← hp2, hp1]⟩
        · rw [if_neg hlo] at hp2
          exact ⟨s.game.numProjectiles - 2, by omega, hp2.symm⟩
      · rw [if_neg hhi]
        by_cases hlo : (if pidx < pjidx then pidx else pjidx) = i
        · rw [if_pos hlo, if_pos hlt1]
          exact ⟨s.game.numProjectiles - 1, by omega, hp1.symm⟩
        · rw [if_neg hlo]
          exact ⟨i, by omega, rfl⟩
theorem projectileScan_cases (pidx : Nat) : ∀ (fuel : Nat) (s s1 : State) (pjidx : Nat),
    projectileScan pidx fuel s pjidx = .ok s1 →
    s1 = s ∨ ∃ j, j < s.game.numProjectiles ∧ j ≠ pidx ∧ annihilate s pidx j = .ok s1 := by
  intro fuel
  induction fuel with
  | zero =>
    intro s s1 pjidx h
    unfold projectileScan at h
    split at h
    · exact absurd h (by simp)
    · left; simpa using h.symm
  | succ fuel ih =>
    intro s s1 pjidx h
    unfold projectileScan at h
    by_cases hlt : pjidx < s.game.numProjectiles
    · simp only [hlt, if_true] at h
      by_cases heq : pidx = pjidx
      · rw [if_pos heq] at h
        exact ih s s1 _ h
      · simp only [heq, if_false, bind_eq_ok] at h
        obtain ⟨p, _, pj, _, h⟩ := h
        split at h
        · exact Or.inr ⟨pjidx, hlt, Ne.symm heq, h⟩
        · exact ih s s1 _ h
    · simp only [hlt, if_false] at h
      left; simpa using h.symm

theorem alienScan_cases (pidx : Nat) : ∀ (fuel : Nat) (s s1 : State) (aidx : Nat),
    alienScan pidx fuel s aidx = .ok s1 →
    s1 = s ∨ ∃ (j : Nat) (alien : Alien) (sp : Sprite),
      s.game.aliens[j]? = some alien ∧ alien.type ≠ ALIEN_DEAD ∧
      currentAlienSprite s alien.type = .ok sp ∧
      killByProjectile s pidx j alien sp = .ok s1 := by
  intro fuel
  induction fuel with
  | zero =>
    intro s s1 aidx h
    unfold alienScan at h
    split at h
    · exact absurd h (by simp)
    · left; simpa using h.symm
  | succ fuel ih =>
    intro s s1 aidx h
    unfold alienScan at h
    by_cases hlt : aidx < s.game.numAliens
    · simp only [hlt, if_true, bind_eq_ok, getAlien_eq_ok] at h
      obtain ⟨alien, ha, h⟩ := h
      by_cases hd : alien.type = ALIEN_DEAD
      · simp only [hd, if_true] at h
        exact ih s s1 _ h
      · simp only [hd, if_false, bind_eq_ok] at h
        obtain ⟨sp, hsp, p, _, h⟩ := h
        split at h
        · exact Or.inr ⟨aidx, alien, sp, ha, hd, hsp, h⟩
        · exact ih s s1 _ h
    · simp only [hlt, if_false] at h
      left; simpa using h.symm

theorem collisionScan_cases : ∀ (fuel : Nat) (s s1 : State) (aidx : Nat),
    collisionScan fuel s aidx = .ok s1 →
    s1 = s ∨ ∃ (j : Nat) (alien : Alien) (sp : Sprite),
      s.game.aliens[j]? = some alien ∧ alien.type ≠ ALIEN_DEAD ∧
      currentAlienSprite s alien.type = .ok sp ∧
      s1 = killByCollision s j alien sp := by
  intro fuel
  induction fuel with
  | zero =>
    intro s s1 aidx h
    unfold collisionScan at h
    split at h
    · exact absurd h (by simp)
    · left; simpa using h.symm
  | succ fuel ih =>
    intro s s1 aidx h
    unfold collisionScan at h
    by_cases hlt : aidx < s.game.numAliens
    · simp only [hlt, if_true, bind_eq_ok, getAlien_eq_ok] at h
      obtain ⟨alien, ha, h⟩ := h
      by_cases hd : alien.type = ALIEN_DEAD
      · simp only [hd, if_true] at h
        exact ih s s1 _ h
      · simp only [hd, if_false, bind_eq_ok] at h
        obtain ⟨sp, hsp, h⟩ := h
        split at h
        · exact Or.inr ⟨aidx, alien, sp, ha, hd, hsp, by simpa [pure, Except.pure] using h.symm⟩
        · exact ih s s1 _ h
    · simp only [hlt, if_false] at h
      left; simpa using h.symm

/-- The ways one iteration of the projectile loop can end. -/
theorem projectileStep_cases {s : State} {pidx : Nat} {r : State × Ctl}
    (h : projectileStep s pidx = .ok r) :
    ∃ s0 p, advanceProjectile s pidx = .ok s0 ∧ s0.game.projectiles[pidx]? = some p ∧
      (((s0.game.height ≤ p.y ∨ p.y < playerProjectileSprite.height) ∧
          removeProjectile s0 pidx = .ok r.1) ∨
       (¬ (s0.game.height ≤ p.y ∨ p.y < playerProjectileSprite.height) ∧
          (removeProjectile (loseLife s0) pidx = .ok r.1 ∨ r.1 = s0 ∨
            resolvePlayerBullet s0 pidx = .ok r.1))) := by
  unfold projectileStep at h
  simp only [bind_eq_ok, getProj_eq_ok] at h
  obtain ⟨s0, hs0, p, hp, h⟩ := h
  refine ⟨s0, p, hs0, hp, ?_⟩
  by_cases hout : s0.game.height ≤ p.y ∨ p.y < playerProjectileSprite.height
  · simp only [hout, if_true, bind_eq_ok, pure_eq_ok] at h
    obtain ⟨s2, h2, rfl⟩ := h
    exact Or.inl ⟨hout, h2⟩
  · simp only [hout, if_false] at h
    refine Or.inr ⟨hout, ?_⟩
    by_cases hdir : p.dir < 0
    · simp only [hdir, if_true] at h
      split at h
      · simp only [bind_eq_ok, pure_eq_ok] at h
        obtain ⟨s2, h2, rfl⟩ := h
        exact Or.inl h2
      · simp only [pure_eq_ok] at h
        exact Or.inr (Or.inl (by rw [← h]))
    · simp only [hdir, if_false, bind_eq_ok, pure_eq_ok] at h
      obtain ⟨s2, h2, rfl⟩ := h
      exact Or.inr (Or.inr h2)

/-- A property that every iteration of the projectile loop preserves holds
after the loop. -/
theorem projectileLoop_induct (P : State → Prop)
    (hstep : ∀ (s : State) (pidx : Nat) (r : State × Ctl),
      P s → projectileStep s pidx = .ok r → P r.1) :
    ∀ (fuel : Nat) (s s1 : State) (pidx : Nat),
      P s → projectileLoop fuel s pidx = .ok s1 → P s1 := by
  intro fuel
  induction fuel with
  | zero =>
    intro s s1 pidx hP h
    unfold projectileLoop at h
    split at h
    · exact absurd h (by simp)
    · have : s = s1 := by simpa using h
      exact this ▸ hP
  | succ fuel ih =>
    intro s s1 pidx hP h
    unfold projectileLoop at h
    by_cases hlt : pidx < s.game.numProjectiles
    · simp only [hlt, if_true, bind_eq_ok] at h
      obtain ⟨r, hr, h⟩ := h
      have hPr := hstep s pidx r hP hr
      split at h
      · exact ih _ _ _ hPr h
      · have : r.1 = s1 := by simpa [pure, Except.pure] using h
        exact this ▸ hPr
      · exact ih _ _ _ hPr h
    · simp only [hlt, if_false] at h
      have : s = s1 := by simpa using h
      exact this ▸ hP
/-! ## `Progress` along the phases of a tick -/

theorem overwritePair_same {s s1 : State} {pidx pjidx : Nat}
    (h : overwritePair s pidx pjidx = .ok s1) :
    ∃ l, s1 = setPool s l s.game.numProjectiles := by
  unfold overwritePair at h
  by_cases c1 : pjidx = subU s.game.numProjectiles 1
  · simp only [c1, if_true, bind_eq_ok, setProj_eq_ok] at h
    obtain ⟨p, _, _, rfl⟩ := h
    exact ⟨_, rfl⟩
  · by_cases c2 : pidx = subU s.game.numProjectiles 1
    · simp only [c1, c2, if_true, if_false, bind_eq_ok, setProj_eq_ok] at h
      obtain ⟨p, _, _, rfl⟩ := h
      exact ⟨_, rfl⟩
    · simp only [c1, c2, if_false, bind_eq_ok, setProj_eq_ok] at h
      obtain ⟨p1, _, s3, ⟨_, rfl⟩, p2, _, _, rfl⟩ := h
      exact ⟨_, rfl⟩

theorem annihilate_same {s s1 : State} {pidx pjidx : Nat}
    (h : annihilate s pidx pjidx = .ok s1) :
    ∃ l, s1 = setPool s l (subU s.game.numProjectiles 2) := by
  unfold annihilate at h
  simp only [bind_eq_ok, pure_eq_ok] at h
  obtain ⟨s2, hs2, rfl⟩ := h
  obtain ⟨l, rfl⟩ := overwritePair_same hs2
  exact ⟨l, rfl⟩

theorem projectileScan_same {pidx fuel : Nat} {s s1 : State} {pjidx : Nat}
    (h : projectileScan pidx fuel s pjidx = .ok s1) :
    ∃ l n, s1 = setPool s l n := by
  rcases projectileScan_cases pidx fuel s s1 pjidx h with rfl | ⟨j, _, _, hj⟩
  · exact ⟨_, _, rfl⟩
  · obtain ⟨l, rfl⟩ := annihilate_same hj
    exact ⟨_, _, rfl⟩

theorem descend_type (y : Nat) (a : Alien) : (descend y a).type = a.type := by
  unfold descend
  split <;> rfl

theorem moveSwarm_types (s : State) :
    (moveSwarm s).game.aliens.map (fun a => a.type) = s.game.aliens.map (fun a => a.type) := by
  unfold moveSwarm
  simp only [List.map_map]
  split
  · simp [Function.comp_def, descend_type]
  · split <;> simp [Function.comp_def]

theorem alienFire_same {s s1 : State} (h : alienFire s = .ok s1) :
    ∃ rng l n, s1 = setPool { s with rng := rng } l n := by
  unfold alienFire at h
  split at h
  · simp only [bind_eq_ok, setProj_eq_ok, pure_eq_ok] at h
    obtain ⟨drawn, _, alien, _, sp, _, s2, ⟨_, rfl⟩, rfl⟩ := h
    exact ⟨drawn.1, _, _, rfl⟩
  · have : s = s1 := by simpa using h
    subst this
    exact ⟨s.rng, s.game.projectiles, s.game.numProjectiles, rfl⟩

theorem updateSwarmBounds_same {s s1 : State} (h : updateSwarmBounds s = .ok s1) :
    ∃ pos mx, s1 = { s with alienSwarmPosition := pos, alienSwarmMaxPosition := mx } := by
  unfold updateSwarmBounds at h
  simp only [bind_eq_ok, pure_eq_ok] at h
  obtain ⟨ai, _, alien, _, sp, _, ai2, _, alien2, _, rfl⟩ := h
  exact ⟨_, _, rfl⟩

theorem playerFire_same {s s1 : State} (h : playerFire s = .ok s1) :
    ∃ l n, s1 = { setPool s l n with firePressed := false } := by
  unfold playerFire at h
  split at h
  · simp only [bind_eq_ok, setProj_eq_ok, pure_eq_ok] at h
    obtain ⟨s3, ⟨_, rfl⟩, rfl⟩ := h
    exact ⟨_, _, rfl⟩
  · have : { s with firePressed := false } = s1 := by simpa using h
    subst this
    exact ⟨s.game.projectiles, s.game.numProjectiles, rfl⟩

/-! ## Relations kept by the projectile loop and the collision scan -/

theorem killByProjectile_killAlien {s s1 : State} {pidx aidx : Nat} {alien : Alien} {sp : Sprite}
    (h : killByProjectile s pidx aidx alien sp = .ok s1) :
    ∃ l n, s1 = setPool (killAlien s aidx alien sp) l n := by
  obtain ⟨last, _, _, rfl⟩ := killByProjectile_eq_ok.1 h
  refine ⟨s.game.projectiles.set pidx last, subU s.game.numProjectiles 1, ?_⟩
  unfold killAlien setPool
  by_cases h15 : addU s.aliensKilled 1 % 15 = 0
  · simp [h15]
  · simp [h15]

theorem killByCollision_killAlien (s : State) (aidx : Nat) (alien : Alien) (sp : Sprite) :
    killByCollision s aidx alien sp = loseLife (killAlien s aidx alien sp) := rfl

theorem StepRel.projectileStep {R : State → State → Prop} (hR : StepRel R)
    {s : State} {pidx : Nat} {r : State × Ctl}
    (h : projectileStep s pidx = .ok r) : R s r.1 := by
  have hrem : ∀ {a b : State} {k : Nat}, removeProjectile a k = .ok b → R a b := by
    intro a b k hab
    obtain ⟨last, _, _, rfl⟩ := removeProjectile_ok hab
    exact hR.pool _ _ _
  obtain ⟨s0, p, h0, _, hc⟩ := projectileStep_cases h
  have p0 : R s s0 := by
    obtain ⟨q, _, rfl⟩ := advanceProjectile_eq_ok.1 h0
    exact hR.pool _ _ _
  rcases hc with ⟨_, hr⟩ | ⟨_, hr | hr | hr⟩
  · exact hR.trans p0 (hrem hr)
  · exact hR.trans p0 (hR.trans (hR.life s0) (hrem hr))
  · rw [hr]; exact p0
  · unfold resolvePlayerBullet at hr
    simp only [bind_eq_ok] at hr
    obtain ⟨s2, h2, h3⟩ := hr
    obtain ⟨l, n, rfl⟩ := projectileScan_same h2
    refine hR.trans p0 (hR.trans (hR.pool s0 l n) ?_)
    rcases alienScan_cases _ _ _ _ _ h3 with he | ⟨j, alien, sp, ha, hd, hsp, hk⟩
    · rw [he]; exact hR.refl _
    · obtain ⟨l2, n2, he⟩ := killByProjectile_killAlien hk
      rw [he]
      exact hR.trans (hR.kill _ j alien sp ha hd hsp) (hR.pool _ _ _)

theorem StepRel.simulateProjectiles {R : State → State → Prop} (hR : StepRel R)
    {s s1 : State} (h : simulateProjectiles s = .ok s1) : R s s1 :=
  projectileLoop_induct (R s)
    (fun _ _ _ hP hr => hR.trans hP (hR.projectileStep hr)) _ _ _ _ (hR.refl s) h

theorem StepRel.playerAlienCollision {R : State → State → Prop} (hR : StepRel R)
    {s s1 : State} (h : playerAlienCollision s = .ok s1) : R s s1 := by
  rcases collisionScan_cases _ _ _ _ h with rfl | ⟨j, alien, sp, ha, hd, hsp, rfl⟩
  · exact hR.refl _
  · rw [killByCollision_killAlien]
    exact hR.trans (hR.kill _ j alien sp ha hd hsp) (hR.life _)

/-! ## The swarm bookkeeping along a frame -/

theorem aliveCount_of_types {s s1 : State}
    (h : s1.game.aliens.map (fun a => a.type) = s.game.aliens.map (fun a => a.type)) :
    aliveCount s1 = aliveCount s := by
  have h2 := congrArg (List.countP fun t => decide (t ≠ ALIEN_DEAD)) h
  simpa [aliveCount, List.countP_map, Function.comp_def] using h2

theorem aliveCount_killAlien {s : State} {aidx : Nat} {alien : Alien} (sp : Sprite)
    (ha : s.game.aliens[aidx]? = some alien) (halive : alien.type ≠ ALIEN_DEAD) :
    aliveCount (killAlien s aidx alien sp) + 1 = aliveCount s := by
  have hi : aidx < s.game.aliens.length := (List.getElem?_eq_some_iff.1 ha).1
  have hget : s.game.aliens[aidx] = alien := (List.getElem?_eq_some_iff.1 ha).2
  simp only [aliveCount, killAlien]
  rw [List.countP_set _ _ _ _ hi, hget]
  have hpos := List.boole_getElem_le_countP (fun a => decide (a.type ≠ ALIEN_DEAD))
    s.game.aliens aidx hi
  rw [hget] at hpos
  have h1 : decide (alien.type ≠ ALIEN_DEAD) = true := by simp [halive]
  have h2 : decide (ALIEN_DEAD ≠ ALIEN_DEAD) = false := by simp
  simp only [h1, h2, if_true, Bool.false_eq_true, if_false] at hpos ⊢
  omega

theorem InvSpeed.of_unchanged {s s1 : State} (h : InvSpeed s)
    (ha : s1.game.aliens.map (fun a => a.type) = s.game.aliens.map (fun a => a.type))
    (hc : s1.deathCounters.length = s.deathCounters.length)
    (han : s1.alienAnimation.map (fun a => a.frameDuration) =
      s.alienAnimation.map (fun a => a.frameDuration))
    (hk : s1.aliensKilled = s.aliensKilled)
    (hf : s1.alienUpdateFrequency = s.alienUpdateFrequency)
    (hflag : s1.shouldChangeSpeed = s.shouldChangeSpeed) : InvSpeed s1 := by
  refine ⟨?_, hc.trans h.counters, ?_, ?_, ?_⟩
  · have := congrArg List.length ha
    simp only [List.length_map] at this
    exact this.trans h.aliens
  · rw [hk, aliveCount_of_types ha]; exact h.killed
  · rw [hk, hf, hflag]; exact h.speed
  · rw [han]; exact h.frames

theorem InvSpeed.stepRel : StepRel (fun s s1 => InvSpeed s → InvSpeed s1) where
  refl := fun _ h => h
  trans := fun h1 h2 h => h2 (h1 h)
  pool := fun _ _ _ h => h.of_unchanged rfl rfl rfl rfl rfl rfl
  life := fun _ h => h.of_unchanged rfl rfl rfl rfl rfl rfl
  kill := by
    intro s aidx alien sp ha halive _ h
    have hc := aliveCount_killAlien sp ha halive
    have hk := h.killed
    have hadd : addU s.aliensKilled 1 = s.aliensKilled + 1 :=
      addU_eq (by unfold U64; omega)
    refine ⟨by simp [killAlien, h.aliens], h.counters, ?_, ?_, h.frames⟩
    · show addU s.aliensKilled 1 + aliveCount (killAlien s aidx alien sp) = 55
      omega
    · show speedOk s.alienUpdateFrequency (addU s.aliensKilled 1)
        (if addU s.aliensKilled 1 % 15 = 0 then true else s.shouldChangeSpeed)
      have hs := h.speed
      rw [hadd]
      unfold speedOk at hs ⊢
      by_cases h15 : (s.aliensKilled + 1) % 15 = 0
      · simp only [h15, if_true]
        cases hfl : s.shouldChangeSpeed <;> simp only [hfl, if_true, Bool.false_eq_true, if_false] at hs <;> omega
      · simp only [h15, if_false]
        cases hfl : s.shouldChangeSpeed <;> simp only [hfl, if_true, Bool.false_eq_true, if_false] at hs ⊢ <;> omega

theorem applySpeedChange_inv {s : State} (h : InvSpeed s) :
    InvSpeed (applySpeedChange s) ∧ (applySpeedChange s).shouldChangeSpeed = false := by
  unfold applySpeedChange
  cases hfl : s.shouldChangeSpeed
  · simp only [Bool.false_eq_true, if_false]
    exact ⟨h, hfl⟩
  · simp only [if_true]
    refine ⟨⟨h.aliens, h.counters, h.killed, ?_, ?_⟩, trivial⟩
    · show speedOk (s.alienUpdateFrequency / 2) s.aliensKilled false
      have hs := h.speed
      have hk := h.killed
      unfold speedOk at hs ⊢
      simp only [hfl, if_true, Bool.false_eq_true, if_false] at hs ⊢
      omega
    · show (s.alienAnimation.map fun a =>
          { a with frameDuration := s.alienUpdateFrequency / 2 }).map (fun a => a.frameDuration) =
            _ ∨ _
      have hs := h.speed
      have hk := h.killed
      have hl : s.alienAnimation.length = 3 := by
        have := h.frames
        rcases this with e | e | e | e <;>
          simpa using congrArg List.length e
      unfold speedOk at hs
      simp only [hfl, if_true] at hs
      have hmap : (s.alienAnimation.map fun a =>
          { a with frameDuration := s.alienUpdateFrequency / 2 }).map (fun a => a.frameDuration) =
          List.replicate 3 (s.alienUpdateFrequency / 2) := by
        rw [List.map_map, ← hl]
        exact List.map_const _ _
      rw [hmap]
      rcases hs with ⟨e, _⟩ | ⟨e, _⟩ | ⟨e, _⟩ | ⟨e, _⟩
      · rw [e]; right; left; rfl
      · rw [e]; right; right; left; rfl
      · rw [e]; right; right; right; rfl
      · omega

theorem Settled.of_kept {s s1 : State} (h : Settled s)
    (ha : s1.game.aliens.map (fun a => a.type) = s.game.aliens.map (fun a => a.type))
    (hc : s1.deathCounters.length = s.deathCounters.length)
    (han : s1.alienAnimation.map (fun a => a.frameDuration) =
      s.alienAnimation.map (fun a => a.frameDuration))
    (hk : s1.aliensKilled = s.aliensKilled)
    (hf : s1.alienUpdateFrequency = s.alienUpdateFrequency)
    (hflag : s1.shouldChangeSpeed = s.shouldChangeSpeed) : Settled s1 :=
  ⟨h.1.of_unchanged ha hc han hk hf hflag, hflag.trans h.2⟩

theorem updateDeathCounters_settled {s : State} (h : Settled s) :
    Settled (updateDeathCounters s) :=
  h.of_kept rfl (by simp [updateDeathCounters, h.1.aliens, h.1.counters]) rfl rfl rfl rfl

theorem updateAliens_settled {s s1 : State} (h : Settled s) (hs : updateAliens s = .ok s1) :
    Settled s1 := by
  unfold updateAliens at hs
  split at hs
  · obtain ⟨rng, l, n, rfl⟩ := alienFire_same hs
    exact h.of_kept (moveSwarm_types _) rfl rfl rfl rfl rfl
  · have : s = s1 := by simpa using hs
    exact this ▸ h

theorem tickAnimation_frameDuration (a : SpriteAnimation) :
    (tickAnimation a).frameDuration = a.frameDuration := by
  unfold tickAnimation
  simp only []
  split <;> rfl

theorem updateAnimations_settled {s : State} (h : Settled s) : Settled (updateAnimations s) :=
  h.of_kept rfl rfl
    (by simp [updateAnimations, Function.comp_def, tickAnimation_frameDuration]) rfl rfl rfl

theorem movePlayer_settled {s : State} (h : Settled s) : Settled (movePlayer s) := by
  unfold movePlayer
  split
  · exact h.of_kept rfl rfl rfl rfl rfl rfl
  · exact h

theorem simulateToRoundCheck_settled {s s1 : State} (h : InvSpeed s)
    (hs : simulateToRoundCheck s = .ok s1) : Settled s1 := by
  unfold simulateToRoundCheck at hs
  simp only [bind_eq_ok, pure_eq_ok] at hs
  obtain ⟨s2, h2, s3, h3, s4, h4, rfl⟩ := hs
  have i2 := InvSpeed.stepRel.simulateProjectiles h2 h
  have i3 := InvSpeed.stepRel.playerAlienCollision h3 i2
  exact movePlayer_settled (updateAnimations_settled
    (updateAliens_settled (updateDeathCounters_settled (applySpeedChange_inv i3)) h4))

theorem resetRound_settled {s : State} (h : Settled s) : Settled (resetRound s) := by
  rw [resetRound_eq s h.1.counters h.1.aliens]
  refine ⟨⟨by simp, by simp, ?_, ?_, h.1.frames⟩, h.2⟩
  · simp only [aliveCount]
    decide
  · show speedOk 120 0 s.shouldChangeSpeed
    rw [h.2]
    left
    simp

theorem roundCheck_settled {s s1 : State} (h : Settled s) (hs : roundCheck s = .ok s1) :
    Settled s1 := by
  unfold roundCheck at hs
  split at hs
  · obtain ⟨pos, mx, rfl⟩ := updateSwarmBounds_same hs
    exact h.of_kept rfl rfl rfl rfl rfl rfl
  · have : resetRound s = s1 := by simpa using hs
    exact this ▸ resetRound_settled h

theorem playerFire_settled {s s1 : State} (h : Settled s) (hs : playerFire s = .ok s1) :
    Settled s1 := by
  obtain ⟨l, n, rfl⟩ := playerFire_same hs
  exact h.of_kept rfl rfl rfl rfl rfl rfl

/-- The three steps of a tick with the player alive. -/
theorem tick_eq_ok {s s1 : State} (hl : s.game.player.life ≠ 0) (h : tick s = .ok s1) :
    ∃ m r, simulateToRoundCheck s = .ok m ∧ roundCheck m = .ok r ∧ playerFire r = .ok s1 := by
  unfold tick at h
  simp only [hl, if_false, bind_eq_ok] at h
  obtain ⟨_, _, _, _, m, hm, r, hr, hf⟩ := h
  exact ⟨m, r, hm, hr, hf⟩

theorem tick_settled {s s1 : State} (h : Settled s) (hs : tick s = .ok s1) : Settled s1 := by
  by_cases hl : s.game.player.life = 0
  · have : s = s1 := by simpa [tick, hl] using hs
    exact this ▸ h
  · obtain ⟨m, r, hm, hr, hf⟩ := tick_eq_ok hl hs
    exact playerFire_settled (roundCheck_settled (simulateToRoundCheck_settled h.1 hm) hr) hf

theorem frame_eq_ok {s s1 : State} {e : Input} (h : frame s e = .ok s1) :
    ∃ t, tick s = .ok t ∧ s1 = pollEvents t e := by
  unfold frame at h
  simp only [bind_eq_ok, pure_eq_ok] at h
  obtain ⟨t, ht, rfl⟩ := h
  exact ⟨t, ht, rfl⟩

theorem initialState_settled : Settled initialState := by
  refine ⟨⟨by decide, by decide, by decide, ?_, ?_⟩, rfl⟩
  · left; exact ⟨rfl, by decide⟩
  · left; rfl

theorem Reachable.settled {s : State} (h : Reachable s) : Settled s := by
  induction h with
  | init => exact initialState_settled
  | step e _ _ hf ih =>
    obtain ⟨t, ht, rfl⟩ := frame_eq_ok hf
    exact (tick_settled ih ht).of_kept rfl rfl rfl rfl rfl rfl

/-! ## C8, C9, C17 -/

theorem roundCheck_cases {m r : State} (h : roundCheck m = .ok r) :
    (m.aliensKilled < m.game.numAliens ∧
      ∃ pos mx, r = { m with alienSwarmPosition := pos, alienSwarmMaxPosition := mx }) ∨
    (m.game.numAliens ≤ m.aliensKilled ∧ r = resetRound m) := by
  unfold roundCheck at h
  split at h
  · exact Or.inl ⟨by assumption, updateSwarmBounds_same h⟩
  · have : resetRound m = r := by simpa using h
    exact Or.inr ⟨by omega, this.symm⟩

theorem subU_one_of_lt {n : Nat} (hn : n ≤ 128) (h : subU n 1 < 128) :
    1 ≤ n ∧ subU n 1 = n - 1 := by
  unfold subU U64 at *
  split at h <;> split <;> omega

theorem addU_up {y : Nat} (hy : y < 256) : addU y (ofInt 2) = y + 2 := by
  have h2 : ofInt 2 = 2 := by decide!
  rw [h2]
  exact addU_eq (by unfold U64; omega)

theorem addU_down {y : Nat} (hy : 3 ≤ y) (hy2 : y < 256) : addU y (ofInt (-2)) = y - 2 := by
  have h2 : ofInt (-2) = 18446744073709551614 := by decide!
  rw [h2]
  unfold addU U64
  omega

theorem poolOk_remove {l : List Projectile} {n k : Nat} {last : Projectile}
    (hex : ∀ (i : Nat) (p : Projectile), i < n → i ≠ k → l[i]? = some p → inFlight p)
    (hn : 1 ≤ n) (hlast : l[n - 1]? = some last) : poolOk (l.set k last) (n - 1) := by
  intro i p hi hp
  have hlen : n - 1 < l.length := (List.getElem?_eq_some_iff.1 hlast).1
  by_cases hik : i = k
  · subst hik
    rw [List.getElem?_set_self (by omega)] at hp
    cases hp
    exact hex (n - 1) _ (by omega) (by omega) hlast
  · rw [List.getElem?_set_ne (Ne.symm hik)] at hp
    exact hex i p (by omega) hik hp

theorem InvPool.of_pool {s s1 : State} (h : InvPool s)
    (hh : s1.game.height = s.game.height) (hp : s1.game.player.y = s.game.player.y)
    (hal : ∀ a ∈ s1.game.aliens, ∃ b ∈ s.game.aliens, a.y = b.y)
    (hlen : s1.game.projectiles.length = 128) (hc : s1.game.numProjectiles ≤ 128)
    (hpool : poolOk s1.game.projectiles s1.game.numProjectiles) : InvPool s1 := by
  refine ⟨hh.trans h.height, hp.trans h.playerY, hlen, hc, ?_, hpool⟩
  intro a ha
  obtain ⟨b, hb, e⟩ := hal a ha
  rw [e]
  exact h.alienY b hb

theorem InvPool.of_game {s s1 : State} (h : InvPool s) (hg : s1.game = s.game) : InvPool s1 :=
  ⟨hg ▸ h.height, hg ▸ h.playerY, hg ▸ h.capacity, hg ▸ h.count, hg ▸ h.alienY, hg ▸ h.pool⟩

/-- Removal of slot `k` when every other stored projectile is in flight. -/
theorem removeProjectile_pool {s0 s s1 : State} {k : Nat} (h : InvPool s0)
    (hh : s.game.height = s0.game.height) (hp : s.game.player.y = s0.game.player.y)
    (hal : s.game.aliens = s0.game.aliens)
    (hlen : s.game.projectiles.length = 128) (hc : s.game.numProjectiles ≤ 128)
    (hex : ∀ (i : Nat) (p : Projectile), i < s.game.numProjectiles → i ≠ k →
      s.game.projectiles[i]? = some p → inFlight p)
    (hs : removeProjectile s k = .ok s1) : InvPool s1 := by
  obtain ⟨last, hl, _, rfl⟩ := removeProjectile_ok hs
  have hlt : subU s.game.numProjectiles 1 < 128 := by
    have := (List.getElem?_eq_some_iff.1 hl).1
    omega
  obtain ⟨h1, he⟩ := subU_one_of_lt hc hlt
  rw [he] at hl ⊢
  refine h.of_pool hh hp (fun a ha => ⟨a, hal ▸ ha, rfl⟩) (by simp [setPool, hlen]) ?_ ?_
  · show s.game.numProjectiles - 1 ≤ 128
    omega
  · exact poolOk_remove hex h1 hl

theorem InvPool.removeProjectile {s s1 : State} {k : Nat} (h : InvPool s)
    (hs : removeProjectile s k = .ok s1) : InvPool s1 :=
  removeProjectile_pool h rfl rfl rfl h.capacity h.count
    (fun i p hi _ hp => h.pool i p hi hp) hs

theorem InvPool.annihilate {s s1 : State} {pidx pjidx : Nat} (h : InvPool s)
    (hs : annihilate s pidx pjidx = .ok s1) : InvPool s1 := by
  obtain ⟨h2, l, rfl, hlen, hslots⟩ :=
    annihilate_ok (by rw [h.capacity]; exact h.count) h.capacity hs
  refine h.of_pool rfl rfl (fun a ha => ⟨a, ha, rfl⟩) (hlen.trans h.capacity) ?_ ?_
  · show s.game.numProjectiles - 2 ≤ 128
    have := h.count
    omega
  · intro i p hi hp
    obtain ⟨j, hj, e⟩ := hslots i hi
    exact h.pool j p hj (e ▸ hp)

theorem InvPool.killAlien {s : State} {aidx : Nat} {alien : Alien} (sp : Sprite) (h : InvPool s)
    (ha : s.game.aliens[aidx]? = some alien) : InvPool (killAlien s aidx alien sp) := by
  refine h.of_pool rfl rfl ?_ h.capacity h.count h.pool
  intro a hmem
  rcases List.mem_or_eq_of_mem_set hmem with hm | rfl
  · exact ⟨a, hm, rfl⟩
  · exact ⟨alien, List.getElem?_mem ha, rfl⟩

theorem InvPool.loseLife {s : State} (h : InvPool s) : InvPool (loseLife s) :=
  h.of_pool rfl rfl (fun a ha => ⟨a, ha, rfl⟩) h.capacity h.count h.pool

theorem InvPool.killByProjectile {s s1 : State} {pidx aidx : Nat} {alien : Alien} {sp : Sprite}
    (h : InvPool s) (ha : s.game.aliens[aidx]? = some alien)
    (hs : killByProjectile s pidx aidx alien sp = .ok s1) : InvPool s1 := by
  obtain ⟨last, hl, _, rfl⟩ := killByProjectile_eq_ok.1 hs
  have hlt : subU s.game.numProjectiles 1 < 128 := by
    have := (List.getElem?_eq_some_iff.1 hl).1
    have := h.capacity
    omega
  obtain ⟨h1, he⟩ := subU_one_of_lt h.count hlt
  rw [he] at hl
  refine h.of_pool rfl rfl ?_ (by simp [h.capacity]) ?_ ?_
  · intro a hmem
    rcases List.mem_or_eq_of_mem_set hmem with hm | rfl
    · exact ⟨a, hm, rfl⟩
    · exact ⟨alien, List.getElem?_mem ha, rfl⟩
  · show subU s.game.numProjectiles 1 ≤ 128
    omega
  · show poolOk (s.game.projectiles.set pidx last) (subU s.game.numProjectiles 1)
    rw [he]
    exact poolOk_remove (fun i p hi _ hp => h.pool i p hi hp) h1 hl

theorem projectileStep_pool {s : State} {pidx : Nat} {r : State × Ctl} (h : InvPool s)
    (hlt : pidx < s.game.numProjectiles) (hs : projectileStep s pidx = .ok r) :
    InvPool r.1 := by
  obtain ⟨s0, p1, h0, hp1, hc⟩ := projectileStep_cases hs
  obtain ⟨p, hp, rfl⟩ := advanceProjectile_eq_ok.1 h0
  have hfl := h.pool pidx p hlt hp
  have hpi : pidx < s.game.projectiles.length := (List.getElem?_eq_some_iff.1 hp).1
  have hp1e : { p with y := addU p.y (ofInt p.dir) } = p1 := by
    have : (s.game.projectiles.set pidx { p with y := addU p.y (ofInt p.dir) })[pidx]? =
        some p1 := hp1
    rw [List.getElem?_set_self hpi] at this
    exact Option.some.inj this
  have hex : ∀ (i : Nat) (q : Projectile), i < s.game.numProjectiles → i ≠ pidx →
      (s.game.projectiles.set pidx { p with y := addU p.y (ofInt p.dir) })[i]? = some q →
      inFlight q := by
    intro i q hi hne hq
    rw [List.getElem?_set_ne (Ne.symm hne)] at hq
    exact h.pool i q hi hq
  have hlen : (s.game.projectiles.set pidx { p with y := addU p.y (ofInt p.dir) }).length =
      128 := by simp [h.capacity]
  rcases hc with ⟨_, hr⟩ | ⟨hin, hr⟩
  · exact removeProjectile_pool
      (s := setPool s (s.game.projectiles.set pidx { p with y := addU p.y (ofInt p.dir) })
        s.game.numProjectiles) h rfl rfl rfl hlen h.count hex hr
  · have hh : playerProjectileSprite.height = 3 := rfl
    have hin2 : 3 ≤ p1.y ∧ p1.y < 256 := by
      have e : (setPool s (s.game.projectiles.set pidx { p with y := addU p.y (ofInt p.dir) })
          s.game.numProjectiles).game.height = 256 := h.height
      rw [e, hh] at hin
      omega
    have h0inv : InvPool (setPool s
        (s.game.projectiles.set pidx { p with y := addU p.y (ofInt p.dir) })
        s.game.numProjectiles) := by
      refine h.of_pool rfl rfl (fun a ha => ⟨a, ha, rfl⟩) hlen h.count ?_
      intro i q hi hq
      by_cases hik : i = pidx
      · subst hik
        have : (s.game.projectiles.set i { p with y := addU p.y (ofInt p.dir) })[i]? =
            some q := hq
        rw [List.getElem?_set_self hpi] at this
        have hq1 : q = p1 := (Option.some.inj this).symm.trans hp1e
        rw [hq1]
        refine ⟨hin2.1, hin2.2, ?_⟩
        rw [← hp1e]
        exact hfl.2.2
      · exact hex i q hi hik hq
    rcases hr with hr | hr | hr
    · exact h0inv.loseLife.removeProjectile hr
    · rw [hr]; exact h0inv
    · unfold resolvePlayerBullet at hr
      simp only [bind_eq_ok] at hr
      obtain ⟨s2, h2, h3⟩ := hr
      have h2inv : InvPool s2 := by
        rcases projectileScan_cases _ _ _ _ _ h2 with e | ⟨j, _, _, hj⟩
        · rw [e]; exact h0inv
        · exact h0inv.annihilate hj
      rcases alienScan_cases _ _ _ _ _ h3 with e | ⟨j, alien, sp, ha, _, _, hk⟩
      · rw [e]; exact h2inv
      · exact h2inv.killByProjectile ha hk

/-- A property that every iteration of the projectile loop preserves, run for
an index below the count, holds after the loop. -/
theorem projectileLoop_induct_lt (P : State → Prop)
    (hstep : ∀ (s : State) (pidx : Nat) (r : State × Ctl),
      P s → pidx < s.game.numProjectiles → projectileStep s pidx = .ok r → P r.1) :
    ∀ (fuel : Nat) (s s1 : State) (pidx : Nat),
      P s → projectileLoop fuel s pidx = .ok s1 → P s1 := by
  intro fuel
  induction fuel with
  | zero =>
    intro s s1 pidx hP h
    unfold projectileLoop at h
    split at h
    · exact absurd h (by simp)
    · have : s = s1 := by simpa using h
      exact this ▸ hP
  | succ fuel ih =>
    intro s s1 pidx hP h
    unfold projectileLoop at h
    by_cases hlt : pidx < s.game.numProjectiles
    · simp only [hlt, if_true, bind_eq_ok] at h
      obtain ⟨r, hr, h⟩ := h
      have hPr := hstep s pidx r hP hlt hr
      split at h
      · exact ih _ _ _ hPr h
      · have : r.1 = s1 := by simpa [pure, Except.pure] using h
        exact this ▸ hPr
      · exact ih _ _ _ hPr h
    · simp only [hlt, if_false] at h
      have : s = s1 := by simpa using h
      exact this ▸ hP

theorem InvPool.projectiles {s s1 : State} (h : InvPool s)
    (hs : simulateProjectiles s = .ok s1) : InvPool s1 :=
  projectileLoop_induct_lt InvPool (fun _ _ _ hP hlt hr => projectileStep_pool hP hlt hr)
    _ _ _ _ h hs

theorem InvPool.collision {s s1 : State} (h : InvPool s)
    (hs : playerAlienCollision s = .ok s1) : InvPool s1 := by
  rcases collisionScan_cases _ _ _ _ hs with e | ⟨j, alien, sp, ha, _, _, e⟩
  · rw [e]; exact h
  · rw [e, killByCollision_killAlien]
    exact (h.killAlien sp ha).loseLife

theorem descend_y {a : Alien} (h : 16 ≤ a.y ∧ a.y ≤ 196) :
    16 ≤ (descend 32 a).y ∧ (descend 32 a).y ≤ 196 := by
  have h24 : subU 32 8 = 24 := by decide!
  unfold descend
  rw [h24]
  split
  · show (16 : Nat) ≤ 188 ∧ (188 : Nat) ≤ 196
    omega
  · show 16 ≤ subU a.y 8 ∧ subU a.y 8 ≤ 196
    rw [subU_eq (by omega) (by unfold U64; omega)]
    omega

theorem InvPool.moveSwarm {s : State} (h : InvPool s) : InvPool (moveSwarm s) := by
  refine ⟨h.height, h.playerY, h.capacity, h.count, ?_, h.pool⟩
  intro a ha
  unfold SpaceInvaders.moveSwarm at ha
  simp only [List.mem_map] at ha
  obtain ⟨b, hb, rfl⟩ := ha
  show 16 ≤ b.y ∧ b.y ≤ 196
  split at hb
  · simp only [List.mem_map] at hb
    obtain ⟨c, hc, rfl⟩ := hb
    rw [h.playerY]
    exact descend_y (h.alienY c hc)
  · split at hb
    · exact h.alienY b hb
    · exact h.alienY b hb

theorem InvPool.alienFire {s s1 : State} (h : InvPool s) (hs : alienFire s = .ok s1) :
    InvPool s1 := by
  unfold SpaceInvaders.alienFire at hs
  split at hs
  · simp only [bind_eq_ok, setProj_eq_ok, pure_eq_ok, getAlien_eq_ok] at hs
    obtain ⟨drawn, _, alien, hal, sp, _, s2, ⟨hlt, rfl⟩, rfl⟩ := hs
    have hay := h.alienY alien (List.getElem?_mem hal)
    have hn : s.game.numProjectiles < 128 := by
      have := h.capacity
      exact this ▸ hlt
    have hadd : addU s.game.numProjectiles 1 = s.game.numProjectiles + 1 :=
      addU_eq (by unfold U64; omega)
    refine h.of_pool rfl rfl (fun a ha => ⟨a, ha, rfl⟩)
      ((List.length_set _ _ _).trans h.capacity) ?_ ?_
    · show addU s.game.numProjectiles 1 ≤ 128
      omega
    · show poolOk (s.game.projectiles.set s.game.numProjectiles (alienShot alien sp))
        (addU s.game.numProjectiles 1)
      rw [hadd]
      intro i p hi hp
      by_cases hin : i = s.game.numProjectiles
      · subst hin
        rw [List.getElem?_set_self hlt] at hp
        cases hp
        have h7 : alienProjectileSprite0.height = 7 := rfl
        refine ⟨?_, ?_, Or.inr rfl⟩
        · show 3 ≤ subU alien.y alienProjectileSprite0.height
          rw [h7, subU_eq (by omega) (by unfold U64; omega)]
          omega
        · show subU alien.y alienProjectileSprite0.height < 256
          rw [h7, subU_eq (by omega) (by unfold U64; omega)]
          omega
      · rw [List.getElem?_set_ne (Ne.symm hin)] at hp
        exact h.pool i p (by omega) hp
  · have : s = s1 := by simpa using hs
    exact this ▸ h

theorem InvPool.updateAliens {s s1 : State} (h : InvPool s) (hs : updateAliens s = .ok s1) :
    InvPool s1 := by
  unfold SpaceInvaders.updateAliens at hs
  split at hs
  · have h1 : InvPool { s with alienUpdateTimer := 0 } := h.of_game rfl
    exact h1.moveSwarm.alienFire hs
  · have : s = s1 := by simpa using hs
    exact this ▸ h

theorem InvPool.movePlayer {s : State} (h : InvPool s) : InvPool (movePlayer s) := by
  unfold SpaceInvaders.movePlayer
  split
  · exact h.of_pool rfl rfl (fun a ha => ⟨a, ha, rfl⟩) h.capacity h.count h.pool
  · exact h

theorem InvPool.simulateToRoundCheck {s s1 : State} (h : InvPool s)
    (hs : simulateToRoundCheck s = .ok s1) : InvPool s1 := by
  unfold SpaceInvaders.simulateToRoundCheck at hs
  simp only [bind_eq_ok, pure_eq_ok] at hs
  obtain ⟨s2, h2, s3, h3, s4, h4, rfl⟩ := hs
  have i3 := (h.projectiles h2).collision h3
  have i4 : InvPool (updateDeathCounters (applySpeedChange s3)) := by
    refine i3.of_game ?_
    unfold updateDeathCounters applySpeedChange
    split <;> rfl
  exact InvPool.movePlayer ((i4.updateAliens h4).of_game rfl)

theorem InvPool.roundCheck {s s1 : State} (h : InvPool s) (hset : Settled s)
    (hs : roundCheck s = .ok s1) : InvPool s1 := by
  rcases roundCheck_cases hs with ⟨_, pos, mx, rfl⟩ | ⟨_, rfl⟩
  · exact h.of_game rfl
  · rw [resetRound_eq s hset.1.counters hset.1.aliens]
    refine ⟨h.height, h.playerY, h.capacity, h.count, ?_, h.pool⟩
    intro a ha
    simp only [List.mem_map] at ha
    obtain ⟨i, _, rfl⟩ := ha
    show 16 ≤ 17 * (i % 5) + 128 ∧ 17 * (i % 5) + 128 ≤ 196
    omega

theorem InvPool.playerFire {s s1 : State} (h : InvPool s) (hs : playerFire s = .ok s1) :
    InvPool s1 := by
  unfold SpaceInvaders.playerFire at hs
  split at hs
  · rename_i hc
    simp only [bind_eq_ok, setProj_eq_ok, pure_eq_ok] at hs
    obtain ⟨s2, ⟨hlt, rfl⟩, rfl⟩ := hs
    have hn : s.game.numProjectiles < 128 := hc.2
    have hadd : addU s.game.numProjectiles 1 = s.game.numProjectiles + 1 :=
      addU_eq (by unfold U64; omega)
    refine h.of_pool rfl rfl (fun a ha => ⟨a, ha, rfl⟩)
      ((List.length_set _ _ _).trans h.capacity) ?_ ?_
    · show addU s.game.numProjectiles 1 ≤ 128
      omega
    · show poolOk (s.game.projectiles.set s.game.numProjectiles (playerShot s.game.player))
        (addU s.game.numProjectiles 1)
      rw [hadd]
      intro i p hi hp
      by_cases hin : i = s.game.numProjectiles
      · subst hin
        rw [List.getElem?_set_self hlt] at hp
        cases hp
        have h39 : addU 32 playerSprite.height = 39 := by decide!
        refine ⟨?_, ?_, Or.inl rfl⟩
        · show 3 ≤ addU s.game.player.y playerSprite.height
          rw [h.playerY, h39]
          decide
        · show addU s.game.player.y playerSprite.height < 256
          rw [h.playerY, h39]
          decide
      · rw [List.getElem?_set_ne (Ne.symm hin)] at hp
        exact h.pool i p (by omega) hp
  · have : { s with firePressed := false } = s1 := by simpa using hs
    exact this ▸ h.of_game rfl

theorem InvPool.tick {s s1 : State} (h : InvPool s) (hset : Settled s)
    (hs : tick s = .ok s1) : InvPool s1 := by
  by_cases hl : s.game.player.life = 0
  · have : s = s1 := by simpa [SpaceInvaders.tick, hl] using hs
    exact this ▸ h
  · obtain ⟨m, r, hm, hr, hf⟩ := tick_eq_ok hl hs
    exact ((h.simulateToRoundCheck hm).roundCheck
      (simulateToRoundCheck_settled hset.1 hm) hr).playerFire hf

theorem initialState_pool : InvPool initialState := by
  refine ⟨rfl, rfl, List.length_replicate _ _, by decide, by decide!, ?_⟩
  intro i p hi
  exact absurd hi (Nat.not_lt_zero i)

theorem Reachable.pool {s : State} (h : Reachable s) : InvPool s := by
  induction h with
  | init => exact initialState_pool
  | step e hr _ hf ih =>
    obtain ⟨t, ht, rfl⟩ := frame_eq_ok hf
    exact (ih.tick hr.settled ht).of_game rfl

/-! ## C3 -/

theorem toInt32_small {n : Nat} (h : n < 2147483648) : toInt32 n = n := by
  unfold toInt32
  have : n % 4294967296 = n := Nat.mod_eq_of_lt (by omega)
  rw [this]
  simp [h]

theorem stepPlayerX_right {x : Nat} (hx : x ≤ 213) :
    stepPlayerX 224 x 2 = if 211 ≤ x then 213 else x + 2 := by
  have h2 : ofInt 2 = 2 := by decide!
  have h11 : playerSprite.width = 11 := rfl
  have hs : subU 224 11 = 213 := by decide!
  have e0 : addU x 11 = x + 11 := addU_eq (by unfold U64; omega)
  have e1 : addU (x + 11) 2 = x + 11 + 2 := addU_eq (by unfold U64; omega)
  have e2 : addU x 2 = x + 2 := addU_eq (by unfold U64; omega)
  unfold stepPlayerX
  rw [h2, h11, hs, e0, e1, e2, toInt32_small (by omega)]
  by_cases h : 211 ≤ x
  · have : 224 ≤ x + 11 + 2 := by omega
    simp [h, this]
  · have : ¬ 224 ≤ x + 11 + 2 := by omega
    have h0 : ¬ ((x : Int) + 2 ≤ 0) := by omega
    simp [h, this, h0]

theorem stepPlayerX_left {x : Nat} (hx : x ≤ 213) :
    stepPlayerX 224 x (-2) = if x ≤ 2 then 0 else x - 2 := by
  have h2 : ofInt (-2) = 18446744073709551614 := by decide!
  have h11 : playerSprite.width = 11 := rfl
  have e0 : addU x 11 = x + 11 := addU_eq (by unfold U64; omega)
  have e1 : addU (addU x 11) 18446744073709551614 = x + 9 := by
    rw [e0]
    unfold addU U64
    omega
  have e2 : addU x 18446744073709551614 = if 2 ≤ x then x - 2 else x + 18446744073709551614 := by
    unfold addU U64
    split <;> omega
  unfold stepPlayerX
  rw [h2, h11, e1, e2, toInt32_small (by omega)]
  have : ¬ 224 ≤ x + 9 := by omega
  by_cases h : x ≤ 2
  · have h0 : (x : Int) + -2 ≤ 0 := by omega
    simp [h, this, h0]
  · have h0 : ¬ ((x : Int) + -2 ≤ 0) := by omega
    have h3 : 2 ≤ x := by omega
    simp [h, this, h0, h3]

/-- C16: with the buffer 224 wide, the player at `x ≤ 213` and a latched move
delta of -1, 0 or 1, the player-movement step sets `x` to
`clamp(x + 2 * moveDir, 0, 213)`; the sprite (11 wide) stays inside the buffer,
and `player.y` and `player.life` are not changed. -/
theorem movePlayer_clamps (s : State) (hw : s.game.width = 224)
    (hx : s.game.player.x ≤ 213)
    (hm : s.moveDir = -1 ∨ s.moveDir = 0 ∨ s.moveDir = 1) :
    ((movePlayer s).game.player.x : Int) =
        max 0 (min 213 ((s.game.player.x : Int) + 2 * s.moveDir)) ∧
      (movePlayer s).game.player.x + playerSprite.width ≤ (movePlayer s).game.width ∧
      (movePlayer s).game.player.y = s.game.player.y ∧
      (movePlayer s).game.player.life = s.game.player.life := by
  have h11 : playerSprite.width = 11 := rfl
  have hy : (movePlayer s).game.player.y = s.game.player.y ∧
      (movePlayer s).game.player.life = s.game.player.life ∧
      (movePlayer s).game.width = s.game.width := by
    unfold movePlayer
    split <;> exact ⟨rfl, rfl, rfl⟩
  have hxe : (movePlayer s).game.player.x =
      if s.moveDir = 1 then (if 211 ≤ s.game.player.x then 213 else s.game.player.x + 2)
      else if s.moveDir = -1 then (if s.game.player.x ≤ 2 then 0 else s.game.player.x - 2)
      else s.game.player.x := by
    unfold movePlayer
    rcases hm with h | h | h
    · simp only [h, hw]
      rw [show (2 : Int) * -1 = -2 from rfl]
      simp only [ne_eq, show ¬ ((-2 : Int) = 0) by decide, not_false_eq_true, if_true,
        show ¬ ((-1 : Int) = 1) by decide, if_false]
      exact stepPlayerX_left hx
    · simp [h]
    · simp only [h, hw]
      rw [show (2 : Int) * 1 = 2 from rfl]
      simp only [ne_eq, show ¬ ((2 : Int) = 0) by decide, not_false_eq_true, if_true]
      exact stepPlayerX_right hx
  refine ⟨?_, ?_, hy.1, hy.2.1⟩
  · rw [hxe]
    rcases hm with h | h | h <;> rw [h] <;> simp <;> (try split) <;> omega
  · rw [hy.2.2, hw, h11, hxe]
    rcases hm with h | h | h <;> rw [h] <;> simp <;> (try split) <;> omega

theorem movePlayer_clamps_witness :
    ((movePlayer { initialState with moveDir := 1 }).game.player.x : Int) =
        max 0 (min 213 ((({ initialState with moveDir := 1 } : State).game.player.x : Int) +
          2 * ({ initialState with moveDir := 1 } : State).moveDir)) ∧
      (movePlayer { initialState with moveDir := 1 }).game.player.x + playerSprite.width ≤
        (movePlayer { initialState with moveDir := 1 }).game.width ∧
      (movePlayer { initialState with moveDir := 1 }).game.player.y =
        ({ initialState with moveDir := 1 } : State).game.player.y ∧
      (movePlayer { initialState with moveDir := 1 }).game.player.life =
        ({ initialState with moveDir := 1 } : State).game.player.life :=
  movePlayer_clamps { initialState with moveDir := 1 } rfl (by decide) (Or.inr (Or.inr rfl))

/-! ## C19 -/

theorem initialGrid_get (r c : Nat) (hr : r < 5) (hc : c < 11) :
    initialState.game.aliens[r * 11 + c]? = some (initialAlien r c) := by
  interval_cases r <;> interval_cases c <;> decide!

theorem resetGrid_get (s : State) (hd : s.deathCounters.length = 55)
    (ha : s.game.aliens.length = 55) (r c : Nat) (hr : r < 5) (hc : c < 11) :
    (resetRound s).game.aliens[5 * c + r]? = some (resetAlien 24 c r) := by
  rw [resetRound_eq s hd ha]
  have h1 : (5 * c + r) / 5 = c := by omega
  have h2 : (5 * c + r) % 5 = r := by omega
  have h3 : 5 * c + r < 55 := by omega
  simp [List.getElem?_map, List.getElem?_range h3, h1, h2]

/-- C19: in the grid as first created (index `11 r + c`) and as created by the
round reset (index `5 c + r`), all 55 aliens are alive and the alien of row `r`
has type `(5 - r) / 2 + 1` and stands on row `y = 17 r + 128`; its kill award
`10 * (4 - type)` is 10 in rows 0 and 1 (nearest the player), 20 in rows 2 and
3, and 30 in row 4. -/
theorem grid_row_types (s : State) (hd : s.deathCounters.length = 55)
    (ha : s.game.aliens.length = 55) (r c : Nat) (hr : r < 5) (hc : c < 11) :
    aliveCount initialState = 55 ∧ aliveCount (resetRound s) = 55 ∧
    ∃ a b, initialState.game.aliens[r * 11 + c]? = some a ∧
      (resetRound s).game.aliens[5 * c + r]? = some b ∧
      a.type = (5 - r) / 2 + 1 ∧ b.type = (5 - r) / 2 + 1 ∧
      a.type ≠ ALIEN_DEAD ∧ b.type ≠ ALIEN_DEAD ∧
      a.y = 17 * r + 128 ∧ b.y = 17 * r + 128 ∧
      ofInt (10 * (4 - (a.type : Int))) = (if r ≤ 1 then 10 else if r ≤ 3 then 20 else 30) ∧
      ofInt (10 * (4 - (b.type : Int))) = (if r ≤ 1 then 10 else if r ≤ 3 then 20 else 30) := by
  refine ⟨by decide!, ?_, initialAlien r c, resetAlien 24 c r, initialGrid_get r c hr hc,
    resetGrid_get s hd ha r c hr hc, ?_⟩
  · rw [resetRound_eq s hd ha]
    simp only [aliveCount]
    decide
  · interval_cases r <;> interval_cases c <;> decide!

theorem grid_row_types_witness :
    aliveCount initialState = 55 ∧ aliveCount (resetRound initialState) = 55 ∧
    ∃ a b, initialState.game.aliens[4 * 11 + 10]? = some a ∧
      (resetRound initialState).game.aliens[5 * 10 + 4]? = some b ∧
      a.type = (5 - 4) / 2 + 1 ∧ b.type = (5 - 4) / 2 + 1 ∧
      a.type ≠ ALIEN_DEAD ∧ b.type ≠ ALIEN_DEAD ∧
      a.y = 17 * 4 + 128 ∧ b.y = 17 * 4 + 128 ∧
      ofInt (10 * (4 - (a.type : Int))) = (if 4 ≤ 1 then 10 else if 4 ≤ 3 then 20 else 30) ∧
      ofInt (10 * (4 - (b.type : Int))) = (if 4 ≤ 1 then 10 else if 4 ≤ 3 then 20 else 30) :=
  grid_row_types initialState (List.length_replicate _ _) (by decide!) 4 10 (by decide)
    (by decide)

/-! ## C13 -/

/-- C13 as stated fails: in `descentState` the swarm offset plus the move
direction is negative, alien 0 is alive on the player's row (`y = 32`, so it
differs from the player's `y` by 0), and the movement step puts it on row 24,
not on row 188. -/
theorem moveSwarm_descent_counterexample :
    toInt32 descentState.alienSwarmPosition + descentState.alienMoveDir < 0 ∧
    descentState.game.player.y = 32 ∧
    descentState.game.aliens[0]? = some ⟨20, 32, 3⟩ ∧
    (moveSwarm descentState).game.aliens[0]? = some ⟨24, 24, 3⟩ ∧
    ¬ (∀ (i : Nat) (a a1 : Alien), descentState.game.aliens[i]? = some a →
        a.type ≠ ALIEN_DEAD → (moveSwarm descentState).game.aliens[i]? = some a1 →
        a1.y = if (a.y : Int) - descentState.game.player.y ≤ 8 ∧
                  (descentState.game.player.y : Int) - a.y ≤ 8 then 188 else a.y - 8) := by
  refine ⟨by decide!, rfl, by decide!, by decide!, ?_⟩
  intro h
  have := h 0 ⟨20, 32, 3⟩ ⟨24, 24, 3⟩ (by decide!) (by decide) (by decide!)
  revert this
  decide

/-- C13, amended: in a swarm-movement step in which swarm offset plus move
direction is negative (as `int`), the move direction is negated and every
alien, alive or dead, keeps its type and gets the new `y` 188 if its `y` was
below `player.y - 8` (below 24 with the player on row 32), and otherwise
exactly its previous `y` minus 8. -/
theorem moveSwarm_descends (s : State)
    (hneg : toInt32 s.alienSwarmPosition + s.alienMoveDir < 0)
    (hp : s.game.player.y = 32) (i : Nat) (a : Alien)
    (ha : s.game.aliens[i]? = some a) (hy : a.y < U64) :
    (moveSwarm s).alienMoveDir = -s.alienMoveDir ∧
    (moveSwarm s).game.aliens.length = s.game.aliens.length ∧
    ∃ a1, (moveSwarm s).game.aliens[i]? = some a1 ∧ a1.type = a.type ∧
      a1.y = if a.y < s.game.player.y - 8 then 188 else a.y - 8 := by
  have h24 : subU 32 8 = 24 := by decide!
  unfold moveSwarm
  simp only [hneg, if_true, List.length_map, List.getElem?_map, ha, Option.map_some']
  refine ⟨by omega, trivial, _, rfl, ?_, ?_⟩
  · exact descend_type _ a
  · show (descend s.game.player.y a).y = _
    unfold descend
    rw [hp, h24]
    split
    · rename_i h
      simp [h]
    · rename_i h
      have : ¬ a.y < 32 - 8 := by omega
      simp only [this, if_false]
      exact subU_eq (by omega) hy

theorem moveSwarm_descends_witness :
    (moveSwarm descentState).alienMoveDir = -descentState.alienMoveDir ∧
    (moveSwarm descentState).game.aliens.length = descentState.game.aliens.length ∧
    ∃ a1, (moveSwarm descentState).game.aliens[0]? = some a1 ∧ a1.type = (⟨20, 32, 3⟩ : Alien).type ∧
      a1.y = if (⟨20, 32, 3⟩ : Alien).y < descentState.game.player.y - 8 then 188
        else (⟨20, 32, 3⟩ : Alien).y - 8 :=
  moveSwarm_descends descentState (by decide!) rfl 0 ⟨20, 32, 3⟩ (by decide!) (by decide!)

/-! ## C14 -/

/-- C14 (defect in the code): claimed is that in the initial state, as after a
round reset, the alien of row `r`, column `c` has
`x = 16 c + swarmOffset + centeringDelta` with the tracked swarm offset, 24.
The initial grid loop uses the constant 20 instead (line 698): the aliens of
row 0 (type 3, centering delta 0) stand at `x = 16 c + 20` while
`alienSwarmPosition` is 24; after a round reset the same aliens stand at
`16 c + 24`.  The rows `y = 17 r + 128` agree. -/
theorem initial_grid_offset :
    initialState.alienSwarmPosition = 24 ∧
    (resetRound initialState).alienSwarmPosition = 24 ∧
    subU alienDeathSprite.width alienSprite4.width / 2 = 0 ∧
    initialState.game.aliens[0 * 11 + 0]? = some ⟨16 * 0 + 20 + 0, 17 * 0 + 128, 3⟩ ∧
    (resetRound initialState).game.aliens[5 * 0 + 0]? = some ⟨16 * 0 + 24 + 0, 17 * 0 + 128, 3⟩ ∧
    initialState.game.aliens[4 * 11 + 10]? = some ⟨16 * 10 + 20 + 2, 17 * 4 + 128, 1⟩ ∧
    (resetRound initialState).game.aliens[5 * 10 + 4]? =
      some ⟨16 * 10 + 24 + 2, 17 * 4 + 128, 1⟩ := by
  decide!

/-! ## C15 -/

/-- C15 (defect in the code): claimed is that the left swarm bound is
recomputed from an alive alien of minimal `x`, in the initial grid as after a
reset.  The scan of line 1017 takes the first alive index; the initial grid is
stored row by row, so with the alien of row 0, column 0 dead it stops at index
1 (row 0, column 1, `x = 36`) although the alien of row 1, column 0 (index 11)
is alive at `x = 20`: the swarm offset jumps from 24 to 36.  In the grid of the
round reset, stored column by column, the same kill leaves the first alive
index in column 0. -/
theorem updateSwarmBounds_initial_grid :
    firstAlive 56 cornerDeadState 0 = .ok 1 ∧
    cornerDeadState.game.aliens[1]? = some ⟨36, 128, 3⟩ ∧
    cornerDeadState.game.aliens[11]? = some ⟨20, 145, 3⟩ ∧
    cornerDeadState.alienSwarmPosition = 24 ∧
    (updateSwarmBounds cornerDeadState).map (fun s => s.alienSwarmPosition) = .ok 36 ∧
    firstAlive 56 (killAlien (resetRound initialState) 0 ⟨24, 128, 3⟩ alienSprite4) 0 = .ok 1 ∧
    (killAlien (resetRound initialState) 0 ⟨24, 128, 3⟩ alienSprite4).game.aliens[1]? =
      some ⟨24, 145, 3⟩ := by
  decide!

/-! ## C20 -/

theorem set_perm_cons_eraseIdx {α : Type} (x : α) :
    ∀ (A : List α) (i : Nat), i < A.length → (A.set i x).Perm (x :: A.eraseIdx i) := by
  intro A
  induction A with
  | nil => intro i h; exact absurd h (Nat.not_lt_zero _)
  | cons a t ih =>
    intro i h
    cases i with
    | zero => exact List.Perm.refl _
    | succ i =>
      have h2 : i < t.length := by simpa using h
      exact ((ih i h2).cons a).trans (List.Perm.swap x a _)

theorem eraseIdx_set_below {α : Type} (y : α) :
    ∀ (A : List α) (lo hi : Nat), lo < hi →
      (A.set lo y).eraseIdx hi = (A.eraseIdx hi).set lo y := by
  intro A
  induction A with
  | nil => intro lo hi _; rfl
  | cons a t ih =>
    intro lo hi h
    cases hi with
    | zero => exact absurd h (Nat.not_lt_zero _)
    | succ hi =>
      cases lo with
      | zero => rfl
      | succ lo =>
        show a :: (t.set lo y).eraseIdx hi = a :: (t.eraseIdx hi).set lo y
        rw [ih lo hi (by omega)]

/-- The slots kept by the removal of two, against the list with the two
entries erased: `A` are the first `n - 2` entries, `x`, `y` the last two. -/
theorem pair_removal_perm {α : Type} (A : List α) (x y : α) (lo hi : Nat)
    (hlo : lo < hi) (hhi : hi < A.length + 2) :
    (if hi = A.length + 1 then A.set lo x else (A.set lo y).set hi x).Perm
      (((A ++ [x, y]).eraseIdx hi).eraseIdx lo) := by
  have tail1 : ∀ (v : α), lo < A.length → (A.set lo v).Perm ((A ++ [v]).eraseIdx lo) := by
    intro v h
    rw [List.eraseIdx_append_of_lt_length h]
    exact (set_perm_cons_eraseIdx v A lo h).trans (List.perm_append_singleton v _).symm
  by_cases h1 : hi = A.length + 1
  · rw [if_pos h1, h1, List.eraseIdx_append_of_length_le (by omega)]
    have e : A.length + 1 - A.length = 1 := by omega
    rw [e]
    show (A.set lo x).Perm ((A ++ [x]).eraseIdx lo)
    by_cases h2 : lo = A.length
    · rw [h2, List.eraseIdx_append_of_length_le (le_refl _), Nat.sub_self,
        List.set_eq_of_length_le (le_refl _)]
      simp
    · exact tail1 x (by omega)
  · rw [if_neg h1]
    by_cases h2 : hi = A.length
    · rw [h2, List.eraseIdx_append_of_length_le (le_refl _), Nat.sub_self,
        List.set_eq_of_length_le (by simp)]
      exact tail1 y (by omega)
    · have hh : hi < A.length := by omega
      rw [List.eraseIdx_append_of_lt_length hh,
        List.eraseIdx_append_of_lt_length (by rw [List.length_eraseIdx_of_lt hh]; omega)]
      have s1 := set_perm_cons_eraseIdx x (A.set lo y) hi (by simpa using hh)
      rw [eraseIdx_set_below y A lo hi hlo] at s1
      have s2 := set_perm_cons_eraseIdx y (A.eraseIdx hi) lo
        (by rw [List.length_eraseIdx_of_lt hh]; omega)
      refine (s1.trans (s2.cons x)).trans ?_
      exact (List.perm_append_comm : ([x, y] ++ _).Perm _)

theorem getProj_of {s : State} {i : Nat} {p : Projectile}
    (h : s.game.projectiles[i]? = some p) : getProj s i = .ok p := getProj_eq_ok.2 h

theorem setProj_of {s : State} {i : Nat} (p : Projectile) (h : i < s.game.projectiles.length) :
    setProj s i p = .ok (setPool s (s.game.projectiles.set i p) s.game.numProjectiles) :=
  setProj_eq_ok.2 ⟨h, rfl⟩

theorem ok_bind {α β : Type} (a : α) (f : α → Except Fault β) :
    ((.ok a : Except Fault α) >>= f) = f a := rfl

/-- The removal block for a pair `lo < hi` of stored projectiles, whichever of
the two is `pidx`: it returns, the count drops by 2, and the slots kept hold the
projectiles stored before except the two at `lo` and `hi`. -/
theorem annihilate_pair (s : State) (lo hi : Nat)
    (hcap : s.game.projectiles.length = GAME_MAX_PROJECTILES)
    (hn : s.game.numProjectiles ≤ GAME_MAX_PROJECTILES)
    (hlo : lo < hi) (hhi : hi < s.game.numProjectiles) (p q : Nat)
    (hpq : (p = lo ∧ q = hi) ∨ (p = hi ∧ q = lo)) :
    ∃ l, annihilate s p q = .ok (setPool s l (s.game.numProjectiles - 2)) ∧
      l.length = s.game.projectiles.length ∧
      (l.take (s.game.numProjectiles - 2)).Perm
        (((s.game.projectiles.take s.game.numProjectiles).eraseIdx hi).eraseIdx lo) := by
  have hG : GAME_MAX_PROJECTILES = 128 := rfl
  rw [hG] at hcap hn
  have e1 : subU s.game.numProjectiles 1 = s.game.numProjectiles - 1 :=
    subU_eq (by omega) (by unfold U64; omega)
  have e2 : subU s.game.numProjectiles 2 = s.game.numProjectiles - 2 :=
    subU_eq (by omega) (by unfold U64; omega)
  obtain ⟨x, hx⟩ : ∃ x, s.game.projectiles[s.game.numProjectiles - 2]? = some x :=
    ⟨_, List.getElem?_eq_getElem (by omega)⟩
  obtain ⟨y, hy⟩ : ∃ y, s.game.projectiles[s.game.numProjectiles - 1]? = some y :=
    ⟨_, List.getElem?_eq_getElem (by omega)⟩
  have hAlen : (s.game.projectiles.take (s.game.numProjectiles - 2)).length =
      s.game.numProjectiles - 2 := by
    rw [List.length_take]; omega
  have htake : s.game.projectiles.take s.game.numProjectiles =
      s.game.projectiles.take (s.game.numProjectiles - 2) ++ [x, y] := by
    have hn2 : s.game.numProjectiles = s.game.numProjectiles - 2 + 1 + 1 := by omega
    have hn1 : s.game.numProjectiles - 2 + 1 = s.game.numProjectiles - 1 := by omega
    conv_lhs => rw [hn2]
    rw [List.take_succ, List.take_succ, hn1, hx, hy]
    simp
  have key := pair_removal_perm (s.game.projectiles.take (s.game.numProjectiles - 2)) x y lo hi
    hlo (by rw [hAlen]; omega)
  rw [hAlen, ← htake] at key
  unfold annihilate overwritePair
  rw [e1, e2]
  by_cases hlast : hi = s.game.numProjectiles - 1
  · have hc : hi = s.game.numProjectiles - 2 + 1 := by omega
    rw [if_pos hc] at key
    have hcase : ∀ (a b : Nat), (a = lo ∧ b = hi) ∨ (a = hi ∧ b = lo) →
        (if b = s.game.numProjectiles - 1 then
            getProj s (s.game.numProjectiles - 2) >>= fun v => setProj s a v
          else if a = s.game.numProjectiles - 1 then
            getProj s (s.game.numProjectiles - 2) >>= fun v => setProj s b v
          else
            getProj s (s.game.numProjectiles - 1) >>= fun p1 =>
            setProj s (if a < b then a else b) p1 >>= fun s1 =>
            getProj s1 (s.game.numProjectiles - 2) >>= fun p2 =>
            setProj s1 (if a < b then b else a) p2) =
          .ok (setPool s (s.game.projectiles.set lo x) s.game.numProjectiles) := by
      intro a b hab
      rcases hab with ⟨rfl, rfl⟩ | ⟨rfl, rfl⟩
      · rw [if_pos hlast, getProj_of hx, ok_bind, setProj_of x (by omega)]
      · have hne : ¬ b = s.game.numProjectiles - 1 := by omega
        rw [if_neg hne, if_pos hlast, getProj_of hx, ok_bind, setProj_of x (by omega)]
    rw [hcase p q hpq, ok_bind]
    refine ⟨s.game.projectiles.set lo x, rfl, List.length_set _ _ _, ?_⟩
    rw [List.set_take]
    exact key
  · have hc : ¬ hi = s.game.numProjectiles - 2 + 1 := by omega
    rw [if_neg hc] at key
    have hy2 : (setPool s (s.game.projectiles.set lo y) s.game.numProjectiles).game.projectiles[
        s.game.numProjectiles - 2]? = some x := by
      show (s.game.projectiles.set lo y)[s.game.numProjectiles - 2]? = some x
      rw [List.getElem?_set_ne (by omega)]
      exact hx
    have hcase : ∀ (a b : Nat), (a = lo ∧ b = hi) ∨ (a = hi ∧ b = lo) →
        (if b = s.game.numProjectiles - 1 then
            getProj s (s.game.numProjectiles - 2) >>= fun v => setProj s a v
          else if a = s.game.numProjectiles - 1 then
            getProj s (s.game.numProjectiles - 2) >>= fun v => setProj s b v
          else
            getProj s (s.game.numProjectiles - 1) >>= fun p1 =>
            setProj s (if a < b then a else b) p1 >>= fun s1 =>
            getProj s1 (s.game.numProjectiles - 2) >>= fun p2 =>
            setProj s1 (if a < b then b else a) p2) =
          .ok (setPool s ((s.game.projectiles.set lo y).set hi x) s.game.numProjectiles) := by
      intro a b hab
      have hlo1 : ¬ lo = s.game.numProjectiles - 1 := by omega
      have hmin : (if a < b then a else b) = lo := by
        rcases hab with ⟨rfl, rfl⟩ | ⟨rfl, rfl⟩
        · rw [if_pos hlo]
        · rw [if_neg (by omega)]
      have hmax : (if a < b then b else a) = hi := by
        rcases hab with ⟨rfl, rfl⟩ | ⟨rfl, rfl⟩
        · rw [if_pos hlo]
        · rw [if_neg (by omega)]
      have ha1 : ¬ a = s.game.numProjectiles - 1 := by
        rcases hab with ⟨rfl, rfl⟩ | ⟨rfl, rfl⟩ <;> omega
      have hb1 : ¬ b = s.game.numProjectiles - 1 := by
        rcases hab with ⟨rfl, rfl⟩ | ⟨rfl, rfl⟩ <;> omega
      rw [if_neg hb1, if_neg ha1, hmin, hmax, getProj_of hy, ok_bind,
        setProj_of y (by omega), ok_bind, getProj_of hy2, ok_bind]
      exact setProj_of x (by simp [setPool]; omega)
    rw [hcase p q hpq, ok_bind]
    refine ⟨(s.game.projectiles.set lo y).set hi x, rfl,
      (List.length_set _ _ _).trans (List.length_set _ _ _), ?_⟩
    rw [List.set_take, List.set_take]
    exact key

/-- C20: for a pool of 128 slots with `n ≤ 128` projectiles stored and two
distinct indices `p`, `q` below `n`, the removal block of lines 841–854 (three
cases, then `n -= 2`) returns a state that differs from the one before in the
pool only, with `n - 2` projectiles stored; its first `n - 2` entries are a
permutation of the first `n` entries of before with the entries at `p` and `q`
erased. -/
theorem annihilate_removes_pair (s : State) (p q : Nat)
    (hcap : s.game.projectiles.length = GAME_MAX_PROJECTILES)
    (hn : s.game.numProjectiles ≤ GAME_MAX_PROJECTILES)
    (hp : p < s.game.numProjectiles) (hq : q < s.game.numProjectiles) (hpq : p ≠ q) :
    2 ≤ s.game.numProjectiles ∧
    ∃ l, annihilate s p q = .ok (setPool s l (s.game.numProjectiles - 2)) ∧
      l.length = s.game.projectiles.length ∧
      (l.take (s.game.numProjectiles - 2)).Perm
        (((s.game.projectiles.take s.game.numProjectiles).eraseIdx (max p q)).eraseIdx
          (min p q)) := by
  refine ⟨by omega, ?_⟩
  by_cases h : p < q
  · rw [Nat.max_eq_right (by omega), Nat.min_eq_left (by omega)]
    exact annihilate_pair s p q hcap hn h hq p q (Or.inl ⟨rfl, rfl⟩)
  · rw [Nat.max_eq_left (by omega), Nat.min_eq_right (by omega)]
    exact annihilate_pair s q p hcap hn (by omega) hp p q (Or.inr ⟨rfl, rfl⟩)

theorem annihilate_removes_pair_witness :
    2 ≤ annihilationState.game.numProjectiles ∧
    ∃ l, annihilate annihilationState 1 2 =
        .ok (setPool annihilationState l (annihilationState.game.numProjectiles - 2)) ∧
      l.length = annihilationState.game.projectiles.length ∧
      (l.take (annihilationState.game.numProjectiles - 2)).Perm
        (((annihilationState.game.projectiles.take
          annihilationState.game.numProjectiles).eraseIdx (max 1 2)).eraseIdx (min 1 2)) :=
  annihilate_removes_pair annihilationState 1 2 (by decide!) (by decide!) (by decide!)
    (by decide!) (by decide)

/-! ## Drawing -/

theorem foldlM_cons_ok {α β : Type} (f : β → α → Except Fault β) (b : β) (a : α) (l : List α) :
    (a :: l).foldlM f b = f b a >>= fun b1 => l.foldlM f b1 := rfl

/-- A fold of steps each of which writes `color` to the pixels it selects and
leaves the others alone writes `color` to the pixels selected by some step. -/
theorem paint_fold {α : Type} (W H color : Nat) (T : α → Nat → Prop)
    (step : Buffer → α → Except Fault Buffer) :
    ∀ (cs : List α),
    (∀ c ∈ cs, ∀ b : Buffer, b.width = W → b.height = H → b.data.length = W * H →
      ∃ b1, step b c = .ok b1 ∧ b1.width = W ∧ b1.height = H ∧ b1.data.length = W * H ∧
        ∀ k, (T c k → b1.data[k]? = some color) ∧ (¬ T c k → b1.data[k]? = b.data[k]?)) →
    ∀ b : Buffer, b.width = W → b.height = H → b.data.length = W * H →
      ∃ b1, cs.foldlM step b = .ok b1 ∧ b1.width = W ∧ b1.height = H ∧
        b1.data.length = W * H ∧
        ∀ k, ((∃ c ∈ cs, T c k) → b1.data[k]? = some color) ∧
          ((¬ ∃ c ∈ cs, T c k) → b1.data[k]? = b.data[k]?) := by
  intro cs
  induction cs with
  | nil =>
    intro _ b hw hh hl
    exact ⟨b, rfl, hw, hh, hl, fun k => ⟨fun ⟨c, hc, _⟩ => absurd hc (List.not_mem_nil c),
      fun _ => rfl⟩⟩
  | cons c cs ih =>
    intro hstep b hw hh hl
    obtain ⟨b1, e1, hw1, hh1, hl1, hk1⟩ := hstep c (List.mem_cons_self _ _) b hw hh hl
    obtain ⟨b2, e2, hw2, hh2, hl2, hk2⟩ :=
      ih (fun c' hc' => hstep c' (List.mem_cons_of_mem _ hc')) b1 hw1 hh1 hl1
    refine ⟨b2, ?_, hw2, hh2, hl2, ?_⟩
    · rw [foldlM_cons_ok, e1]
      exact e2
    · intro k
      by_cases hrest : ∃ c' ∈ cs, T c' k
      · refine ⟨fun _ => (hk2 k).1 hrest, fun hno => ?_⟩
        obtain ⟨c', hc', ht⟩ := hrest
        exact absurd ⟨c', List.mem_cons_of_mem _ hc', ht⟩ hno
      · have e := (hk2 k).2 hrest
        refine ⟨fun hsome => ?_, fun hno => ?_⟩
        · obtain ⟨c', hc', ht⟩ := hsome
          rcases List.mem_cons.1 hc' with rfl | hin
          · rw [e]; exact (hk1 k).1 ht
          · exact absurd ⟨c', hin, ht⟩ hrest
        · rw [e]
          exact (hk1 k).2 (fun ht => hno ⟨c, List.mem_cons_self _ _, ht⟩)

theorem drawCell_paints (sprite : Sprite) (x y color xidx yidx : Nat)
    (hmask : sprite.width * sprite.height ≤ sprite.data.length)
    (hxi : xidx < sprite.width) (hyi : yidx < sprite.height)
    (b : Buffer) (hl : b.data.length = b.width * b.height) :
    ∃ b1, drawCell sprite x y color xidx b yidx = .ok b1 ∧ b1.width = b.width ∧
      b1.height = b.height ∧ b1.data.length = b.width * b.height ∧
      ∀ k, (paints sprite x y b.width b.height xidx yidx k → b1.data[k]? = some color) ∧
        (¬ paints sprite x y b.width b.height xidx yidx k → b1.data[k]? = b.data[k]?) := by
  have hidx : (yidx * sprite.width + xidx) % U64 < sprite.data.length := by
    have h1 : yidx * sprite.width + xidx < sprite.width * sprite.height := by
      have : (yidx + 1) * sprite.width ≤ sprite.height * sprite.width :=
        Nat.mul_le_mul_right _ hyi
      rw [Nat.mul_comm sprite.width]
      rw [Nat.add_mul] at this
      omega
    exact lt_of_le_of_lt (Nat.mod_le _ _) (lt_of_lt_of_le h1 hmask)
  obtain ⟨m, hm⟩ : ∃ m, sprite.data[(yidx * sprite.width + xidx) % U64]? = some m :=
    ⟨_, List.getElem?_eq_getElem hidx⟩
  have hget : getMask sprite ((yidx * sprite.width + xidx) % U64) = .ok m := by
    unfold getMask; rw [hm]
  unfold drawCell
  rw [hget, ok_bind]
  by_cases hc : m ≠ 0 ∧ subU (addU (subU sprite.height 1) y) yidx < b.height ∧
      addU x xidx < b.width
  · rw [if_pos hc]
    have hlt : (subU (addU (subU sprite.height 1) y) yidx * b.width + addU x xidx) % U64 <
        b.data.length := by
      have h1 : subU (addU (subU sprite.height 1) y) yidx * b.width + addU x xidx <
          b.width * b.height := by
        have : (subU (addU (subU sprite.height 1) y) yidx + 1) * b.width ≤ b.height * b.width :=
          Nat.mul_le_mul_right _ hc.2.1
        rw [Nat.mul_comm b.width]
        rw [Nat.add_mul] at this
        omega
      rw [hl]
      exact lt_of_le_of_lt (Nat.mod_le _ _) h1
    unfold setPixel
    rw [if_pos hlt]
    refine ⟨_, rfl, rfl, rfl, by simp [hl], ?_⟩
    intro k
    constructor
    · rintro ⟨_, _, _, rfl⟩
      exact List.getElem?_set_self hlt
    · intro hno
      have hne : (subU (addU (subU sprite.height 1) y) yidx * b.width + addU x xidx) % U64 ≠
          k := by
        intro e
        exact hno ⟨⟨m, hm, hc.1⟩, hc.2.1, hc.2.2, e.symm⟩
      exact List.getElem?_set_ne hne
  · rw [if_neg hc]
    refine ⟨b, rfl, rfl, rfl, hl, ?_⟩
    intro k
    refine ⟨?_, fun _ => rfl⟩
    rintro ⟨⟨m2, hm2, hne⟩, h1, h2, _⟩
    rw [hm] at hm2
    cases hm2
    exact absurd ⟨hne, h1, h2⟩ hc

/-- What `drawSprite` returns on a buffer with all its pixels and a sprite with
all its mask cells: the same dimensions, and `color` exactly on the pixels some
mask cell paints. -/
theorem drawSprite_paints (b : Buffer) (sprite : Sprite) (x y color : Nat)
    (hl : b.data.length = b.width * b.height)
    (hmask : sprite.width * sprite.height ≤ sprite.data.length) :
    ∃ b1, drawSprite b sprite x y color = .ok b1 ∧ b1.width = b.width ∧
      b1.height = b.height ∧ b1.data.length = b.width * b.height ∧
      ∀ k,
        ((∃ xidx, xidx < sprite.width ∧ ∃ yidx, yidx < sprite.height ∧
            paints sprite x y b.width b.height xidx yidx k) → b1.data[k]? = some color) ∧
        ((¬ ∃ xidx, xidx < sprite.width ∧ ∃ yidx, yidx < sprite.height ∧
            paints sprite x y b.width b.height xidx yidx k) → b1.data[k]? = b.data[k]?) := by
  have hcol : ∀ xidx ∈ List.range sprite.width, ∀ b0 : Buffer, b0.width = b.width →
      b0.height = b.height → b0.data.length = b.width * b.height →
      ∃ b1, (List.range sprite.height).foldlM (drawCell sprite x y color xidx) b0 = .ok b1 ∧
        b1.width = b.width ∧ b1.height = b.height ∧ b1.data.length = b.width * b.height ∧
        ∀ k, ((∃ yidx, yidx < sprite.height ∧ paints sprite x y b.width b.height xidx yidx k) →
            b1.data[k]? = some color) ∧
          ((¬ ∃ yidx, yidx < sprite.height ∧ paints sprite x y b.width b.height xidx yidx k) →
            b1.data[k]? = b0.data[k]?) := by
    intro xidx hx b0 hw0 hh0 hl0
    have hxi : xidx < sprite.width := List.mem_range.1 hx
    obtain ⟨b1, e, hw1, hh1, hl1, hk⟩ := paint_fold b.width b.height color
      (fun yidx k => paints sprite x y b.width b.height xidx yidx k)
      (drawCell sprite x y color xidx) (List.range sprite.height)
      (by
        intro yidx hy b2 hw2 hh2 hl2
        have h := drawCell_paints sprite x y color xidx yidx hmask hxi (List.mem_range.1 hy) b2
          (by rw [hl2, hw2, hh2])
        rw [hw2, hh2] at h
        exact h)
      b0 hw0 hh0 hl0
    refine ⟨b1, e, hw1, hh1, hl1, fun k => ⟨fun h => (hk k).1 ?_, fun h => (hk k).2 ?_⟩⟩
    · obtain ⟨yidx, hy, hp⟩ := h
      exact ⟨yidx, List.mem_range.2 hy, hp⟩
    · rintro ⟨yidx, hy, hp⟩
      exact h ⟨yidx, List.mem_range.1 hy, hp⟩
  obtain ⟨b1, e, hw1, hh1, hl1, hk⟩ := paint_fold b.width b.height color
    (fun xidx k => ∃ yidx, yidx < sprite.height ∧ paints sprite x y b.width b.height xidx yidx k)
    (fun b0 xidx => (List.range sprite.height).foldlM (drawCell sprite x y color xidx) b0)
    (List.range sprite.width) hcol b rfl rfl hl
  refine ⟨b1, e, hw1, hh1, hl1, fun k => ⟨fun h => (hk k).1 ?_, fun h => (hk k).2 ?_⟩⟩
  · obtain ⟨xidx, hx, hp⟩ := h
    exact ⟨xidx, List.mem_range.2 hx, hp⟩
  · rintro ⟨xidx, hx, hp⟩
    exact h ⟨xidx, List.mem_range.1 hx, hp⟩

/-- The pixel coordinates of a mask cell when the position arithmetic does not
wrap. -/
theorem cell_coords {sprite : Sprite} {x y xidx yidx : Nat}
    (hx : x + sprite.width ≤ U64) (hy : y + sprite.height ≤ U64)
    (hxi : xidx < sprite.width) (hyi : yidx < sprite.height) :
    addU x xidx = x + xidx ∧
      subU (addU (subU sprite.height 1) y) yidx = sprite.height - 1 + y - yidx := by
  have e1 : subU sprite.height 1 = sprite.height - 1 := by
    unfold subU U64 at *
    split <;> omega
  have e2 : addU (sprite.height - 1) y = sprite.height - 1 + y := addU_eq (by omega)
  refine ⟨addU_eq (by omega), ?_⟩
  rw [e1, e2]
  exact subU_eq (by omega) (by omega)

/-! ## C12 -/

/-- C12 as stated fails: a sprite two cells wide drawn at `x = 2^64 - 1`, which
is not below the buffer width 1, has its second column at `x + 1 = 0` in
`size_t` arithmetic, inside the buffer, and the pixel is written. -/
theorem drawSprite_wraps_counterexample :
    (⟨1, 1, [0]⟩ : Buffer).width ≤ 18446744073709551615 ∧
    drawSprite ⟨1, 1, [0]⟩ ⟨2, 1, [1, 1]⟩ 18446744073709551615 0 7 = .ok ⟨1, 1, [7]⟩ ∧
    ¬ (∀ b1, drawSprite ⟨1, 1, [0]⟩ ⟨2, 1, [1, 1]⟩ 18446744073709551615 0 7 = .ok b1 →
        b1 = ⟨1, 1, [0]⟩) := by
  have h : drawSprite ⟨1, 1, [0]⟩ ⟨2, 1, [1, 1]⟩ 18446744073709551615 0 7 = .ok ⟨1, 1, [7]⟩ := by
    decide!
  refine ⟨by decide, h, fun hall => ?_⟩
  have := hall _ h
  revert this
  decide

/-- C12, amended: for a buffer with its `width * height` pixels, a sprite with
its `width * height` mask cells and every position, `drawSprite` returns (no
index outside the buffer or the mask is used) and leaves the dimensions and the
number of pixels alone; if `x ≥ buffer.width` or `y ≥ buffer.height`, and
`x + sprite.width` and `y + sprite.height` do not exceed `2^64` (the position
arithmetic does not wrap), the buffer is unchanged. -/
theorem drawSprite_clips (b : Buffer) (sprite : Sprite) (x y color : Nat)
    (hb : b.wellFormed) (hmask : sprite.width * sprite.height ≤ sprite.data.length) :
    ∃ b1, drawSprite b sprite x y color = .ok b1 ∧ b1.width = b.width ∧
      b1.height = b.height ∧ b1.data.length = b.width * b.height ∧
      ((b.width ≤ x ∨ b.height ≤ y) → x + sprite.width ≤ U64 → y + sprite.height ≤ U64 →
        b1 = b) := by
  obtain ⟨b1, e, hw, hh, hl, hk⟩ := drawSprite_paints b sprite x y color hb hmask
  refine ⟨b1, e, hw, hh, hl, ?_⟩
  intro hout hx hy
  have hdata : b1.data = b.data := by
    apply List.ext_getElem?
    intro k
    refine (hk k).2 ?_
    rintro ⟨xidx, hxi, yidx, hyi, _, h1, h2, _⟩
    obtain ⟨c1, c2⟩ := cell_coords hx hy hxi hyi
    rw [c1] at h2
    rw [c2] at h1
    omega
  cases b1
  cases b
  simp only [Buffer.mk.injEq]
  exact ⟨hw, hh, hdata⟩

theorem drawSprite_clips_witness :
    ∃ b1, drawSprite ⟨2, 2, [0, 0, 0, 0]⟩ ⟨1, 3, [1, 1, 1]⟩ 5 0 7 = .ok b1 ∧
      b1.width = (⟨2, 2, [0, 0, 0, 0]⟩ : Buffer).width ∧
      b1.height = (⟨2, 2, [0, 0, 0, 0]⟩ : Buffer).height ∧
      b1.data.length = (⟨2, 2, [0, 0, 0, 0]⟩ : Buffer).width *
        (⟨2, 2, [0, 0, 0, 0]⟩ : Buffer).height ∧
      (((⟨2, 2, [0, 0, 0, 0]⟩ : Buffer).width ≤ 5 ∨ (⟨2, 2, [0, 0, 0, 0]⟩ : Buffer).height ≤ 0) →
        5 + (⟨1, 3, [1, 1, 1]⟩ : Sprite).width ≤ U64 →
        0 + (⟨1, 3, [1, 1, 1]⟩ : Sprite).height ≤ U64 →
        b1 = ⟨2, 2, [0, 0, 0, 0]⟩) :=
  drawSprite_clips ⟨2, 2, [0, 0, 0, 0]⟩ ⟨1, 3, [1, 1, 1]⟩ 5 0 7
    (by unfold Buffer.wellFormed; rfl) (by decide)

/-! ## C11 -/

theorem digitsLoop_digits : ∀ (fuel n : Nat) (acc : List Nat), 0 < n →
    (Nat.digits 10 n).length ≤ fuel → acc.length + (Nat.digits 10 n).length ≤ 64 →
    digitsLoop fuel n acc = .ok (acc ++ Nat.digits 10 n) := by
  intro fuel
  induction fuel with
  | zero =>
    intro n acc hn hf _
    rw [Nat.digits_def' (by decide) hn] at hf
    simp at hf
  | succ fuel ih =>
    intro n acc hn hf hacc
    have hd := Nat.digits_def' (b := 10) (by decide) hn
    rw [hd] at hf hacc ⊢
    simp only [List.length_cons] at hf hacc
    unfold digitsLoop
    rw [if_pos (by omega)]
    by_cases h10 : 0 < n / 10
    · rw [if_pos h10, ih (n / 10) (acc ++ [n % 10]) h10 (by omega)
        (by simp only [List.length_append, List.length_singleton]; omega)]
      simp
    · have h0 : n / 10 = 0 := by omega
      rw [if_neg h10, h0, Nat.digits_zero]

theorem digits_length_le {n : Nat} (hn : n < U64) : (Nat.digits 10 n).length ≤ 20 := by
  by_cases h0 : n = 0
  · rw [h0, Nat.digits_zero]; exact Nat.zero_le _
  · rw [Nat.digits_len 10 n (by decide) h0]
    have : Nat.log 10 n < 20 := by
      apply Nat.log_lt_of_lt_pow h0
      unfold U64 at hn
      omega
    omega

theorem digitsLoop_decimal {n : Nat} (hn : n < U64) :
    digitsLoop 64 n [] = .ok (decimalDigits n).reverse := by
  unfold decimalDigits
  by_cases h0 : n = 0
  · rw [if_pos h0, h0]
    rfl
  · rw [if_neg h0, List.reverse_reverse]
    have hl := digits_length_le hn
    have := digitsLoop_digits 64 n [] (by omega) (by omega) (by simp; omega)
    simpa using this

theorem blitDigits_fold (sheet : Sprite) (msb : List Nat) (x y color : Nat) :
    ∀ (k i xp : Nat) (b : Buffer), k + i = msb.length →
      xp = (x + i * (sheet.width + 1)) % U64 →
      blitDigits sheet msb.reverse y color k i xp b =
        ((msb.drop i).enumFrom i).foldlM
          (fun b kd =>
            drawSprite b (glyph sheet kd.2) ((x + kd.1 * (sheet.width + 1)) % U64) y color) b := by
  intro k
  induction k with
  | zero =>
    intro i xp b hi _
    have : msb.drop i = [] := List.drop_eq_nil_of_le (by omega)
    rw [this]
    rfl
  | succ k ih =>
    intro i xp b hi hxp
    subst hxp
    have hlt : i < msb.length := by omega
    have hget : msb.reverse[msb.reverse.length - i - 1]? = some msb[i] := by
      rw [List.getElem?_reverse (by simp; omega)]
      simp only [List.length_reverse]
      have e : msb.length - 1 - (msb.length - i - 1) = i := by omega
      rw [e]
      exact List.getElem?_eq_getElem hlt
    have hnext : addU ((x + i * (sheet.width + 1)) % U64) (addU sheet.width 1) =
        (x + (i + 1) * (sheet.width + 1)) % U64 := by
      unfold addU
      rw [Nat.add_mul, Nat.one_mul, ← Nat.add_assoc]
      simp [Nat.add_mod]
    unfold blitDigits
    rw [hget, List.drop_eq_getElem_cons hlt, List.enumFrom_cons, foldlM_cons_ok]
    simp only []
    congr 1
    funext b1
    exact ih (i + 1) _ b1 (by omega) hnext

/-- A run of frames with move deltas -1, 0 or 1 from a reachable state ends in
a reachable state. -/
theorem Reachable.of_run : ∀ (es : List Input) (s s1 : State), Reachable s →
    (∀ e ∈ es, e.moveDir = -1 ∨ e.moveDir = 0 ∨ e.moveDir = 1) →
    run s es = .ok s1 → Reachable s1 := by
  intro es
  induction es with
  | nil =>
    intro s s1 hs _ h
    have : s = s1 := by simpa [run] using h
    exact this ▸ hs
  | cons e es ih =>
    intro s s1 hs hm h
    unfold run at h
    simp only [bind_eq_ok] at h
    obtain ⟨s2, h2, h3⟩ := h
    exact ih s2 s1 (Reachable.step e hs (hm e (List.mem_cons_self _ _)) h2)
      (fun e' he' => hm e' (List.mem_cons_of_mem _ he')) h3

theorem doubleShot_run :
    run initialState [⟨0, true⟩, ⟨0, true⟩, ⟨0, false⟩] = .ok doubleShotState := by
  decide!

/-- C21 (defect in the code): claimed is that the annihilation scan for an
upward projectile removes it only together with a downward (alien) projectile.
The scan of lines 832–857 tests the rectangles only, never `dir` of the other
projectile.  `doubleShotState` is reached in three frames by releasing the fire
key in two consecutive frames; it holds two player shots, at `(112, 41)` and
`(112, 39)`, both with `dir = +2`.  In the next tick the first advances to
`(112, 43)`, its 1×3 rectangle meets the 3×7 rectangle taken at the second, and
both are removed: the count goes from 2 to 0. -/
theorem projectileScan_removes_two_upward :
    Reachable doubleShotState ∧
    doubleShotState.game.numProjectiles = 2 ∧
    doubleShotState.game.projectiles[0]? = some ⟨112, 41, 2⟩ ∧
    doubleShotState.game.projectiles[1]? = some ⟨112, 39, 2⟩ ∧
    spriteOverlapCheck playerProjectileSprite 112 43 alienProjectileSprite0 112 39 = true ∧
    (advanceProjectile doubleShotState 0 >>= fun s =>
        projectileScan 0 s.game.numProjectiles s 0).map (fun s => s.game.numProjectiles) =
      .ok 0 ∧
    (tick doubleShotState).map (fun s => s.game.numProjectiles) = .ok 0 :=
  ⟨Reachable.of_run _ _ _ Reachable.init (by decide) doubleShot_run, by decide!⟩

/-! ## C22 -/

/-- C22 (defect in the code): claimed is that after the projectile at index
`p` was removed by mutual annihilation, the same resolution step kills no
alien, leaves score and kill counter alone and removes no further projectile.
In `annihilationState` (score 0, no alien killed, three projectiles) the
annihilation scan for index 1 removes the player shot and the alien shot (count
3 → 1).  The alien scan of lines 860–886 follows unconditionally and reads slot
1, which still holds `(32, 127)`: alien 0 is killed, the score becomes 10, the
kill counter 1, and one more projectile is removed (count 1 → 0). -/
theorem alienScan_runs_after_annihilation :
    annihilationState.score = 0 ∧ annihilationState.aliensKilled = 0 ∧
    annihilationState.game.numProjectiles = 3 ∧
    (annihilationState.game.aliens[0]?).map (fun a => a.type) = some 3 ∧
    (projectileScan 1 3 annihilationState 0).map
        (fun s => (s.game.numProjectiles, s.game.projectiles[1]?, s.score, s.aliensKilled)) =
      .ok (1, some ⟨32, 127, 2⟩, 0, 0) ∧
    (projectileScan 1 3 annihilationState 0 >>= fun s => alienScan 1 s.game.numAliens s 0).map
        (fun s => (s.game.numProjectiles, (s.game.aliens[0]?).map (fun a => a.type), s.score,
          s.aliensKilled)) =
      .ok (0, some ALIEN_DEAD, 10, 1) := by
  decide!

/-! ## C25 -/

/-- C25 (defect in the code): claimed is that the index drawn for alien fire is
below 55 for every generator state.  `random` divides by `2^32 - 1`, the
largest value `xorshift32` returns, so it can return exactly 1.0: from the
state 1584200935 the generator returns `2^32 - 1`, the index is
`55 * 1.0 = 55`, and the rejection loop reads `game.aliens[55]`, outside the
array of 55 aliens. -/
theorem alienFire_index_out_of_range :
    xorshift32 1584200935 = 4294967295 ∧
    randomIndex 55 4294967295 = 55 ∧
    initialState.game.numAliens = 55 ∧ initialState.game.aliens.length = 55 ∧
    pickAlien 4294967296 initialState 1584200935 = .error (.alienIndex 55) ∧
    alienFire { initialState with rng := 1584200935 } = .error (.alienIndex 55) := by
  decide!

/-! ## C27 -/

/-- C27 (defect in the code): claimed is that the `x` of an alive alien never
wraps below zero.  The initial grid stands 4 to the left of the tracked swarm
offset (20 against 24, line 698 against line 682), and the swarm turns only
when the tracked offset would go below 0.  In `leftEdgeState` the tracked
offset is 4 and the aliens of column 0 stand at `x = 0, 1, 2`; the next swarm
step moves every alien by `-4`: alien 0, alive, gets `x = 2^64 - 4`, and the
bound recomputation then takes that `x` for the tracked offset. -/
theorem moveSwarm_wraps_left :
    aliveCount leftEdgeState = 55 ∧
    leftEdgeState.game.aliens[0]? = some ⟨0, 128, 3⟩ ∧
    toInt32 leftEdgeState.alienSwarmPosition + leftEdgeState.alienMoveDir = 0 ∧
    (moveSwarm leftEdgeState).game.aliens[0]? = some ⟨18446744073709551612, 128, 3⟩ ∧
    (moveSwarm leftEdgeState).alienSwarmPosition = 0 ∧
    (tick { leftEdgeState with alienUpdateTimer := 120 }).map
        (fun s => (s.game.aliens[0]?, s.alienSwarmPosition)) =
      .ok (some ⟨18446744073709551612, 128, 3⟩, 18446744073709551612) := by
  decide!

/-! ## C28 -/

/-- C28 (defect in the code): claimed is that no tick decrements `player.life`
when it is 0.  `life` is tested only at the top of the frame (line 724).  In
`lastLifeState` the player has one life; the alien shot advances to
`(110, 37)` and hits the player (`life` 1 → 0, line 822), and the collision
scan of lines 893–916 then finds the alien of row 0, column 5 over the player
and decrements `life` again (line 905): the tick ends with
`life = 2^64 - 1`. -/
theorem tick_life_wraps :
    lastLifeState.game.player.life = 1 ∧
    (simulateProjectiles lastLifeState).map (fun s => s.game.player.life) = .ok 0 ∧
    (tick lastLifeState).map (fun s => s.game.player.life) = .ok 18446744073709551615 := by
  decide!

/-! ## C23 -/

set_option maxRecDepth 1000000 in
theorem skip_frames_0 : ∀ t < 12,
    frame (skipState (0 + t)) (skipInput (0 + t)) =
      .ok (skipState (0 + t + 1)) := by
  decide!

set_option maxRecDepth 1000000 in
theorem skip_frames_1 : ∀ t < 12,
    frame (skipState (12 + t)) (skipInput (12 + t)) =
      .ok (skipState (12 + t + 1)) := by
  decide!

set_option maxRecDepth 1000000 in
theorem skip_frames_2 : ∀ t < 12,
    frame (skipState (24 + t)) (skipInput (24 + t)) =
      .ok (skipState (24 + t + 1)) := by
  decide!

set_option maxRecDepth 1000000 in
theorem skip_frames_3 : ∀ t < 11,
    frame (skipState (36 + t)) (skipInput (36 + t)) =
      .ok (skipState (36 + t + 1)) := by
  decide!

/-- Every frame of the run does what `skipState` says. -/
theorem skip_frame (t : Nat) (ht : t < 47) :
    frame (skipState t) (skipInput t) = .ok (skipState (t + 1)) := by
  have key : ∀ a r, a + r = t →
      frame (skipState (a + r)) (skipInput (a + r)) = .ok (skipState (a + r + 1)) →
      frame (skipState t) (skipInput t) = .ok (skipState (t + 1)) := by
    intro a r h hf
    rw [h] at hf
    exact hf
  by_cases h1 : t < 12
  · exact key 0 t (by omega) (skip_frames_0 t h1)
  · by_cases h2 : t < 24
    · exact key 12 (t - 12) (by omega) (skip_frames_1 (t - 12) (by omega))
    · by_cases h3 : t < 36
      · exact key 24 (t - 24) (by omega) (skip_frames_2 (t - 24) (by omega))
      · exact key 36 (t - 36) (by omega) (skip_frames_3 (t - 36) (by omega))

theorem skipState_zero : skipState 0 = initialState := by
  decide!

/-- Every state of the run is reachable. -/
theorem skip_reachable (t : Nat) (ht : t ≤ 47) : Reachable (skipState t) := by
  induction t with
  | zero => rw [skipState_zero]; exact Reachable.init
  | succ t ih =>
    refine Reachable.step (skipInput t) (ih (by omega)) ?_ (skip_frame t (by omega))
    unfold skipInput
    by_cases h : t < 2 <;> simp [h]

set_option maxRecDepth 1000000 in
/-- The projectile phase of the next tick, evaluated. -/
theorem skip_last_phase :
    (skipState 47).game.player.life = 3 ∧
    (skipState 47).game.numProjectiles = 2 ∧
    (skipState 47).game.projectiles[0]? = some ⟨116, 125, 2⟩ ∧
    (skipState 47).game.projectiles[1]? = some ⟨116, 117, 2⟩ ∧
    (simulateProjectiles (skipState 47)).map
        (fun s => (s.game.numProjectiles, s.game.projectiles[0]?, s.score)) =
      .ok (1, some ⟨116, 117, 2⟩, 10) := by
  decide!

/-- C23 (defect in the code): claimed is that every projectile that is in the
pool before and after the projectile phase of a tick has moved by its `dir`.
The state `skipState 47` is reachable (47 frames: two steps right, two shots
four frames apart) and holds the player shots `(116, 125)` and `(116, 117)`.
In the next tick the first advances to `(116, 127)` and kills the alien of row
0, column 6; its slot receives the last projectile, `(116, 117)`, the count
drops to 1, and `pidx++` (line 889) ends the loop: the second shot is still in
the pool after the phase, at `y = 117`, not at 119.  The removal at the screen
border re-examines the slot (`continue`, line 813); the removals after a hit
do not, and the `break` of line 825 leaves every later projectile where it
was. -/
theorem simulateProjectiles_skips_projectile :
    Reachable (skipState 47) ∧
    (skipState 47).game.player.life = 3 ∧
    (skipState 47).game.numProjectiles = 2 ∧
    (skipState 47).game.projectiles[0]? = some ⟨116, 125, 2⟩ ∧
    (skipState 47).game.projectiles[1]? = some ⟨116, 117, 2⟩ ∧
    (simulateProjectiles (skipState 47)).map
        (fun s => (s.game.numProjectiles, s.game.projectiles[0]?, s.score)) =
      .ok (1, some ⟨116, 117, 2⟩, 10) :=
  ⟨skip_reachable 47 (le_refl _), skip_last_phase⟩

/-! ## C29 -/

/-- C29: in every reachable state, and in the state a tick from it has reached
when the swarm is moved, the player is on row 32 and every alien has
`16 ≤ y ≤ 196`.  So the row descent either sends an alien with `y < 24` to row
188 or subtracts 8 from a `y ≥ 24` without wrapping, and the shot of an alien
starts at `y = alien.y - 7 ≥ 9`. -/
theorem alien_rows_in_range (s : State) (hr : Reachable s) :
    s.game.player.y = 32 ∧
    (∀ a ∈ s.game.aliens, 16 ≤ a.y ∧ a.y ≤ 196) ∧
    (∀ s2 s3, simulateProjectiles s = .ok s2 → playerAlienCollision s2 = .ok s3 →
      s3.game.player.y = 32 ∧
      ∀ a ∈ s3.game.aliens, 16 ≤ a.y ∧ a.y ≤ 196 ∧
        (a.y < subU s3.game.player.y 8 → (descend s3.game.player.y a).y = 188) ∧
        (¬ a.y < subU s3.game.player.y 8 →
          24 ≤ a.y ∧ (descend s3.game.player.y a).y = a.y - 8) ∧
        16 ≤ (descend s3.game.player.y a).y ∧ (descend s3.game.player.y a).y ≤ 196 ∧
        ∀ sp, (alienShot (descend s3.game.player.y a) sp).y =
            (descend s3.game.player.y a).y - 7 ∧
          (alienShot a sp).y = a.y - 7 ∧ 9 ≤ (alienShot a sp).y) := by
  have h24 : subU 32 8 = 24 := by decide!
  have h7 : alienProjectileSprite0.height = 7 := rfl
  have hshot : ∀ (a : Alien) (sp : Sprite), 16 ≤ a.y → a.y ≤ 196 →
      (alienShot a sp).y = a.y - 7 := by
    intro a sp h1 h2
    show subU a.y alienProjectileSprite0.height = a.y - 7
    rw [h7]
    exact subU_eq (by omega) (by unfold U64; omega)
  refine ⟨hr.pool.playerY, hr.pool.alienY, ?_⟩
  intro s2 s3 h2 h3
  have inv := (hr.pool.projectiles h2).collision h3
  refine ⟨inv.playerY, ?_⟩
  intro a ha
  obtain ⟨y1, y2⟩ := inv.alienY a ha
  have hd := descend_y ⟨y1, y2⟩
  rw [inv.playerY, h24]
  refine ⟨y1, y2, ?_, ?_, hd.1, hd.2, ?_⟩
  · intro hlt
    unfold descend
    rw [h24, if_pos hlt]
  · intro hge
    refine ⟨by omega, ?_⟩
    unfold descend
    rw [h24, if_neg hge]
    exact subU_eq (by omega) (by unfold U64; omega)
  · intro sp
    refine ⟨hshot _ sp hd.1 hd.2, hshot a sp y1 y2, ?_⟩
    rw [hshot a sp y1 y2]
    omega

theorem alien_rows_in_range_witness :
    (underflowState 100).game.player.y = 32 ∧
    (∀ a ∈ (underflowState 100).game.aliens, 16 ≤ a.y ∧ a.y ≤ 196) ∧
    (∀ s2 s3, simulateProjectiles (underflowState 100) = .ok s2 →
      playerAlienCollision s2 = .ok s3 →
      s3.game.player.y = 32 ∧
      ∀ a ∈ s3.game.aliens, 16 ≤ a.y ∧ a.y ≤ 196 ∧
        (a.y < subU s3.game.player.y 8 → (descend s3.game.player.y a).y = 188) ∧
        (¬ a.y < subU s3.game.player.y 8 →
          24 ≤ a.y ∧ (descend s3.game.player.y a).y = a.y - 8) ∧
        16 ≤ (descend s3.game.player.y a).y ∧ (descend s3.game.player.y a).y ≤ 196 ∧
        ∀ sp, (alienShot (descend s3.game.player.y a) sp).y =
            (descend s3.game.player.y a).y - 7 ∧
          (alienShot a sp).y = a.y - 7 ∧ 9 ≤ (alienShot a sp).y) :=
  alien_rows_in_range (underflowState 100) (underflow_reachable 100 (by decide))

/-! ## What a frame never changes -/

theorem shape_stepRel : StepRel (fun s s1 => shapeOf s1 = shapeOf s) where
  refl := fun _ => rfl
  trans := fun h1 h2 => h2.trans h1
  pool := fun _ _ _ => rfl
  life := fun _ => rfl
  kill := fun _ _ _ _ _ _ _ => rfl

theorem sameAnimations_stepRel :
    StepRel (fun s s1 => s1.alienAnimation = s.alienAnimation ∧
      s1.alienProjectileAnimation = s.alienProjectileAnimation) where
  refl := fun _ => ⟨rfl, rfl⟩
  trans := fun h1 h2 => ⟨h2.1.trans h1.1, h2.2.trans h1.2⟩
  pool := fun _ _ _ => ⟨rfl, rfl⟩
  life := fun _ => ⟨rfl, rfl⟩
  kill := fun _ _ _ _ _ _ _ => ⟨rfl, rfl⟩

theorem applySpeedChange_shape (s : State) : shapeOf (applySpeedChange s) = shapeOf s := by
  unfold applySpeedChange
  split
  · simp [shapeOf, List.map_map, Function.comp_def]
  · rfl

theorem tickAnimation_shape (a : SpriteAnimation) :
    ((tickAnimation a).numFrames, (tickAnimation a).frames) = (a.numFrames, a.frames) ∧
      (tickAnimation a).frameDuration = a.frameDuration := by
  unfold tickAnimation
  simp only []
  split <;> exact ⟨rfl, rfl⟩

theorem updateAnimations_shape (s : State) : shapeOf (updateAnimations s) = shapeOf s := by
  have h1 : ∀ a : SpriteAnimation,
      ((tickAnimation a).numFrames, (tickAnimation a).frames) = (a.numFrames, a.frames) :=
    fun a => (tickAnimation_shape a).1
  have h2 := tickAnimation_shape s.alienProjectileAnimation
  have h3 := congrArg Prod.fst h2.1
  have h4 := congrArg Prod.snd h2.1
  simp only at h3 h4
  simp [shapeOf, updateAnimations, List.map_map, Function.comp_def, h1, h2.2, h3, h4]

theorem updateAliens_shape {s s1 : State} (h : updateAliens s = .ok s1) :
    shapeOf s1 = shapeOf s := by
  unfold updateAliens at h
  split at h
  · obtain ⟨rng, l, n, rfl⟩ := alienFire_same h
    rfl
  · have : s = s1 := by simpa using h
    rw [this]

theorem movePlayer_shape (s : State) : shapeOf (movePlayer s) = shapeOf s := by
  unfold movePlayer
  split <;> rfl

theorem simulateToRoundCheck_shape {s m : State} (h : simulateToRoundCheck s = .ok m) :
    shapeOf m = shapeOf s := by
  unfold simulateToRoundCheck at h
  simp only [bind_eq_ok, pure_eq_ok] at h
  obtain ⟨s2, h2, s3, h3, s4, h4, rfl⟩ := h
  have e2 := shape_stepRel.simulateProjectiles h2
  have e3 := shape_stepRel.playerAlienCollision h3
  have e4 := updateAliens_shape h4
  have e5 : shapeOf (updateDeathCounters (applySpeedChange s3)) = shapeOf s3 :=
    applySpeedChange_shape s3
  rw [movePlayer_shape, updateAnimations_shape, e4, e5, e3, e2]

theorem roundCheck_shape {m r : State} (hset : Settled m) (h : roundCheck m = .ok r) :
    shapeOf r = shapeOf m := by
  rcases roundCheck_cases h with ⟨_, pos, mx, rfl⟩ | ⟨_, rfl⟩
  · rfl
  · rw [resetRound_eq m hset.1.counters hset.1.aliens]
    rfl

theorem tick_shape {s s1 : State} (hset : Settled s) (h : tick s = .ok s1) :
    shapeOf s1 = shapeOf s := by
  by_cases hl : s.game.player.life = 0
  · have : s = s1 := by simpa [tick, hl] using h
    rw [this]
  · obtain ⟨m, r, hm, hrc, hf⟩ := tick_eq_ok hl h
    obtain ⟨l, n, rfl⟩ := playerFire_same hf
    have e1 := simulateToRoundCheck_shape hm
    have e2 := roundCheck_shape (simulateToRoundCheck_settled hset.1 hm) hrc
    exact (e2.trans e1 : shapeOf r = shapeOf s)

theorem Reachable.shape {s : State} (h : Reachable s) : shapeOf s = shapeOf initialState := by
  induction h with
  | init => rfl
  | step e hr _ hf ih =>
    obtain ⟨t, ht, rfl⟩ := frame_eq_ok hf
    exact ((tick_shape hr.settled ht).trans ih : shapeOf t = shapeOf initialState)

/-- The numbers behind `shapeOf` for a state with the shape of the initial
state. -/
theorem shape_facts {s : State} (h : shapeOf s = shapeOf initialState) :
    s.game.numAliens = 55 ∧ s.game.width = 224 ∧
    (∀ a ∈ s.alienAnimation, a.numFrames = 2 ∧ a.frames.length = 2) ∧
    s.alienProjectileAnimation.numFrames = 2 ∧ s.alienProjectileAnimation.frameDuration = 5 ∧
    s.alienProjectileAnimation.frames.length = 2 := by
  unfold shapeOf at h
  simp only [Prod.mk.injEq] at h
  obtain ⟨h1, h2, h3, h4, h5, h6⟩ := h
  refine ⟨h1, h2, ?_, h4, h5, by rw [h6]; rfl⟩
  intro a ha
  have hm : (a.numFrames, a.frames) ∈ s.alienAnimation.map (fun a => (a.numFrames, a.frames)) :=
    List.mem_map_of_mem _ ha
  rw [h3] at hm
  have hall : ∀ p ∈ initialState.alienAnimation.map (fun a => (a.numFrames, a.frames)),
      p.1 = 2 ∧ p.2.length = 2 := by decide
  exact hall _ hm

/-! ## C24 -/

theorem InvSpeed.durations {s : State} (h : InvSpeed s) :
    s.alienAnimation.length = 3 ∧
      ∀ a ∈ s.alienAnimation, 1 ≤ a.frameDuration ∧ a.frameDuration ≤ 120 := by
  constructor
  · rcases h.frames with e | e | e | e <;> simpa using congrArg List.length e
  · intro a ha
    have hmem : a.frameDuration ∈ s.alienAnimation.map (fun a => a.frameDuration) :=
      List.mem_map_of_mem _ ha
    rcases h.frames with e | e | e | e <;> rw [e] at hmem <;> simp at hmem <;> omega

theorem tickAnimation_inside (a : SpriteAnimation) (hn : a.numFrames = 2)
    (h1 : 1 ≤ a.frameDuration) (h2 : a.frameDuration ≤ 120) :
    (tickAnimation a).time < (tickAnimation a).numFrames * (tickAnimation a).frameDuration := by
  have hmod : a.numFrames * a.frameDuration % U64 = 2 * a.frameDuration := by
    rw [hn]
    exact Nat.mod_eq_of_lt (by unfold U64; omega)
  unfold tickAnimation
  simp only [hmod]
  split
  · show 0 < a.numFrames * a.frameDuration
    rw [hn]; omega
  · show addU a.time 1 < a.numFrames * a.frameDuration
    rw [hn]; omega

theorem updateAnimations_animOk {s : State} (hinv : InvSpeed s)
    (hshape : shapeOf s = shapeOf initialState) : animOk (updateAnimations s) := by
  obtain ⟨_, _, hn, hp1, hp2, _⟩ := shape_facts hshape
  constructor
  · intro a ha
    have ha2 : a ∈ s.alienAnimation.map tickAnimation := ha
    obtain ⟨b, hb, rfl⟩ := List.mem_map.1 ha2
    have hd := hinv.durations.2 b hb
    exact tickAnimation_inside b (hn b hb).1 hd.1 hd.2
  · exact tickAnimation_inside s.alienProjectileAnimation hp1 (by omega) (by omega)

theorem animOk_of_same {s s1 : State} (h : animOk s)
    (e1 : s1.alienAnimation = s.alienAnimation)
    (e2 : s1.alienProjectileAnimation = s.alienProjectileAnimation) : animOk s1 := by
  unfold animOk
  rw [e1, e2]
  exact h

theorem simulateToRoundCheck_animOk {s m : State} (hinv : InvSpeed s)
    (hshape : shapeOf s = shapeOf initialState) (h : simulateToRoundCheck s = .ok m) :
    animOk m := by
  unfold simulateToRoundCheck at h
  simp only [bind_eq_ok, pure_eq_ok] at h
  obtain ⟨s2, h2, s3, h3, s4, h4, rfl⟩ := h
  have i2 := InvSpeed.stepRel.simulateProjectiles h2 hinv
  have i3 := InvSpeed.stepRel.playerAlienCollision h3 i2
  have i4 := updateAliens_settled (updateDeathCounters_settled (applySpeedChange_inv i3)) h4
  have e2 := shape_stepRel.simulateProjectiles h2
  have e3 := shape_stepRel.playerAlienCollision h3
  have e4 := updateAliens_shape h4
  have e5 : shapeOf (updateDeathCounters (applySpeedChange s3)) = shapeOf s3 :=
    applySpeedChange_shape s3
  have hs4 : shapeOf s4 = shapeOf initialState := by rw [e4, e5, e3, e2, hshape]
  have hok := updateAnimations_animOk i4.1 hs4
  unfold movePlayer
  split
  · exact animOk_of_same hok rfl rfl
  · exact hok

theorem tick_animOk {s s1 : State} (hset : Settled s)
    (hshape : shapeOf s = shapeOf initialState) (hok : animOk s) (h : tick s = .ok s1) :
    animOk s1 := by
  by_cases hl : s.game.player.life = 0
  · have : s = s1 := by simpa [tick, hl] using h
    exact this ▸ hok
  · obtain ⟨m, r, hm, hrc, hf⟩ := tick_eq_ok hl h
    obtain ⟨l, n, rfl⟩ := playerFire_same hf
    have hmok := simulateToRoundCheck_animOk hset.1 hshape hm
    have hms := simulateToRoundCheck_settled hset.1 hm
    have hr : animOk r := by
      rcases roundCheck_cases hrc with ⟨_, pos, mx, rfl⟩ | ⟨_, hreq⟩
      · exact animOk_of_same hmok rfl rfl
      · rw [hreq, resetRound_eq m hms.1.counters hms.1.aliens]
        exact animOk_of_same hmok rfl rfl
    exact animOk_of_same hr rfl rfl

theorem Reachable.animOk {s : State} (h : Reachable s) : animOk s := by
  induction h with
  | init => exact ⟨by decide, by decide⟩
  | step e hr _ hf ih =>
    obtain ⟨t, ht, rfl⟩ := frame_eq_ok hf
    exact animOk_of_same (tick_animOk hr.settled hr.shape ih ht) rfl rfl

/-- C24: in every reachable state each alien animation and the alien-projectile
animation have `frameDuration ≥ 1`, two frames, and
`time / frameDuration < numFrames`, so the frame read by the render pass is a
frame of the animation; the projectile loop and the collision scan of the tick
leave the animations as they are at the top of the loop, so the frames read by
the projectile-vs-alien test and the player-vs-alien test are the same ones.
The frame of an alive alien (type 1, 2 or 3) is read without fault. -/
theorem frame_index_valid (s : State) (hr : Reachable s) :
    (∀ a ∈ s.alienAnimation, 1 ≤ a.frameDuration ∧ a.numFrames = 2 ∧ a.frames.length = 2 ∧
      a.time / a.frameDuration < a.numFrames) ∧
    (1 ≤ s.alienProjectileAnimation.frameDuration ∧ s.alienProjectileAnimation.numFrames = 2 ∧
      s.alienProjectileAnimation.frames.length = 2 ∧
      s.alienProjectileAnimation.time / s.alienProjectileAnimation.frameDuration <
        s.alienProjectileAnimation.numFrames) ∧
    (∀ type, type = 1 ∨ type = 2 ∨ type = 3 → ∃ sp, currentAlienSprite s type = .ok sp) ∧
    (∀ s2 s3, simulateProjectiles s = .ok s2 → playerAlienCollision s2 = .ok s3 →
      s2.alienAnimation = s.alienAnimation ∧ s3.alienAnimation = s.alienAnimation ∧
      s3.alienProjectileAnimation = s.alienProjectileAnimation) := by
  obtain ⟨_, _, hn, hp1, hp2, hp3⟩ := shape_facts hr.shape
  obtain ⟨hlen, hd⟩ := hr.settled.1.durations
  obtain ⟨hok1, hok2⟩ := hr.animOk
  have hall : ∀ a ∈ s.alienAnimation, 1 ≤ a.frameDuration ∧ a.numFrames = 2 ∧
      a.frames.length = 2 ∧ a.time / a.frameDuration < a.numFrames := by
    intro a ha
    refine ⟨(hd a ha).1, (hn a ha).1, (hn a ha).2, ?_⟩
    rw [Nat.div_lt_iff_lt_mul (hd a ha).1]
    exact hok1 a ha
  refine ⟨hall, ⟨by omega, hp1, hp3, ?_⟩, ?_, ?_⟩
  · rw [Nat.div_lt_iff_lt_mul (by omega)]
    exact hok2
  · intro type ht
    have hlt : type - 1 < s.alienAnimation.length := by
      rcases ht with h | h | h <;> omega
    have hget : s.alienAnimation[type - 1]? = some s.alienAnimation[type - 1] :=
      List.getElem?_eq_getElem hlt
    obtain ⟨h1, h2, h3, h4⟩ := hall _ (List.getElem?_mem hget)
    unfold currentAlienSprite
    rw [hget]
    simp only []
    rw [if_neg (by omega)]
    have hf : s.alienAnimation[type - 1].time / s.alienAnimation[type - 1].frameDuration <
        s.alienAnimation[type - 1].frames.length := by omega
    rw [List.getElem?_eq_getElem hf]
    exact ⟨_, rfl⟩
  · intro s2 s3 h2 h3
    have e2 := sameAnimations_stepRel.simulateProjectiles h2
    have e3 := sameAnimations_stepRel.playerAlienCollision h3
    exact ⟨e2.1, e3.1.trans e2.1, e3.2.trans e2.2⟩

theorem frame_index_valid_witness :
    (∀ a ∈ (underflowState 100).alienAnimation, 1 ≤ a.frameDuration ∧ a.numFrames = 2 ∧
      a.frames.length = 2 ∧ a.time / a.frameDuration < a.numFrames) ∧
    (1 ≤ (underflowState 100).alienProjectileAnimation.frameDuration ∧
      (underflowState 100).alienProjectileAnimation.numFrames = 2 ∧
      (underflowState 100).alienProjectileAnimation.frames.length = 2 ∧
      (underflowState 100).alienProjectileAnimation.time /
          (underflowState 100).alienProjectileAnimation.frameDuration <
        (underflowState 100).alienProjectileAnimation.numFrames) ∧
    (∀ type, type = 1 ∨ type = 2 ∨ type = 3 →
      ∃ sp, currentAlienSprite (underflowState 100) type = .ok sp) ∧
    (∀ s2 s3, simulateProjectiles (underflowState 100) = .ok s2 →
      playerAlienCollision s2 = .ok s3 →
      s2.alienAnimation = (underflowState 100).alienAnimation ∧
      s3.alienAnimation = (underflowState 100).alienAnimation ∧
      s3.alienProjectileAnimation = (underflowState 100).alienProjectileAnimation) :=
  frame_index_valid (underflowState 100) (underflow_reachable 100 (by decide))

/-! ## C26 -/

theorem digit_char : ∀ d : Nat, d < 10 →
    toChar ((48 : Int) + (d : Int) - 32) = (16 : Int) + (d : Int) ∧
      ofInt ((16 : Int) + (d : Int)) = 16 + d := by
  decide!

theorem decimalDigits_lt (n : Nat) : ∀ d ∈ decimalDigits n, d < 10 := by
  intro d hd
  unfold decimalDigits at hd
  split at hd
  · rw [List.mem_singleton] at hd
    omega
  · exact Nat.digits_lt_base (by decide) (List.mem_reverse.1 hd)

theorem glyph_numberSheet (sheet : Sprite) (hstride : sheet.width * sheet.height = 35)
    (d : Nat) (hd : d < 10) : glyph sheet (16 + d) = glyph (numberSheet sheet) d := by
  have e1 : (16 + d) * 35 % U64 = 16 * 35 + d * 35 := by
    rw [Nat.mod_eq_of_lt (by unfold U64; omega)]
    omega
  have e2 : d * 35 % U64 = d * 35 := Nat.mod_eq_of_lt (by unfold U64; omega)
  unfold glyph numberSheet
  simp only [hstride, e1, e2, List.drop_drop]

theorem drawText_digits (sheet : Sprite) (hstride : sheet.width * sheet.height = 35)
    (x y color : Nat) :
    ∀ (ds : List Nat) (i xp : Nat) (b : Buffer), (∀ d ∈ ds, d < 10) →
      xp = (x + i * (sheet.width + 1)) % U64 →
      ((ds.map fun (d : Nat) => (48 : Int) + (d : Int)).foldlM (drawChar sheet y color) (xp, b) >>=
          fun st => pure st.2) =
        (ds.enumFrom i).foldlM
          (fun b kd => drawSprite b (glyph (numberSheet sheet) kd.2)
            ((x + kd.1 * ((numberSheet sheet).width + 1)) % U64) y color) b := by
  intro ds
  induction ds with
  | nil => intro i xp b _ _; rfl
  | cons d ds ih =>
    intro i xp b hds hxp
    subst hxp
    have hd : d < 10 := hds d (List.mem_cons_self _ _)
    obtain ⟨c1, c2⟩ := digit_char d hd
    have hnext : addU ((x + i * (sheet.width + 1)) % U64) (addU sheet.width 1) =
        (x + (i + 1) * (sheet.width + 1)) % U64 := by
      unfold addU
      rw [Nat.add_mul, Nat.one_mul, ← Nat.add_assoc]
      simp [Nat.add_mod]
    have hskip : ¬ (toChar ((48 : Int) + (d : Int) - 32) < 0 ∨ 65 ≤ toChar ((48 : Int) + (d : Int) - 32)) := by
      rw [c1]; omega
    rw [List.map_cons, foldlM_cons_ok, List.enumFrom_cons, foldlM_cons_ok]
    unfold drawChar
    rw [if_neg hskip, c1, c2, glyph_numberSheet sheet hstride d hd]
    show ((drawSprite b (glyph (numberSheet sheet) d) ((x + i * (sheet.width + 1)) % U64) y color
        >>= fun b1 => pure (addU ((x + i * (sheet.width + 1)) % U64) (addU sheet.width 1), b1))
        >>= (fun st => (ds.map fun (d : Nat) => (48 : Int) + (d : Int)).foldlM
          (drawChar sheet y color) st)
        >>= (fun st => pure st.2)) =
      (drawSprite b (glyph (numberSheet sheet) d) ((x + i * (sheet.width + 1)) % U64) y color
        >>= fun b1 => (ds.enumFrom (i + 1)).foldlM
          (fun b kd => drawSprite b (glyph (numberSheet sheet) kd.2)
            ((x + kd.1 * ((numberSheet sheet).width + 1)) % U64) y color) b1)
    generalize drawSprite b (glyph (numberSheet sheet) d)
      ((x + i * (sheet.width + 1)) % U64) y color = r
    cases r with
    | error e => rfl
    | ok b1 =>
      show ((ds.map fun (d : Nat) => (48 : Int) + (d : Int)).foldlM (drawChar sheet y color)
          (addU ((x + i * (sheet.width + 1)) % U64) (addU sheet.width 1), b1) >>=
          fun st => pure st.2) = _
      rw [hnext]
      exact ih (i + 1) _ b1 (fun d' hd' => hds d' (List.mem_cons_of_mem _ hd')) rfl

/-- C30: for a text sheet with glyphs of 35 cells (5 × 7, so that the number
sheet of lines 604–605 is the text sheet moved on by 16 glyphs), every buffer,
every number and position that fit a `size_t`, and every color, `drawNumber`
with the number sheet returns what `drawText` returns with the text sheet and
the decimal string of the number: the same buffer, or the same fault. -/
theorem drawNumber_eq_drawText (b : Buffer) (sheet : Sprite) (n x y color : Nat)
    (hstride : sheet.width * sheet.height = 35) (hn : n < U64) (hx : x < U64) :
    drawNumber b (numberSheet sheet) n x y color =
      drawText b sheet (decimalString n) x y color := by
  unfold drawNumber drawText decimalString
  rw [digitsLoop_decimal hn, ok_bind, List.length_reverse]
  have h1 := blitDigits_fold (numberSheet sheet) (decimalDigits n) x y color
    (decimalDigits n).length 0 x b (by omega)
    (by rw [Nat.zero_mul, Nat.add_zero, Nat.mod_eq_of_lt hx])
  have h2 := drawText_digits sheet hstride x y color (decimalDigits n) 0 x b
    (decimalDigits_lt n) (by rw [Nat.zero_mul, Nat.add_zero, Nat.mod_eq_of_lt hx])
  rw [h1, h2]
  rfl

theorem drawNumber_eq_drawText_witness :
    drawNumber ⟨2, 2, [0, 0, 0, 0]⟩ (numberSheet ⟨5, 7, List.replicate 2275 1⟩) 1650 0 0 7 =
      drawText ⟨2, 2, [0, 0, 0, 0]⟩ ⟨5, 7, List.replicate 2275 1⟩ (decimalString 1650) 0 0 7 :=
  drawNumber_eq_drawText ⟨2, 2, [0, 0, 0, 0]⟩ ⟨5, 7, List.replicate 2275 1⟩ 1650 0 0 7
    (by decide) (by decide!) (by decide!)

end SpaceInvaders
